import Mathlib

/-!
# cReactor: the reactor core of `twisted/internet/cReactor/cReactor.c`

A shallow embedding of the reactor's state machine, of the system-event phase
protocol, of the descriptor table and of the poll step, followed by theorems about
them.

Python callables (event triggers, timed methods) and transport hooks are opaque to
the C code: the embedding records every invocation in a call log and keeps, for each
callable, the one thing the C code looks at, its result.
-/

namespace CReactor

/-! ## Data model -/

/-- States of a reactor (`reactor->state`), in the order INIT, RUNNING, STOPPING, DONE. -/
inductive cReactorState where
  | INIT
  | RUNNING
  | STOPPING
  | DONE
  deriving DecidableEq, Repr

/-- Position of a state in the order INIT, RUNNING, STOPPING, DONE. -/
def cReactorState.rank : cReactorState → Nat
  | .INIT => 0
  | .RUNNING => 1
  | .STOPPING => 2
  | .DONE => 3

/-- System event types, the first index of `reactor->event_triggers`. -/
inductive cReactorEventType where
  | STARTUP
  | SHUTDOWN
  | PERSIST
  deriving DecidableEq, Repr

/-- System event phases, the second index of `reactor->event_triggers`. -/
inductive cReactorEventPhase where
  | BEFORE
  | DURING
  | AFTER
  deriving DecidableEq, Repr

/-- What a Python callable does when `PyEval_CallObjectWithKeywords` calls it: it
returns a plain value, raises (the call returns NULL), or returns an instance of
`twisted.internet.defer.Deferred`; `addr` is the address of that object, the number
`PyLong_FromVoidPtr` stores. The Deferred has not fired when it is returned. -/
inductive PyResult where
  | value
  | raised
  | deferred (addr : Nat)
  deriving DecidableEq, Repr

/-- An entry of a method list: the id given at registration and the callable, seen
through its result. -/
structure Method where
  id : Nat
  result : PyResult
  deriving DecidableEq, Repr

/-- An entry of `reactor->timed_methods`: a method and the time it is due. -/
structure TimedMethod where
  deadline : Int
  method : Method
  deriving DecidableEq, Repr

/-- Modelled from the spec: `cReactorTransportState` is declared in cReactor.h, which
is not among the sources. The spec names ACTIVE and CLOSED and allows a PAUSED
distinction; the reactor core only ever compares with ACTIVE and with CLOSED. -/
inductive cReactorTransportState where
  | ACTIVE
  | PAUSED
  | CLOSED
  deriving DecidableEq, Repr

/-- Modelled from the spec: what a transport's `do_read` or `do_write` function does
to the reactor's view of the transport. Section 4.4: "Read and write hooks may
themselves mark their transport CLOSED"; section 4.3 lists the setters of the stale
flag (adding a transport, the poll step on an error bit), a hook is not among
them. -/
structure TransportHook where
  closes : Bool
  deriving DecidableEq, Repr

/-- Modelled from the spec: `cReactorTransport` is declared in cReactor.h. The fields
are the ones cReactor.c reads or writes: `fd`, `state`, `do_read`, `do_write`
(NULL is `none`), the bytes available in `out_buf`, whether `producer` is non-NULL,
and `event_mask`, the pointer into the pollfd array, kept as the index of the slot.
`ident` stands for the address of the object; `next` is the list structure. -/
structure cReactorTransport where
  ident : Nat
  fd : Int
  state : cReactorTransportState
  do_read : Option TransportHook
  do_write : Option TransportHook
  out_buf_avail : Nat
  producer : Bool
  event_mask : Option Nat
  deriving DecidableEq, Repr

/-- One `struct pollfd`: `events` and `revents` are the bit patterns of the two
shorts. -/
structure pollfd where
  fd : Int
  events : Nat
  revents : Nat
  deriving DecidableEq, Repr

/-- Value of `POLLIN` in `<poll.h>`. -/
def POLLIN : Nat := 1

/-- Value of `POLLOUT` in `<poll.h>`. -/
def POLLOUT : Nat := 4

/-- The expression `mask & ~(POLLIN | POLLOUT)` on the 16-bit pattern of a short. -/
def other_bits (mask : Nat) : Nat :=
  (mask % 2 ^ 16) &&& (2 ^ 16 - 1 - (POLLIN ||| POLLOUT))

/-- The reactor object. `pollfd_array` holds the slots written, `pollfd_size` is the
field of that name: the number the array was last allocated for. Both allocations
ask for `sizeof(struct pollfd *) * pollfd_size` bytes, see `pollfd_array_bytes`. -/
structure cReactor where
  state : cReactorState
  event_triggers : cReactorEventType → cReactorEventPhase → List Method
  defer_list : List Nat
  transports : List cReactorTransport
  num_transports : Nat
  pollfd_array : List pollfd
  pollfd_size : Nat
  pollfd_stale : Bool
  timed_methods : List TimedMethod

/-- A call that leaves cReactor.c, in the order made: a system event trigger or a
timed method being called, `cReactorTransport_Read`, `cReactorTransport_Write` and
`cReactorTransport_Close` on the transport with the given `ident`, `poll` with its
`nfds` and `timeout` arguments, and `signal` installing the handlers. -/
inductive Call where
  | trigger (m : Method)
  | timed (m : Method)
  | read (ident : Nat)
  | write (ident : Nat)
  | close (ident : Nat)
  | poll (nfds : Nat) (timeout : Int)
  | install_handlers
  deriving DecidableEq, Repr

/-- Which reactor the static `running_reactor` points to. -/
inductive ReactorRef where
  | this
  | another
  deriving DecidableEq, Repr

/-- The process: the reactor, the two statics of cReactor.c (`running_reactor`, NULL
is `none`, and `received_signal`), whether `cReactor_sighandler` is installed, and
the call log. -/
structure Proc where
  reactor : cReactor
  running_reactor : Option ReactorRef
  received_signal : Int
  handlers_installed : Bool
  log : List Call

/-- The pair of results of a C function that returns an int and changes the
process. -/
structure Ret where
  proc : Proc
  code : Int

/-! ## System events -/

/-- Modelled from the spec: `cReactorUtil_ForEachMethod` is defined in
cReactorUtil.c, which is not among the sources. A method list is "an ordered
sequence of deferred invocations"; the function calls `func` on each entry, first to
last, threading `user_data`. -/
def cReactorUtil_ForEachMethod {σ : Type} (list : List Method)
    (func : Method → σ → σ) (user_data : σ) : σ :=
  list.foldl (fun s m => func m s) user_data

/-- The callable is called; an exception is printed and the result is ignored. -/
def run_system_event_triggers (m : Method) (p : Proc) : Proc :=
  { p with log := p.log ++ [Call.trigger m] }

/-- Runs the DURING triggers, then the AFTER triggers, then moves STOPPING to DONE. -/
def finish_system_event (p : Proc) (type : cReactorEventType) : Proc :=
  let p1 := cReactorUtil_ForEachMethod
    (p.reactor.event_triggers type cReactorEventPhase.DURING) run_system_event_triggers p
  let p2 := cReactorUtil_ForEachMethod
    (p1.reactor.event_triggers type cReactorEventPhase.AFTER) run_system_event_triggers p1
  if p2.reactor.state = cReactorState.STOPPING then
    { p2 with reactor := { p2.reactor with state := cReactorState.DONE } }
  else p2

/-- The `user_data` of the BEFORE pass: the process (through `reactor`), the event
and the flag `got_defers`. -/
structure SysEventInfo where
  proc : Proc
  event : cReactorEventType
  got_defers : Bool

/-- One BEFORE trigger. The callable is called; when it returns a Deferred,
`got_defers` is set, the id of the Deferred is appended to `defer_list` and
`system_event_defer_callback` is attached to it with the id and the event.
Importing the Deferred class and `PyList_Append` are taken to succeed. -/
def run_before_system_event_triggers (m : Method) (event_info : SysEventInfo) :
    SysEventInfo :=
  let p := { event_info.proc with log := event_info.proc.log ++ [Call.trigger m] }
  match m.result with
  | PyResult.raised => { event_info with proc := p }
  | PyResult.value => { event_info with proc := p }
  | PyResult.deferred defer =>
    { event_info with
      got_defers := true
      proc := { p with reactor :=
        { p.reactor with defer_list := p.reactor.defer_list ++ [defer] } } }

/-- Fires a system event: the BEFORE triggers, and the rest of the event at once
when none of them returned a Deferred. -/
def fireSystemEvent_internal (p : Proc) (event : cReactorEventType) : Proc :=
  let event_info := cReactorUtil_ForEachMethod
    (p.reactor.event_triggers event cReactorEventPhase.BEFORE)
    run_before_system_event_triggers
    { proc := p, event := event, got_defers := false }
  if !event_info.got_defers then finish_system_event event_info.proc event
  else event_info.proc

/-- Modelled from the spec: the enumerators of `cReactorEventType` are declared in
cReactor.h; the int that `system_event_defer_callback` receives is taken to number
them in the order STARTUP, SHUTDOWN, PERSIST. Any other int is the `default` case of
the switch. -/
def cReactorEventType.ofInt (event_type : Int) : Option cReactorEventType :=
  if event_type = 0 then some cReactorEventType.STARTUP
  else if event_type = 1 then some cReactorEventType.SHUTDOWN
  else if event_type = 2 then some cReactorEventType.PERSIST
  else none

/-- The first argument of `system_event_defer_callback`: a Python long, or an object
of another type. -/
inductive PyArg where
  | long (n : Nat)
  | other
  deriving DecidableEq, Repr

/-- The callback attached to a Deferred. `none` is the NULL return after a failed
argument check. Otherwise the first entry of `defer_list` equal to the id is
removed, and the event is finished when the list is then empty. An entry is
identified with the number it holds. -/
def system_event_defer_callback (p : Proc) (defer_id : PyArg) (event_type : Int) :
    Option Proc :=
  match defer_id with
  | PyArg.other => none
  | PyArg.long d =>
    match cReactorEventType.ofInt event_type with
    | none => none
    | some event =>
      let p1 := { p with reactor :=
        { p.reactor with defer_list := p.reactor.defer_list.erase d } }
      if p1.reactor.defer_list.length = 0 then some (finish_system_event p1 event)
      else some p1

/-- Modelled from the spec: `cReactorUtil_GetEventType` is defined in cReactorUtil.c;
the type is one of "startup", "shutdown", "persist", anything else fails. -/
def cReactorUtil_GetEventType (type_str : String) : Option cReactorEventType :=
  if type_str = "startup" then some cReactorEventType.STARTUP
  else if type_str = "shutdown" then some cReactorEventType.SHUTDOWN
  else if type_str = "persist" then some cReactorEventType.PERSIST
  else none

/-- The method `fireSystemEvent(type)`; `none` is the NULL return. -/
def cReactor_fireSystemEvent (p : Proc) (type_str : String) : Option Proc :=
  match cReactorUtil_GetEventType type_str with
  | none => none
  | some event => some (fireSystemEvent_internal p event)

/-- Sets the state to STOPPING and fires SHUTDOWN. -/
def stop_internal (p : Proc) : Proc :=
  fireSystemEvent_internal
    { p with reactor := { p.reactor with state := cReactorState.STOPPING } }
    cReactorEventType.SHUTDOWN

/-- The method `stop()`. -/
def cReactor_stop (p : Proc) : Proc :=
  stop_internal p

/-- The signal handler: records the signal. -/
def cReactor_sighandler (p : Proc) (sig : Int) : Proc :=
  { p with received_signal := sig }

/-! ## Descriptor table -/

/-- The initial size of the pollfd array. -/
def CREACTOR_STARTING_POLLFD_SIZE : Nat := 8

/-- The events mask the rebuild writes for a transport that is not CLOSED: POLLIN
when the transport is ACTIVE and has a `do_read`, POLLOUT when it has a `do_write`
and data in `out_buf` or a producer. -/
def rebuild_events (transport : cReactorTransport) : Nat :=
  let events := 0
  let events :=
    if transport.state = cReactorTransportState.ACTIVE ∧ transport.do_read.isSome then
      events ||| POLLIN
    else events
  let events :=
    if transport.do_write.isSome ∧ (transport.out_buf_avail > 0 ∨ transport.producer) then
      events ||| POLLOUT
    else events
  events

/-- What the loop of the rebuild leaves: `transports` is the list as
`reactor->transports` designates it, `slots` the slots written, `closed` the calls
of `cReactorTransport_Close`, `num_transports` the counter. `unlinked` tells that
`reactor->transports` was assigned in the loop. `slotted` are the transports that
were given a slot, in the order of the slots, as the loop leaves the objects,
whether the list still holds them or not. -/
structure RebuildResult where
  transports : List cReactorTransport
  slots : List pollfd
  closed : List Call
  num_transports : Nat
  unlinked : Bool
  slotted : List cReactorTransport

/-- The loop of `iterate_rebuild_pollfd_arrray` from a transport on, with the value
of the counter `num_transports`, which is also the index of the slot `pfd` points
to. `shadow` is set to NULL before the loop and assigned nowhere else, so for a
CLOSED transport it is always `reactor->transports = transport` that runs, with
`transport` already at the successor: the list then starts after the CLOSED
transport, and the transports in front of it are no longer in it. A transport that
is not CLOSED gets the next slot and its `event_mask` points to it; it is still in
the list at the end when no CLOSED transport comes after it. The rebuild does not
write `revents`; `poll` writes it before it is read, and the embedding shows 0
until then. -/
def rebuild_loop : List cReactorTransport → Nat → RebuildResult
  | [], num_transports =>
    { transports := [], slots := [], closed := [], num_transports := num_transports,
      unlinked := false, slotted := [] }
  | transport :: next, num_transports =>
    if transport.state = cReactorTransportState.CLOSED then
      let r := rebuild_loop next num_transports
      { r with closed := Call.close transport.ident :: r.closed, unlinked := true }
    else
      let r := rebuild_loop next (num_transports + 1)
      let pfd : pollfd :=
        { fd := transport.fd, events := rebuild_events transport, revents := 0 }
      let pointed := { transport with event_mask := some num_transports }
      { r with
        transports := if r.unlinked then r.transports else pointed :: r.transports
        slots := pfd :: r.slots
        slotted := pointed :: r.slotted }

/-- Rebuilds the pollfd array from the transports: allocates the array anew for
twice the recorded count when `pollfd_size` is smaller than that count, runs the
loop, stores the new count and clears the stale flag. -/
def iterate_rebuild_pollfd_arrray (p : Proc) : Proc :=
  let reactor := p.reactor
  let pollfd_size :=
    if reactor.pollfd_size < reactor.num_transports then reactor.num_transports * 2
    else reactor.pollfd_size
  let r := rebuild_loop reactor.transports 0
  { p with
    reactor := { reactor with
      pollfd_size := pollfd_size
      transports := r.transports
      pollfd_array := r.slots
      num_transports := r.num_transports
      pollfd_stale := false }
    log := p.log ++ r.closed }

/-- The bytes of the block `pollfd_array` points to, for a pointer of
`sizeof_pointer` bytes: `cReactor_New` and the rebuild both call
`malloc(sizeof(struct pollfd *) * pollfd_size)`. -/
def pollfd_array_bytes (sizeof_pointer : Nat) (reactor : cReactor) : Nat :=
  sizeof_pointer * reactor.pollfd_size

/-- The bytes of one `struct pollfd`: an `int` of four bytes and two shorts. -/
def sizeof_struct_pollfd : Nat := 8

/-- Modelled from the spec: `cReactorTransport_Read` is defined in
cReactorTransport.c, which is not among the sources; it runs the read hook of the
transport, which may mark the transport CLOSED. -/
def cReactorTransport_Read (transport : cReactorTransport) : cReactorTransport :=
  match transport.do_read with
  | some hook =>
    if hook.closes then { transport with state := cReactorTransportState.CLOSED }
    else transport
  | none => transport

/-- Modelled from the spec: `cReactorTransport_Write` is defined in
cReactorTransport.c, which is not among the sources; it runs the write hook of the
transport, which may mark the transport CLOSED. -/
def cReactorTransport_Write (transport : cReactorTransport) : cReactorTransport :=
  match transport.do_write with
  | some hook =>
    if hook.closes then { transport with state := cReactorTransportState.CLOSED }
    else transport
  | none => transport

/-- What the dispatch leaves: the transports, the stale flag and the calls made. -/
structure ProcessResult where
  transports : List cReactorTransport
  stale : Bool
  calls : List Call

/-- The body of the loop of `iterate_process_pollfd_array` for one transport and the
`revents` of its slot. -/
def process_slot (revents : Nat) (transport : cReactorTransport) (stale : Bool) :
    ProcessResult :=
  if revents = 0 then
    { transports := [transport], stale := stale, calls := [] }
  else
    let r1 : cReactorTransport × List Call :=
      if revents &&& POLLIN ≠ 0 then
        (cReactorTransport_Read transport, [Call.read transport.ident])
      else (transport, [])
    let r2 : cReactorTransport × List Call :=
      if revents &&& POLLOUT ≠ 0 then
        (cReactorTransport_Write r1.1, r1.2 ++ [Call.write transport.ident])
      else r1
    if other_bits revents ≠ 0 then
      { transports := [{ r2.1 with state := cReactorTransportState.CLOSED }]
        stale := true
        calls := r2.2 }
    else
      { transports := [r2.1], stale := stale, calls := r2.2 }

/-- The `revents` of the slot `pfd` points to. The array has a slot for every
transport after a rebuild; a slot that is missing reads as 0. -/
def slot_revents : List pollfd → Nat
  | [] => 0
  | pfd :: _ => pfd.revents

/-- The loop of `iterate_process_pollfd_array`: transports and slots in lockstep. -/
def process_loop : List pollfd → List cReactorTransport → Bool → ProcessResult
  | _, [], stale => { transports := [], stale := stale, calls := [] }
  | pfds, transport :: next, stale =>
    let r := process_slot (slot_revents pfds) transport stale
    let rest := process_loop pfds.tail next r.stale
    { transports := r.transports ++ rest.transports
      stale := rest.stale
      calls := r.calls ++ rest.calls }

/-- Dispatches the results of a successful `poll`. -/
def iterate_process_pollfd_array (p : Proc) : Proc :=
  let r := process_loop p.reactor.pollfd_array p.reactor.transports p.reactor.pollfd_stale
  { p with
    reactor := { p.reactor with transports := r.transports, pollfd_stale := r.stale }
    log := p.log ++ r.calls }

/-- Adds a transport at the head of the linked list, counts it and marks the pollfd
array stale. -/
def cReactor_AddTransport (p : Proc) (transport : cReactorTransport) : Proc :=
  { p with reactor := { p.reactor with
      transports := transport :: p.reactor.transports
      num_transports := p.reactor.num_transports + 1
      pollfd_stale := true } }

/-- A new reactor (`cReactor_New` with `cReactor_init`). -/
def cReactor_New : cReactor :=
  { state := cReactorState.INIT
    event_triggers := fun _ _ => []
    defer_list := []
    transports := []
    num_transports := 0
    pollfd_array := []
    pollfd_size := CREACTOR_STARTING_POLLFD_SIZE
    pollfd_stale := false
    timed_methods := [] }

/-- The process after `cReactor_New`: no reactor running, no signal recorded. -/
def Proc.start : Proc :=
  { reactor := cReactor_New
    running_reactor := none
    received_signal := 0
    handlers_installed := false
    log := [] }

/-! ## The poll step -/

/-- Modelled from the spec: `cReactorUtil_NextMethodDelay` is defined in
cReactorUtil.c; section 4.5: "head deadline minus now, clamped to 0; -1 if empty". -/
def cReactorUtil_NextMethodDelay (list : List TimedMethod) (now : Int) : Int :=
  match list with
  | [] => -1
  | head :: _ => max 0 (head.deadline - now)

/-- Modelled from the spec: `cReactorUtil_RunMethods` is defined in cReactorUtil.c;
section 4.5: "remove and invoke every entry with deadline ≤ now, in deadline order"
(the list is kept in that order). -/
def cReactorUtil_RunMethods (p : Proc) (now : Int) : Proc :=
  let due := p.reactor.timed_methods.filter (fun t => decide (t.deadline ≤ now))
  { p with
    reactor := { p.reactor with
      timed_methods := p.reactor.timed_methods.filter (fun t => !decide (t.deadline ≤ now)) }
    log := p.log ++ due.map (fun t => Call.timed t.method) }

/-- The value of a C `int` expression whose mathematical value is `x`, with 32-bit
two's complement wrap-around. -/
def wrap_int32 (x : Int) : Int :=
  (x + 2 ^ 31) % 2 ^ 32 - 2 ^ 31

/-- The delay of a step, from the delay of the next timed method and the delay the
caller gave (`iterate_internal`, "Figure out the method delay"). -/
def sleep_delay (method_delay delay : Int) : Int :=
  if method_delay < 0 then delay
  else if delay ≥ 0 then (if method_delay < delay then method_delay else delay)
  else method_delay

/-- The third argument of `poll`: `sleep_delay * 1000` as an `int`. -/
def poll_timeout (method_delay delay : Int) : Int :=
  wrap_int32 (sleep_delay method_delay delay * 1000)

/-- What `poll` does in a step: it succeeds and writes the given `revents` into
the slots (0 where the list is shorter), it is interrupted (`errno` is EINTR), or it
fails with another `errno`. -/
inductive PollOutcome where
  | ready (revents : List Nat)
  | EINTR
  | failed (errno : Nat)
  deriving DecidableEq, Repr

/-- What the surroundings give to one step: the clock read for the next method
delay, the outcome of `poll`, a signal delivered while `poll` waits (0 for none),
and the clock read by `time(&now)`. -/
structure StepEnv where
  clock : Int
  poll : PollOutcome
  signal : Int
  now : Int
  deriving DecidableEq, Repr

/-- Writes the `revents` of a successful `poll` into the slots. -/
def poll_revents : List pollfd → List Nat → List pollfd
  | [], _ => []
  | pfd :: pfds, [] => { pfd with revents := 0 } :: poll_revents pfds []
  | pfd :: pfds, r :: rs => { pfd with revents := r } :: poll_revents pfds rs

/-- One step of the reactor. The result code is 0, or -1 when a reactor is running
already or `poll` fails with an error other than EINTR. -/
def iterate_internal (p : Proc) (delay : Int) (env : StepEnv) : Ret :=
  if p.running_reactor.isSome then { proc := p, code := -1 }
  else
    let p := { p with running_reactor := some ReactorRef.this }
    let p :=
      if p.reactor.state = cReactorState.INIT then
        let p := fireSystemEvent_internal p cReactorEventType.STARTUP
        let p := { p with received_signal := 0 }
        let p := { p with handlers_installed := true, log := p.log ++ [Call.install_handlers] }
        { p with reactor := { p.reactor with state := cReactorState.RUNNING } }
      else p
    let method_delay := cReactorUtil_NextMethodDelay p.reactor.timed_methods env.clock
    let timeout := poll_timeout method_delay delay
    let p := if p.reactor.pollfd_stale then iterate_rebuild_pollfd_arrray p else p
    let p := { p with log := p.log ++ [Call.poll p.reactor.num_transports timeout] }
    let p :=
      if env.signal ≠ 0 ∧ p.handlers_installed then cReactor_sighandler p env.signal
      else p
    match env.poll with
    | PollOutcome.failed _ => { proc := p, code := -1 }
    | outcome =>
      let p :=
        match outcome with
        | PollOutcome.ready revents =>
          iterate_process_pollfd_array
            { p with reactor := { p.reactor with
                pollfd_array := poll_revents p.reactor.pollfd_array revents } }
        | _ => p
      let p := cReactorUtil_RunMethods p env.now
      let p :=
        if p.received_signal ≠ 0 then
          if p.reactor.state = cReactorState.RUNNING then stop_internal p else p
        else p
      { proc := { p with running_reactor := none }, code := 0 }

/-- The method `iterate(delay)`, the delay being 0 when it is not given: one step. The
code is 0 for the None return and -1 for the NULL return. -/
def cReactor_iterate (p : Proc) (delay : Option Int) (env : StepEnv) : Ret :=
  let r := iterate_internal p (delay.getD 0) env
  if r.code < 0 then { proc := r.proc, code := -1 } else { proc := r.proc, code := 0 }

/-- The method `run()`: steps with delay -1 until the state is DONE. Each step takes
its surroundings from the list; `none` means the list ran out before the loop
ended. The code is 0 for the None return and -1 for the NULL return. -/
def cReactor_run (p : Proc) : List StepEnv → Option Ret
  | [] => if p.reactor.state = cReactorState.DONE then some { proc := p, code := 0 } else none
  | env :: envs =>
    if p.reactor.state = cReactorState.DONE then some { proc := p, code := 0 }
    else
      let r := iterate_internal p (-1) env
      if r.code < 0 then some { proc := r.proc, code := -1 }
      else cReactor_run r.proc envs

/-! ## Registration of triggers -/

/-- A Python object passed as an argument, as far as the argument checks of
cReactor.c tell objects apart: a string, an int, a callable (with what calling it
does), or an object that is none of these. -/
inductive PyObject where
  | str (s : String)
  | int (n : Int)
  | callable (result : PyResult)
  | other
  deriving DecidableEq, Repr

/-- The exception that is set when a method returns NULL: the NotImplementedError of
`cReactor_not_implemented` with its text, a TypeError (of `PyArg_ParseTuple` or of
the callable check), or the exception a helper of cReactorUtil.c has set. -/
inductive PyErr where
  | NotImplementedError (text : String)
  | TypeError
  | set_by_helper
  deriving DecidableEq, Repr

/-- The results of a method: the process after the call and the value returned, or
the exception set when NULL is returned. -/
structure PyReturn (α : Type) where
  proc : Proc
  result : Except PyErr α

/-- Sets NotImplementedError with the text and returns NULL. -/
def cReactor_not_implemented {α : Type} (p : Proc) (text : String) : PyReturn α :=
  { proc := p, result := Except.error (PyErr.NotImplementedError text) }

/-- Modelled from the spec: `cReactorUtil_GetEventPhase` is defined in
cReactorUtil.c; the comment at its call says "Phase can only be one of: before,
during, and after", anything else fails. -/
def cReactorUtil_GetEventPhase (phase_str : String) : Option cReactorEventPhase :=
  if phase_str = "before" then some cReactorEventPhase.BEFORE
  else if phase_str = "during" then some cReactorEventPhase.DURING
  else if phase_str = "after" then some cReactorEventPhase.AFTER
  else none

/-- Modelled from the spec: `cReactorUtil_AddMethod` is defined in cReactorUtil.c;
section 4.6: it "appends to the corresponding MethodList" and the id of the new
entry is returned. The id comes from a counter kept in cReactorUtil.c; the
embedding takes its value as `call_id`. -/
def cReactorUtil_AddMethod (list : List Method) (callable : PyResult) (call_id : Nat) :
    List Method × Nat :=
  (list ++ [{ id := call_id, result := callable }], call_id)

/-- The method `addSystemEventTrigger(phase, type, callable, ...)`. The first three
arguments are parsed with the format "ssO": two strings and an object. Then the
phase, the event type and the callable are checked, in that order, and the method
is added to the list of that event type and phase. -/
def cReactor_addSystemEventTrigger (p : Proc) (args : List PyObject) (call_id : Nat) :
    PyReturn Nat :=
  match args.take 3 with
  | [PyObject.str phase_str, PyObject.str event_type_str, callable] =>
    match cReactorUtil_GetEventPhase phase_str with
    | none => { proc := p, result := Except.error PyErr.set_by_helper }
    | some event_phase =>
      match cReactorUtil_GetEventType event_type_str with
      | none => { proc := p, result := Except.error PyErr.set_by_helper }
      | some event_type =>
        match callable with
        | PyObject.callable result =>
          let r := cReactorUtil_AddMethod (p.reactor.event_triggers event_type event_phase)
            result call_id
          { proc := { p with reactor := { p.reactor with
              event_triggers := fun t ph =>
                if t = event_type ∧ ph = event_phase then r.1
                else p.reactor.event_triggers t ph } }
            result := Except.ok r.2 }
        | _ => { proc := p, result := Except.error PyErr.TypeError }
  | _ => { proc := p, result := Except.error PyErr.TypeError }

/-- The method `removeSystemEventTrigger(id)`: not implemented. -/
def cReactor_removeSystemEventTrigger (p : Proc) (_args : List PyObject) : PyReturn Unit :=
  cReactor_not_implemented p "cReactor_removeSystemEventTrigger"

/-! ## Terms of the statements: adding a transport -/

/-- A transport for the examples: its fd is its ident, it has no pending output and
no producer. -/
def example_transport (ident : Nat) (state : cReactorTransportState)
    (do_read do_write : Option TransportHook) : cReactorTransport :=
  { ident := ident, fd := ident, state := state, do_read := do_read, do_write := do_write
    out_buf_avail := 0, producer := false, event_mask := none }

/-! ## Terms of the statements: the rebuild of the descriptor table -/

/-- The transports of a table whose state is not CLOSED, in table order. -/
def live_transports (ts : List cReactorTransport) : List cReactorTransport :=
  ts.filter (fun t => decide (t.state ≠ cReactorTransportState.CLOSED))

/-- The transports of a table whose state is CLOSED, in table order. -/
def closed_transports (ts : List cReactorTransport) : List cReactorTransport :=
  ts.filter (fun t => decide (t.state = cReactorTransportState.CLOSED))

/-! ## Terms of the statements: readiness dispatch -/

/-- By the words of the spec: the hooks the dispatch invokes for a transport whose
slot returned `revents`, the read hook when the readable bit is set, then the write
hook when the writable bit is set. -/
def dispatch_calls (revents : Nat) (t : cReactorTransport) : List Call :=
  (if revents &&& POLLIN ≠ 0 then [Call.read t.ident] else []) ++
  (if revents &&& POLLOUT ≠ 0 then [Call.write t.ident] else [])

/-- By the words of the spec: the transport after the hooks invoked for `revents`. -/
def dispatch_hooks (revents : Nat) (t : cReactorTransport) : cReactorTransport :=
  let t1 := if revents &&& POLLIN ≠ 0 then cReactorTransport_Read t else t
  if revents &&& POLLOUT ≠ 0 then cReactorTransport_Write t1 else t1

/-- By the words of the spec: the transport after the dispatch, marked CLOSED when a
bit other than readable and writable is set. -/
def dispatch_transport (revents : Nat) (t : cReactorTransport) : cReactorTransport :=
  if other_bits revents ≠ 0 then
    { dispatch_hooks revents t with state := cReactorTransportState.CLOSED }
  else dispatch_hooks revents t

/-! ## Terms of the statements: the phases of a system event -/

/-- The id of the Deferred a callable returns, if it returns one. -/
def PyResult.deferred_id : PyResult → Option Nat
  | PyResult.deferred addr => some addr
  | _ => none

/-- The completion handles the triggers of a list return, in list order. -/
def returned_handles (ms : List Method) : List Nat :=
  ms.filterMap (fun m => m.result.deferred_id)

/-- The calls of the triggers of a list, in list order, each once. -/
def trigger_calls (ms : List Method) : List Call :=
  ms.map Call.trigger

/-- The process with calls added to the log. -/
def Proc.logged (p : Proc) (calls : List Call) : Proc :=
  { p with log := p.log ++ calls }

/-- The process with handles added to `defer_list`. -/
def Proc.deferring (p : Proc) (handles : List Nat) : Proc :=
  { p with reactor := { p.reactor with defer_list := p.reactor.defer_list ++ handles } }

/-! ## Terms of the statements: completion handles -/

/-- The int that stands for an event type in the arguments of the callback. -/
def cReactorEventType.toInt : cReactorEventType → Int
  | cReactorEventType.STARTUP => 0
  | cReactorEventType.SHUTDOWN => 1
  | cReactorEventType.PERSIST => 2

/-- Handles resolving one after another: for each id in turn the callback attached
to the Deferred runs, with the id and the tag of the event. -/
def resolve_all (e : cReactorEventType) : Proc → List Nat → Option Proc
  | p, [] => some p
  | p, d :: ds =>
    match system_event_defer_callback p (PyArg.long d) e.toInt with
    | none => none
    | some q => resolve_all e q ds

/-- The process with `defer_list` replaced. -/
def Proc.with_defer_list (p : Proc) (l : List Nat) : Proc :=
  { p with reactor := { p.reactor with defer_list := l } }

/-- Triggers for the examples: two of the three BEFORE triggers of STARTUP return the
Deferreds 10 and 11, the BEFORE trigger of PERSIST returns the Deferred 20, the
BEFORE triggers of SHUTDOWN return no Deferred (the first one raises). -/
def example_triggers : cReactorEventType → cReactorEventPhase → List Method
  | cReactorEventType.STARTUP, cReactorEventPhase.BEFORE =>
    [{ id := 1, result := PyResult.deferred 10 }, { id := 2, result := PyResult.value },
     { id := 3, result := PyResult.deferred 11 }]
  | cReactorEventType.STARTUP, cReactorEventPhase.DURING => [{ id := 4, result := PyResult.value }]
  | cReactorEventType.STARTUP, cReactorEventPhase.AFTER => [{ id := 5, result := PyResult.value }]
  | cReactorEventType.PERSIST, cReactorEventPhase.BEFORE =>
    [{ id := 6, result := PyResult.deferred 20 }]
  | cReactorEventType.PERSIST, cReactorEventPhase.DURING => [{ id := 7, result := PyResult.value }]
  | cReactorEventType.PERSIST, cReactorEventPhase.AFTER => [{ id := 8, result := PyResult.value }]
  | cReactorEventType.SHUTDOWN, cReactorEventPhase.BEFORE =>
    [{ id := 9, result := PyResult.raised }, { id := 10, result := PyResult.value }]
  | cReactorEventType.SHUTDOWN, cReactorEventPhase.DURING =>
    [{ id := 11, result := PyResult.value }]
  | cReactorEventType.SHUTDOWN, cReactorEventPhase.AFTER =>
    [{ id := 12, result := PyResult.raised }]

/-- A new reactor with the triggers of the examples. -/
def example_proc : Proc :=
  { Proc.start with reactor := { cReactor_New with event_triggers := example_triggers } }

/-- STARTUP and then PERSIST fired on the example reactor, then the handles 10 and
11 of STARTUP and the handle 20 of PERSIST resolving, in that order. -/
def two_events_in_flight : Option Proc :=
  let p1 := fireSystemEvent_internal example_proc cReactorEventType.STARTUP
  let p2 := fireSystemEvent_internal p1 cReactorEventType.PERSIST
  (resolve_all cReactorEventType.STARTUP p2 [10, 11]).bind
    (fun p3 => resolve_all cReactorEventType.PERSIST p3 [20])

/-! ## Terms of the statements: the state of the reactor over a sequence of operations -/

/-- Triggers with one BEFORE trigger of SHUTDOWN, which returns the Deferred 7. -/
def deferred_shutdown_triggers : cReactorEventType → cReactorEventPhase → List Method
  | cReactorEventType.SHUTDOWN, cReactorEventPhase.BEFORE =>
    [{ id := 1, result := PyResult.deferred 7 }]
  | _, _ => []

/-- The surroundings of a step in which nothing happens: `poll` returns at once with
no descriptor ready, no signal arrives. -/
def quiet_step : StepEnv :=
  { clock := 0, poll := PollOutcome.ready [], signal := 0, now := 0 }

/-- The states of a new reactor with the triggers above, at the start and after each
of: `iterate(0)`, `stop()`, the Deferred 7 resolving, `stop()` once more. -/
def states_with_stop_after_done : Option (List cReactorState) :=
  let p0 : Proc :=
    { Proc.start with reactor := { cReactor_New with event_triggers := deferred_shutdown_triggers } }
  let p1 := (iterate_internal p0 0 quiet_step).proc
  let p2 := cReactor_stop p1
  (system_event_defer_callback p2 (PyArg.long 7) 1).map (fun p3 =>
    let p4 := cReactor_stop p3
    [p0.reactor.state, p1.reactor.state, p2.reactor.state, p3.reactor.state, p4.reactor.state])

/-! ## Terms of the statements: the stages of a step

The stages below cut `iterate_internal` into the parts the source runs one after
another; `iterate_internal_proc_eq` states that the step is their composition. -/

/-- The step up to the end of the one-time init handling. -/
def step_startup (p : Proc) : Proc :=
  let p := { p with running_reactor := some ReactorRef.this }
  if p.reactor.state = cReactorState.INIT then
    let p := fireSystemEvent_internal p cReactorEventType.STARTUP
    let p := { p with received_signal := 0 }
    let p := { p with handlers_installed := true, log := p.log ++ [Call.install_handlers] }
    { p with reactor := { p.reactor with state := cReactorState.RUNNING } }
  else p

/-- The refresh of the pollfd array, if needed. -/
def step_rebuild (p : Proc) : Proc :=
  if p.reactor.pollfd_stale then iterate_rebuild_pollfd_arrray p else p

/-- The call of `poll`, and a signal arriving while it waits. -/
def step_poll (p : Proc) (timeout : Int) (env : StepEnv) : Proc :=
  let p := { p with log := p.log ++ [Call.poll p.reactor.num_transports timeout] }
  if env.signal ≠ 0 ∧ p.handlers_installed then cReactor_sighandler p env.signal else p

/-- The dispatch of the events a successful `poll` returned. -/
def step_dispatch (p : Proc) (revents : List Nat) : Proc :=
  iterate_process_pollfd_array
    { p with reactor := { p.reactor with
        pollfd_array := poll_revents p.reactor.pollfd_array revents } }

/-- The timed methods, the signal latch and the end of the step. -/
def step_finish (p : Proc) (env : StepEnv) : Proc :=
  let p := cReactorUtil_RunMethods p env.now
  let p :=
    if p.received_signal ≠ 0 then
      if p.reactor.state = cReactorState.RUNNING then stop_internal p else p
    else p
  { p with running_reactor := none }

/-- The step after `poll`, by the outcome of `poll`. -/
def step_rest (p : Proc) (env : StepEnv) : Proc :=
  match env.poll with
  | PollOutcome.failed _ => p
  | PollOutcome.ready revents => step_finish (step_dispatch p revents) env
  | PollOutcome.EINTR => step_finish p env

/-- The timeout a step hands to `poll`. -/
def step_timeout (p : Proc) (delay : Int) (env : StepEnv) : Int :=
  poll_timeout (cReactorUtil_NextMethodDelay (step_startup p).reactor.timed_methods env.clock)
    delay

/-- Whether a call is a call of `cReactorTransport_Close`. -/
def Call.is_close : Call → Bool
  | Call.close _ => true
  | _ => false

/-- The second process has the descriptor table of the first: the transports, the
pollfd array, the stale flag and the transport count. -/
def same_table (p q : Proc) : Prop :=
  q.reactor.transports = p.reactor.transports ∧
  q.reactor.pollfd_array = p.reactor.pollfd_array ∧
  q.reactor.pollfd_stale = p.reactor.pollfd_stale ∧
  q.reactor.num_transports = p.reactor.num_transports

/-- The log of the second process is the log of the first followed by calls none of
which closes a transport. -/
def no_close_between (p q : Proc) : Prop :=
  ∃ l, q.log = p.log ++ l ∧ ∀ c ∈ l, c.is_close = false

/-- The surroundings of a step in which `poll` returns the given events for the
first slot. -/
def ready_step (revents : Nat) : StepEnv :=
  { clock := 0, poll := PollOutcome.ready [revents], signal := 0, now := 0 }

/-- The surroundings of a step in which `poll` returns the given events, slot by
slot. -/
def events_step (revents : List Nat) : StepEnv :=
  { clock := 0, poll := PollOutcome.ready revents, signal := 0, now := 0 }

/-- A new reactor with the transports 1, 2 and 3 registered (3 first, 1 last, so
that the table is 1, 2, 3), all ACTIVE and with a read hook that does not close. -/
def three_readers_proc : Proc :=
  cReactor_AddTransport
    (cReactor_AddTransport
      (cReactor_AddTransport Proc.start
        (example_transport 3 cReactorTransportState.ACTIVE (some { closes := false }) none))
      (example_transport 2 cReactorTransportState.ACTIVE (some { closes := false }) none))
    (example_transport 1 cReactorTransportState.ACTIVE (some { closes := false }) none)

/-- The reactor above after a step in which `poll` returns the error bit 8 for the
second slot, after a following step in which `poll` returns the error bit 8 for the
first slot, and after a quiet step that follows. -/
def three_readers_steps : Proc × Proc × Proc :=
  let p1 := (iterate_internal three_readers_proc 0 (events_step [0, 8, 0])).proc
  let p2 := (iterate_internal p1 0 (events_step [8, 0])).proc
  (p1, p2, (iterate_internal p2 0 quiet_step).proc)

/-- A new reactor with the transports 1 and 2 registered (2 first, so that the table
is 1, 2), both ACTIVE and with a read hook that does not close, after a step in which
`poll` returns the error bit 8 for the second slot: transport 2 is CLOSED. -/
def hung_up_second_proc : Proc :=
  (iterate_internal
    (cReactor_AddTransport
      (cReactor_AddTransport Proc.start
        (example_transport 2 cReactorTransportState.ACTIVE (some { closes := false }) none))
      (example_transport 1 cReactorTransportState.ACTIVE (some { closes := false }) none))
    0 (events_step [0, 8])).proc

/-- A new reactor with the transports 2 and 1 registered (1 first), both ACTIVE and
with a read hook that does not close. -/
def two_readers_proc : Proc :=
  cReactor_AddTransport
    (cReactor_AddTransport Proc.start
      (example_transport 1 cReactorTransportState.ACTIVE (some { closes := false }) none))
    (example_transport 2 cReactorTransportState.ACTIVE (some { closes := false }) none)

/-- A reactor after `poll`: the transports 1 and 2 with their slots; the first slot
returned readable and writable, the second nothing. -/
def dispatch_example_proc : Proc :=
  { Proc.start with reactor := { cReactor_New with
      transports :=
        [example_transport 1 cReactorTransportState.ACTIVE (some { closes := false })
           (some { closes := false }),
         example_transport 2 cReactorTransportState.ACTIVE (some { closes := false }) none]
      num_transports := 2
      pollfd_array :=
        [{ fd := 1, events := 5, revents := 5 }, { fd := 2, events := 1, revents := 0 }] } }

/-! ## Terms of the statements: a step seen from outside -/

/-- The calls a firing of an event makes at once: the BEFORE triggers and, when none
of them returns a completion handle, the DURING and the AFTER triggers. -/
def fired_calls (triggers : cReactorEventType → cReactorEventPhase → List Method)
    (e : cReactorEventType) : List Call :=
  trigger_calls (triggers e cReactorEventPhase.BEFORE) ++
  (if returned_handles (triggers e cReactorEventPhase.BEFORE) = [] then
    trigger_calls (triggers e cReactorEventPhase.DURING)
      ++ trigger_calls (triggers e cReactorEventPhase.AFTER)
  else [])

/-- The calls of the timed methods that are due at `now`, in list order. -/
def due_calls (timed : List TimedMethod) (now : Int) : List Call :=
  (timed.filter (fun t => decide (t.deadline ≤ now))).map (fun t => Call.timed t.method)

/-- Whether a call is a call of `cReactorTransport_Read` or `cReactorTransport_Write`. -/
def Call.is_hook : Call → Bool
  | Call.read _ => true
  | Call.write _ => true
  | _ => false

/-- Whether a call is a call of a timed method. -/
def Call.is_timed : Call → Bool
  | Call.timed _ => true
  | _ => false

/-- The process of a step when `poll` has returned. -/
def step_at_poll (p : Proc) (delay : Int) (env : StepEnv) : Proc :=
  step_poll (step_rebuild (step_startup p)) (step_timeout p delay env) env

/-- The process of a step whose `poll` did not fail with an error, after the
readiness dispatch (none when `poll` was interrupted). -/
def step_after_dispatch (p : Proc) (delay : Int) (env : StepEnv) : Proc :=
  match env.poll with
  | PollOutcome.ready revents => step_dispatch (step_at_poll p delay env) revents
  | _ => step_at_poll p delay env

/-- The process of a step whose `poll` did not fail with an error, when the step
comes to look at the signal latch: after the timed methods. -/
def step_at_signal_check (p : Proc) (delay : Int) (env : StepEnv) : Proc :=
  cReactorUtil_RunMethods (step_after_dispatch p delay env) env.now

/-! ## Terms of the statements: further examples -/

/-- The surroundings of a step in which `poll` fails with the errno 9 (EBADF). -/
def failing_step : StepEnv :=
  { clock := 0, poll := PollOutcome.failed 9, signal := 0, now := 0 }

/-- A new process in which another reactor is recorded as running. -/
def other_running_proc : Proc :=
  { Proc.start with running_reactor := some ReactorRef.another }

/-- A step of a new reactor in which `poll` fails, and the quiet step that is tried
next. -/
def steps_after_failed_poll : Ret × Ret :=
  let r1 := iterate_internal Proc.start 0 failing_step
  (r1, iterate_internal r1.proc 0 quiet_step)

/-- Triggers with a BEFORE (1), a DURING (2) and an AFTER (3) trigger of STARTUP that
return plain values, and a BEFORE trigger of PERSIST (4) that returns the
Deferred 20. -/
def plain_startup_triggers : cReactorEventType → cReactorEventPhase → List Method
  | cReactorEventType.STARTUP, cReactorEventPhase.BEFORE => [{ id := 1, result := PyResult.value }]
  | cReactorEventType.STARTUP, cReactorEventPhase.DURING => [{ id := 2, result := PyResult.value }]
  | cReactorEventType.STARTUP, cReactorEventPhase.AFTER => [{ id := 3, result := PyResult.value }]
  | cReactorEventType.PERSIST, cReactorEventPhase.BEFORE =>
    [{ id := 4, result := PyResult.deferred 20 }]
  | _, _ => []

/-- A new reactor with the triggers above. -/
def plain_startup_proc : Proc :=
  { Proc.start with reactor := { cReactor_New with event_triggers := plain_startup_triggers } }

/-- The reactor above after `fireSystemEvent("persist")`, and after the first step
that follows, a quiet one. -/
def first_step_after_persist : Proc × Proc :=
  let p1 := fireSystemEvent_internal plain_startup_proc cReactorEventType.PERSIST
  (p1, (iterate_internal p1 0 quiet_step).proc)

/-- Triggers of SHUTDOWN only: a BEFORE trigger (1) that returns the Deferred 7, a
DURING trigger (2) and an AFTER trigger (3). -/
def pending_shutdown_triggers : cReactorEventType → cReactorEventPhase → List Method
  | cReactorEventType.SHUTDOWN, cReactorEventPhase.BEFORE =>
    [{ id := 1, result := PyResult.deferred 7 }]
  | cReactorEventType.SHUTDOWN, cReactorEventPhase.DURING =>
    [{ id := 2, result := PyResult.value }]
  | cReactorEventType.SHUTDOWN, cReactorEventPhase.AFTER =>
    [{ id := 3, result := PyResult.value }]
  | _, _ => []

/-- A new reactor with the triggers above after `iterate(0)` and `stop()`, and then
after `fireSystemEvent("persist")`. -/
def persist_while_stopping : Proc × Option Proc :=
  let p0 : Proc :=
    { Proc.start with reactor := { cReactor_New with event_triggers := pending_shutdown_triggers } }
  let p2 := cReactor_stop (iterate_internal p0 0 quiet_step).proc
  (p2, cReactor_fireSystemEvent p2 "persist")

/-- The example reactor after `iterate(0)`, which leaves the handles 10 and 11 of
STARTUP outstanding, and then after `stop()`. -/
def stop_while_starting : Proc × Proc :=
  let p1 := (iterate_internal example_proc 0 quiet_step).proc
  (p1, cReactor_stop p1)

/-- A new reactor after `addSystemEventTrigger("during", "persist", f)`, which gets
the id 1, then `removeSystemEventTrigger(1)`, then `fireSystemEvent("persist")`. -/
def add_remove_fire : PyReturn Nat × PyReturn Unit × Option Proc :=
  let r1 := cReactor_addSystemEventTrigger Proc.start
    [PyObject.str "during", PyObject.str "persist", PyObject.callable PyResult.value] 1
  let r2 := cReactor_removeSystemEventTrigger r1.proc [PyObject.int 1]
  (r1, r2, cReactor_fireSystemEvent r2.proc "persist")

/-- The name of a phase in the arguments of `addSystemEventTrigger`. -/
def cReactorEventPhase.name : cReactorEventPhase → String
  | cReactorEventPhase.BEFORE => "before"
  | cReactorEventPhase.DURING => "during"
  | cReactorEventPhase.AFTER => "after"

/-- The name of an event type in the arguments of `addSystemEventTrigger`. -/
def cReactorEventType.name : cReactorEventType → String
  | cReactorEventType.STARTUP => "startup"
  | cReactorEventType.SHUTDOWN => "shutdown"
  | cReactorEventType.PERSIST => "persist"

/-- The surroundings of a step in which the signal 2 (SIGINT) arrives while `poll`
waits, and interrupts it. -/
def sigint_step : StepEnv :=
  { clock := 0, poll := PollOutcome.EINTR, signal := 2, now := 0 }

/-- Whether a call is a call of a system event trigger. -/
def Call.is_trigger : Call → Bool
  | Call.trigger _ => true
  | _ => false

/-- The calls a step makes before it calls `poll`: in the state INIT the calls of
the STARTUP event and the installation of the signal handlers, and with a stale
pollfd array the close calls of the rebuild. -/
def calls_before_poll (p : Proc) : List Call :=
  (if p.reactor.state = cReactorState.INIT then
    fired_calls p.reactor.event_triggers cReactorEventType.STARTUP ++ [Call.install_handlers]
  else []) ++
  (if p.reactor.pollfd_stale then
    (closed_transports p.reactor.transports).map (fun t => Call.close t.ident)
  else [])

/-! ## Terms of the statements: triggers that raise -/

/-- The result of a callable that behaves in the same way but returns a plain value
where it raised. -/
def PyResult.no_raise : PyResult → PyResult
  | PyResult.raised => PyResult.value
  | r => r

/-- The method with the same id whose callable does not raise. -/
def Method.no_raise (m : Method) : Method :=
  { m with result := m.result.no_raise }

/-- The trigger lists in which no callable raises. -/
def no_raise_triggers (triggers : cReactorEventType → cReactorEventPhase → List Method) :
    cReactorEventType → cReactorEventPhase → List Method :=
  fun t ph => (triggers t ph).map Method.no_raise

/-- A call seen without the fact that the callable raised. -/
def Call.no_raise : Call → Call
  | Call.trigger m => Call.trigger m.no_raise
  | Call.timed m => Call.timed m.no_raise
  | c => c

/-- The process with other trigger lists. -/
def Proc.with_triggers (p : Proc)
    (triggers : cReactorEventType → cReactorEventPhase → List Method) : Proc :=
  { p with reactor := { p.reactor with event_triggers := triggers } }

/-! ## Terms of the statements: the descriptor table over a sequence of operations -/

/-- An operation on the descriptor table: `cReactor_AddTransport` with a transport,
the transport at an index being marked CLOSED (by its hook, or by the dispatch,
which also sets the stale flag), and a rebuild. -/
inductive TableOp where
  | add (transport : cReactorTransport)
  | mark_closed (index : Nat) (sets_stale : Bool)
  | rebuild
  deriving DecidableEq, Repr

/-- The process after an operation on the descriptor table. -/
def apply_table_op (p : Proc) : TableOp → Proc
  | TableOp.add transport => cReactor_AddTransport p transport
  | TableOp.mark_closed index sets_stale =>
    { p with reactor := { p.reactor with
        transports := p.reactor.transports.modify
          (fun t => { t with state := cReactorTransportState.CLOSED }) index
        pollfd_stale := p.reactor.pollfd_stale || sets_stale } }
  | TableOp.rebuild => iterate_rebuild_pollfd_arrray p

/-- The process after a sequence of operations on the descriptor table. -/
def apply_table_ops (p : Proc) (ops : List TableOp) : Proc :=
  ops.foldl apply_table_op p

/-! ## Terms of the statements: steps and resolutions in sequence -/

/-- An operation of the loop: a step with its delay and surroundings, or a completion
handle resolving (the callback called with an id and an event tag). -/
inductive LoopOp where
  | step (delay : Int) (env : StepEnv)
  | resolve (defer_id : PyArg) (event_type : Int)
  deriving DecidableEq, Repr

/-- The process after an operation of the loop; a callback that returns NULL leaves
the process as it is. -/
def apply_loop_op (p : Proc) : LoopOp → Proc
  | LoopOp.step delay env => (iterate_internal p delay env).proc
  | LoopOp.resolve defer_id event_type =>
    match system_event_defer_callback p defer_id event_type with
    | some q => q
    | none => p

/-- The process after a sequence of operations of the loop. -/
def apply_loop_ops (p : Proc) (ops : List LoopOp) : Proc :=
  ops.foldl apply_loop_op p

/-- Whether `poll` failed with an error other than EINTR. -/
def PollOutcome.is_failed : PollOutcome → Bool
  | PollOutcome.failed _ => true
  | _ => false

/-- Whether a step calls `stop_internal`, that is fires SHUTDOWN: the step is not
rejected as re-entrant, `poll` does not fail with an error, and at the signal check
the latch is non-zero and the state is RUNNING. -/
def step_stops (p : Proc) (delay : Int) (env : StepEnv) : Bool :=
  decide (p.running_reactor = none) && !env.poll.is_failed &&
  decide ((step_at_signal_check p delay env).received_signal ≠ 0) &&
  decide ((step_at_signal_check p delay env).reactor.state = cReactorState.RUNNING)

/-- The number of times SHUTDOWN is fired over a sequence of operations of the loop:
the number of steps that call `stop_internal`. -/
def shutdowns_fired : Proc → List LoopOp → Nat
  | _, [] => 0
  | p, LoopOp.step delay env :: ops =>
    (if step_stops p delay env then 1 else 0)
      + shutdowns_fired (apply_loop_op p (LoopOp.step delay env)) ops
  | p, LoopOp.resolve defer_id event_type :: ops =>
    shutdowns_fired (apply_loop_op p (LoopOp.resolve defer_id event_type)) ops

/-- The surroundings of a quiet step during which SIGINT arrives. -/
def sigint_ready_step : StepEnv :=
  { clock := 0, poll := PollOutcome.ready [], signal := 2, now := 0 }

/-- The callback called with the id 5 and the tag of PERSIST on the example
reactor, whose `defer_list` is empty. -/
def empty_defer_list_call : Option Proc :=
  system_event_defer_callback example_proc (PyArg.long 5) 2

/-- A sequence of operations on the descriptor table: transport 2 is registered,
then transport 1 (both ACTIVE, the table is 1, 2), transport 2 is marked CLOSED with
the stale flag set, as the dispatch does for an error bit, and the table is
rebuilt. -/
def dropping_table_ops : List TableOp :=
  [TableOp.add (example_transport 2 cReactorTransportState.ACTIVE none none),
   TableOp.add (example_transport 1 cReactorTransportState.ACTIVE none none),
   TableOp.mark_closed 1 true,
   TableOp.rebuild]

/-- Five transports registered, all ACTIVE. -/
def five_adds : List TableOp :=
  (List.range 5).map
    (fun i => TableOp.add (example_transport i cReactorTransportState.ACTIVE none none))

/-! # Theorems -/

/-! ## The delay of a step -/

/-- C4: the delay of a step is the caller's delay when no timed method is scheduled
(the method delay is negative), the smaller of the two when both are non-negative,
and the method delay when the caller's delay is negative. -/
theorem sleep_delay_spec (method_delay delay : Int) :
    (method_delay < 0 → sleep_delay method_delay delay = delay) ∧
    (0 ≤ method_delay → 0 ≤ delay → sleep_delay method_delay delay = min method_delay delay) ∧
    (0 ≤ method_delay → delay < 0 → sleep_delay method_delay delay = method_delay) := by
  refine ⟨fun h => ?_, fun h1 h2 => ?_, fun h1 h2 => ?_⟩
  · simp [sleep_delay, h]
  · have h3 : ¬ method_delay < 0 := not_lt.mpr h1
    by_cases h4 : method_delay < delay
    · simp [sleep_delay, h3, h2, h4, min_eq_left (le_of_lt h4)]
    · simp [sleep_delay, h3, h2, h4, min_eq_right (not_lt.mp h4)]
  · have h3 : ¬ method_delay < 0 := not_lt.mpr h1
    have h4 : ¬ delay ≥ 0 := not_le.mpr h2
    simp [sleep_delay, h3, h4]

/-- The three cases of C4 at concrete delays: no timer and delay 5, a timer in 3
seconds and delay 5, a timer in 3 seconds and delay -1. -/
theorem sleep_delay_spec_witness :
    sleep_delay (-1) 5 = 5 ∧ sleep_delay 3 5 = min 3 5 ∧ sleep_delay 3 (-1) = 3 :=
  ⟨(sleep_delay_spec (-1) 5).1 (by decide),
   (sleep_delay_spec 3 5).2.1 (by decide) (by decide),
   (sleep_delay_spec 3 (-1)).2.2 (by decide) (by decide)⟩

/-- C5, the code at the failing input: with no timed method (method delay -1) and
the caller's delay 2147484 seconds, `sleep_delay * 1000` does not fit an `int` and
the timeout handed to `poll` is negative, which `poll` takes as no timeout at
all. -/
theorem poll_timeout_overflow :
    sleep_delay (-1) 2147484 = 2147484 ∧
    poll_timeout (-1) 2147484 = -2147483296 ∧
    poll_timeout (-1) 2147484 < 0 := by
  refine ⟨by decide, by decide, by decide⟩

/-- For a caller's delay of at most 2147483 seconds the product fits: the timeout
is non-negative and at most the caller's delay in milliseconds. -/
theorem poll_timeout_bounded (method_delay delay : Int)
    (h0 : 0 ≤ delay) (h1 : delay ≤ 2147483) :
    0 ≤ poll_timeout method_delay delay ∧ poll_timeout method_delay delay ≤ delay * 1000 := by
  have hs : 0 ≤ sleep_delay method_delay delay ∧ sleep_delay method_delay delay ≤ delay := by
    unfold sleep_delay
    split_ifs <;> constructor <;> omega
  have hw : wrap_int32 (sleep_delay method_delay delay * 1000)
      = sleep_delay method_delay delay * 1000 := by
    unfold wrap_int32
    omega
  unfold poll_timeout
  rw [hw]
  omega

/-! ## Adding a transport -/

/-- C9 as stated fails: after registering transport 1 and then transport 2 on a new
reactor the table is 2, 1 and not 1, 2. -/
theorem AddTransport_not_appended :
    ((cReactor_AddTransport
        (cReactor_AddTransport Proc.start
          (example_transport 1 cReactorTransportState.ACTIVE none none))
        (example_transport 2 cReactorTransportState.ACTIVE none none)).reactor.transports.map
      cReactorTransport.ident = [2, 1]) ∧
    (cReactor_AddTransport
        (cReactor_AddTransport Proc.start
          (example_transport 1 cReactorTransportState.ACTIVE none none))
        (example_transport 2 cReactorTransportState.ACTIVE none none)).reactor.transports
      ≠ (cReactor_AddTransport Proc.start
          (example_transport 1 cReactorTransportState.ACTIVE none none)).reactor.transports
        ++ [example_transport 2 cReactorTransportState.ACTIVE none none] := by
  refine ⟨by decide, by decide⟩

/-- C9 as amended: `cReactor_AddTransport` puts the new transport at the head of the
table, before all transports registered earlier, whose order it keeps; it raises
the transport count by one and sets the stale flag. -/
theorem AddTransport_head (p : Proc) (transport : cReactorTransport) :
    (cReactor_AddTransport p transport).reactor.transports
      = transport :: p.reactor.transports ∧
    (cReactor_AddTransport p transport).reactor.num_transports
      = p.reactor.num_transports + 1 ∧
    (cReactor_AddTransport p transport).reactor.pollfd_stale = true :=
  ⟨rfl, rfl, rfl⟩

/-! ## The rebuild of the descriptor table -/

theorem rebuild_loop_slots (ts : List cReactorTransport) (n : Nat) :
    (rebuild_loop ts n).slots
      = (live_transports ts).map
          (fun t => { fd := t.fd, events := rebuild_events t, revents := 0 }) := by
  induction ts generalizing n with
  | nil => rfl
  | cons t ts ih =>
    by_cases h : t.state = cReactorTransportState.CLOSED
    · simp [rebuild_loop, live_transports, h]
      simpa [live_transports] using ih n
    · simp [rebuild_loop, live_transports, h]
      simpa [live_transports] using ih (n + 1)

theorem rebuild_loop_closed (ts : List cReactorTransport) (n : Nat) :
    (rebuild_loop ts n).closed
      = (closed_transports ts).map (fun t => Call.close t.ident) := by
  induction ts generalizing n with
  | nil => rfl
  | cons t ts ih =>
    by_cases h : t.state = cReactorTransportState.CLOSED
    · simp [rebuild_loop, closed_transports, h]
      simpa [closed_transports] using ih n
    · simp [rebuild_loop, closed_transports, h]
      simpa [closed_transports] using ih (n + 1)

theorem rebuild_loop_num (ts : List cReactorTransport) (n : Nat) :
    (rebuild_loop ts n).num_transports = n + (live_transports ts).length := by
  induction ts generalizing n with
  | nil => rfl
  | cons t ts ih =>
    by_cases h : t.state = cReactorTransportState.CLOSED
    · simp [rebuild_loop, live_transports, h]
      simpa [live_transports] using ih n
    · simp [rebuild_loop, live_transports, h]
      have := ih (n + 1)
      simp [live_transports] at this
      omega

theorem rebuild_loop_slotted (ts : List cReactorTransport) (n i : Nat) :
    (rebuild_loop ts n).slotted[i]?
      = (live_transports ts)[i]?.map (fun t => { t with event_mask := some (n + i) }) := by
  induction ts generalizing n i with
  | nil => simp [rebuild_loop, live_transports]
  | cons t ts ih =>
    by_cases h : t.state = cReactorTransportState.CLOSED
    · simp [rebuild_loop, live_transports, h]
      simpa [live_transports] using ih n i
    · cases i with
      | zero => simp [rebuild_loop, live_transports, h]
      | succ j =>
        simp [rebuild_loop, live_transports, h]
        have := ih (n + 1) j
        simp [live_transports] at this
        rw [this]
        have e : n + 1 + j = n + (j + 1) := by omega
        rw [e]

theorem rebuild_loop_slotted_length (ts : List cReactorTransport) (n : Nat) :
    (rebuild_loop ts n).slotted.length = (live_transports ts).length := by
  induction ts generalizing n with
  | nil => rfl
  | cons t ts ih =>
    by_cases h : t.state = cReactorTransportState.CLOSED
    · simp [rebuild_loop, live_transports, h]
      simpa [live_transports] using ih n
    · simp [rebuild_loop, live_transports, h]
      simpa [live_transports] using ih (n + 1)

theorem rebuild_loop_slotted_idents (ts : List cReactorTransport) (n : Nat) :
    (rebuild_loop ts n).slotted.map cReactorTransport.ident
      = (live_transports ts).map cReactorTransport.ident := by
  induction ts generalizing n with
  | nil => rfl
  | cons t ts ih =>
    by_cases h : t.state = cReactorTransportState.CLOSED
    · simp [rebuild_loop, live_transports, h]
      simpa [live_transports] using ih n
    · simp [rebuild_loop, live_transports, h]
      simpa [live_transports] using ih (n + 1)

/-- The loop assigns `reactor->transports` exactly when it meets a CLOSED
transport. -/
theorem rebuild_loop_unlinked (ts : List cReactorTransport) (n : Nat) :
    (rebuild_loop ts n).unlinked = true ↔ closed_transports ts ≠ [] := by
  induction ts generalizing n with
  | nil => simp [rebuild_loop, closed_transports]
  | cons t ts ih =>
    by_cases h : t.state = cReactorTransportState.CLOSED
    · simp [rebuild_loop, closed_transports, h]
    · simp [rebuild_loop, closed_transports, h]
      simpa [closed_transports] using ih (n + 1)

/-- When the loop meets no CLOSED transport, the list it leaves holds every
transport that was given a slot. -/
theorem rebuild_loop_kept (ts : List cReactorTransport) (n : Nat)
    (h : (rebuild_loop ts n).unlinked = false) :
    (rebuild_loop ts n).transports = (rebuild_loop ts n).slotted := by
  induction ts generalizing n with
  | nil => rfl
  | cons t ts ih =>
    by_cases hc : t.state = cReactorTransportState.CLOSED
    · simp [rebuild_loop, hc] at h
    · simp only [rebuild_loop, hc, if_false] at h ⊢
      simp only [h, Bool.false_eq_true, if_false, ih (n + 1) h]

/-- The list the loop leaves is an end piece of the transports that were given a
slot. -/
theorem rebuild_loop_suffix (ts : List cReactorTransport) (n : Nat) :
    (rebuild_loop ts n).transports <:+ (rebuild_loop ts n).slotted := by
  induction ts generalizing n with
  | nil => exact List.suffix_refl _
  | cons t ts ih =>
    by_cases h : t.state = cReactorTransportState.CLOSED
    · simp only [rebuild_loop, h, if_true]
      exact ih n
    · simp only [rebuild_loop, h, if_false]
      by_cases hu : (rebuild_loop ts (n + 1)).unlinked = true
      · simp only [hu, if_true]
        exact (ih (n + 1)).trans (List.suffix_cons _ _)
      · have hu2 : (rebuild_loop ts (n + 1)).unlinked = false := by simpa using hu
        simp only [hu2, Bool.false_eq_true, if_false, rebuild_loop_kept ts (n + 1) hu2]
        exact List.suffix_refl _

theorem rebuild_loop_length_le (ts : List cReactorTransport) (n : Nat) :
    (rebuild_loop ts n).transports.length ≤ (live_transports ts).length := by
  rw [← rebuild_loop_slotted_length ts n]
  exact (rebuild_loop_suffix ts n).length_le

theorem rebuild_loop_idents (ts : List cReactorTransport) (n : Nat) :
    List.Sublist ((rebuild_loop ts n).transports.map cReactorTransport.ident)
      ((live_transports ts).map cReactorTransport.ident) := by
  rw [← rebuild_loop_slotted_idents ts n]
  exact (rebuild_loop_suffix ts n).sublist.map _

theorem rebuild_events_bits (t : cReactorTransport) :
    (rebuild_events t &&& POLLIN ≠ 0
      ↔ (t.state = cReactorTransportState.ACTIVE ∧ t.do_read.isSome = true)) ∧
    (rebuild_events t &&& POLLOUT ≠ 0
      ↔ (t.do_write.isSome = true ∧ (0 < t.out_buf_avail ∨ t.producer = true))) ∧
    other_bits (rebuild_events t) = 0 := by
  by_cases hr : t.state = cReactorTransportState.ACTIVE ∧ t.do_read.isSome = true <;>
  by_cases hw : t.do_write.isSome = true ∧ (t.out_buf_avail > 0 ∨ t.producer = true) <;>
  · have hw2 := hw
    simp only [gt_iff_lt] at hw2
    simp only [rebuild_events, hr, hw, if_true, if_false, hw2, and_self, iff_true, iff_false,
      not_false_eq_true, true_and, and_true, ne_eq, not_not]
    decide

/-- C6: after a rebuild the live count and the number of slots equal the number of
transports that were not CLOSED, and for the i-th such transport, in the order of
the table before the rebuild, slot i holds its fd and a requested mask with the
readable bit exactly when the transport is ACTIVE and has a read capability, the
writable bit exactly when it has a write capability and pending output or a
producer, and no other bit; the loop leaves that transport with its event-mask
reference designating slot i. Every transport the rebuilt table holds is one of
these, so that its event-mask reference designates a slot with its fd. -/
theorem rebuild_descriptor_fidelity (p : Proc) :
    (iterate_rebuild_pollfd_arrray p).reactor.num_transports
      = (live_transports p.reactor.transports).length ∧
    (iterate_rebuild_pollfd_arrray p).reactor.pollfd_array.length
      = (live_transports p.reactor.transports).length ∧
    (∀ (i : Nat) (t : cReactorTransport), (live_transports p.reactor.transports)[i]? = some t →
      ∃ slot : pollfd,
        (iterate_rebuild_pollfd_arrray p).reactor.pollfd_array[i]? = some slot ∧
        slot.fd = t.fd ∧
        (slot.events &&& POLLIN ≠ 0
          ↔ (t.state = cReactorTransportState.ACTIVE ∧ t.do_read.isSome = true)) ∧
        (slot.events &&& POLLOUT ≠ 0
          ↔ (t.do_write.isSome = true ∧ (0 < t.out_buf_avail ∨ t.producer = true))) ∧
        other_bits slot.events = 0 ∧
        (rebuild_loop p.reactor.transports 0).slotted[i]?
          = some { t with event_mask := some i }) ∧
    (∀ t ∈ (iterate_rebuild_pollfd_arrray p).reactor.transports,
      ∃ (i : Nat) (slot : pollfd),
        t.event_mask = some i ∧
        (iterate_rebuild_pollfd_arrray p).reactor.pollfd_array[i]? = some slot ∧
        slot.fd = t.fd) := by
  refine ⟨?_, ?_, ?_, ?_⟩
  · simp [iterate_rebuild_pollfd_arrray, rebuild_loop_num]
  · simp [iterate_rebuild_pollfd_arrray, rebuild_loop_slots]
  · intro i t ht
    refine ⟨{ fd := t.fd, events := rebuild_events t, revents := 0 }, ?_, rfl,
      (rebuild_events_bits t).1, (rebuild_events_bits t).2.1, (rebuild_events_bits t).2.2, ?_⟩
    · simp [iterate_rebuild_pollfd_arrray, rebuild_loop_slots, ht]
    · simp [rebuild_loop_slotted, ht]
  · intro t ht
    have hmem : t ∈ (rebuild_loop p.reactor.transports 0).slotted :=
      (rebuild_loop_suffix p.reactor.transports 0).subset ht
    obtain ⟨i, hi⟩ := List.getElem?_of_mem hmem
    rw [rebuild_loop_slotted] at hi
    cases hl : (live_transports p.reactor.transports)[i]? with
    | none => rw [hl] at hi; cases hi
    | some t0 =>
      rw [hl] at hi
      simp only [Option.map_some', Option.some.injEq, Nat.zero_add] at hi
      refine ⟨i, { fd := t0.fd, events := rebuild_events t0, revents := 0 }, ?_, ?_, ?_⟩
      · rw [← hi]
      · simp [iterate_rebuild_pollfd_arrray, rebuild_loop_slots, hl]
      · rw [← hi]

/-- C7 fails in the source, at the table of `hung_up_second_proc`: transport 1
(ACTIVE) followed by transport 2 (CLOSED). The rebuild calls the close hook of
transport 2 once, writes the one slot of transport 1, counts one transport and
clears the stale flag, but it leaves the table empty: transport 1, which was not
CLOSED, is no longer in it. -/
theorem rebuild_drops_transport_before_closed :
    hung_up_second_proc.reactor.transports.map (fun t => (t.ident, t.state))
      = [(1, cReactorTransportState.ACTIVE), (2, cReactorTransportState.CLOSED)] ∧
    (iterate_rebuild_pollfd_arrray hung_up_second_proc).reactor.transports = [] ∧
    (iterate_rebuild_pollfd_arrray hung_up_second_proc).reactor.pollfd_array.map pollfd.fd
      = [1] ∧
    (iterate_rebuild_pollfd_arrray hung_up_second_proc).reactor.num_transports = 1 ∧
    (iterate_rebuild_pollfd_arrray hung_up_second_proc).log
      = hung_up_second_proc.log ++ [Call.close 2] ∧
    (iterate_rebuild_pollfd_arrray hung_up_second_proc).reactor.pollfd_stale = false := by
  decide

/-- What holds of every rebuild: the table it leaves is a part of the transports
that were not CLOSED, in their previous order; the close hook is called once for
each transport that was CLOSED, in table order, and for no other; the stale flag is
left cleared; and when no transport was CLOSED, the table keeps every transport. -/
theorem rebuild_sweep_frame (p : Proc) :
    List.Sublist ((iterate_rebuild_pollfd_arrray p).reactor.transports.map
        cReactorTransport.ident)
      ((live_transports p.reactor.transports).map cReactorTransport.ident) ∧
    (iterate_rebuild_pollfd_arrray p).log
      = p.log ++ (closed_transports p.reactor.transports).map (fun t => Call.close t.ident) ∧
    (iterate_rebuild_pollfd_arrray p).reactor.pollfd_stale = false ∧
    (closed_transports p.reactor.transports = [] →
      (iterate_rebuild_pollfd_arrray p).reactor.transports.map cReactorTransport.ident
        = p.reactor.transports.map cReactorTransport.ident) := by
  refine ⟨rebuild_loop_idents _ _, ?_, rfl, ?_⟩
  · simp [iterate_rebuild_pollfd_arrray, rebuild_loop_closed]
  · intro hc
    have hu : (rebuild_loop p.reactor.transports 0).unlinked = false := by
      have := (rebuild_loop_unlinked p.reactor.transports 0).not.mpr (by simpa using hc)
      simpa using this
    have hl : live_transports p.reactor.transports = p.reactor.transports := by
      unfold live_transports
      rw [List.filter_eq_self]
      intro t ht
      have : t ∉ closed_transports p.reactor.transports := by rw [hc]; simp
      simp only [closed_transports, List.mem_filter, ht, true_and, decide_eq_true_eq] at this
      simpa using this
    show (rebuild_loop p.reactor.transports 0).transports.map cReactorTransport.ident = _
    rw [rebuild_loop_kept _ _ hu, rebuild_loop_slotted_idents, hl]

/-! ## The bits of an events mask -/

/-- The readable bit is bit 0 of a mask. -/
theorem and_POLLIN_ne_zero_iff (m : Nat) : m &&& POLLIN ≠ 0 ↔ m.testBit 0 = true := by
  unfold POLLIN
  rw [Nat.and_one_is_mod]
  simp [Nat.testBit_zero]

/-- The writable bit is bit 2 of a mask. -/
theorem and_POLLOUT_ne_zero_iff (m : Nat) : m &&& POLLOUT ≠ 0 ↔ m.testBit 2 = true := by
  have h : POLLOUT = 2 ^ 2 := rfl
  rw [h, Nat.and_two_pow]
  cases m.testBit 2 <;> simp

theorem mask_testBit (k : Nat) :
    (2 ^ 16 - 1 - (POLLIN ||| POLLOUT)).testBit k = (decide (k < 16) && decide (k ≠ 0) && decide (k ≠ 2)) := by
  by_cases hk : k < 16
  · interval_cases k <;> decide
  · have : (2 ^ 16 - 1 - (POLLIN ||| POLLOUT)) < 2 ^ k := by
      have h1 : (2:Nat) ^ 16 ≤ 2 ^ k := Nat.pow_le_pow_right (by norm_num) (by omega)
      have h2 : (2 ^ 16 - 1 - (POLLIN ||| POLLOUT)) < 2 ^ 16 := by decide
      omega
    rw [Nat.testBit_lt_two_pow this]
    simp [hk]

/-- The expression `mask & ~(POLLIN | POLLOUT)` is non-zero exactly when one of the 16
bits of the short other than the readable and the writable bit is set. -/
theorem other_bits_ne_zero_iff (m : Nat) :
    other_bits m ≠ 0 ↔ ∃ k, k < 16 ∧ k ≠ 0 ∧ k ≠ 2 ∧ m.testBit k = true := by
  constructor
  · intro h
    obtain ⟨k, hk⟩ := Nat.ne_zero_implies_bit_true h
    unfold other_bits at hk
    rw [Nat.testBit_and, mask_testBit, Nat.testBit_mod_two_pow] at hk
    simp at hk
    exact ⟨k, hk.1.1, hk.2.1.2, hk.2.2, hk.1.2⟩
  · rintro ⟨k, h1, h2, h3, h4⟩ h0
    have : (other_bits m).testBit k = true := by
      unfold other_bits
      rw [Nat.testBit_and, mask_testBit, Nat.testBit_mod_two_pow]
      simp [h1, h2, h3, h4]
    rw [h0] at this
    simp at this

/-! ## Readiness dispatch -/

theorem cReactorTransport_Read_ident (t : cReactorTransport) :
    (cReactorTransport_Read t).ident = t.ident := by
  unfold cReactorTransport_Read
  split
  · split <;> rfl
  · rfl

theorem process_slot_spec (revents : Nat) (t : cReactorTransport) (stale : Bool) :
    process_slot revents t stale
      = { transports := [dispatch_transport revents t]
          stale := stale || decide (other_bits revents ≠ 0)
          calls := dispatch_calls revents t } := by
  by_cases h0 : revents = 0
  · subst h0
    simp [process_slot, dispatch_transport, dispatch_calls, dispatch_hooks, other_bits]
  · by_cases hi : revents &&& POLLIN = 0 <;> by_cases ho : revents &&& POLLOUT = 0 <;>
    by_cases hx : other_bits revents = 0 <;>
    simp [process_slot, dispatch_transport, dispatch_calls, dispatch_hooks, h0, hi, ho, hx]

theorem process_loop_spec (ts : List cReactorTransport) :
    ∀ (pfds : List pollfd) (stale : Bool), ts.length ≤ pfds.length →
      (process_loop pfds ts stale).transports
        = (pfds.zip ts).map (fun x => dispatch_transport x.1.revents x.2) ∧
      (process_loop pfds ts stale).calls
        = (pfds.zip ts).flatMap (fun x => dispatch_calls x.1.revents x.2) ∧
      (process_loop pfds ts stale).stale
        = (stale || (pfds.zip ts).any (fun x => decide (other_bits x.1.revents ≠ 0))) := by
  induction ts with
  | nil => intro pfds stale _; simp [process_loop]
  | cons t ts ih =>
    intro pfds stale h
    cases pfds with
    | nil => simp at h
    | cons pfd pfds =>
      have hl : ts.length ≤ pfds.length := by simpa using h
      obtain ⟨h1, h2, h3⟩ := ih pfds (stale || decide (other_bits pfd.revents ≠ 0)) hl
      simp only [process_loop, slot_revents, process_slot_spec, List.tail_cons, h1, h2, h3]
      refine ⟨by simp, by simp, by simp [Bool.or_assoc]⟩

/-- C10: when every transport has its descriptor slot, the dispatch pairs the
transports with the slots in table order and, for each pair, invokes the read hook
once iff the readable bit is set in the returned events and then the write hook
once iff the writable bit is set, invokes nothing else, marks the transport CLOSED
iff a bit other than readable and writable is set, and leaves the stale flag set
iff it was set or some pair has such a bit; a pair whose returned events are zero
invokes no hook and leaves the transport as it was, and sets no flag. -/
theorem dispatch_by_returned_events (p : Proc)
    (h : p.reactor.transports.length ≤ p.reactor.pollfd_array.length) :
    (iterate_process_pollfd_array p).log
      = p.log ++ (p.reactor.pollfd_array.zip p.reactor.transports).flatMap
          (fun x => dispatch_calls x.1.revents x.2) ∧
    (iterate_process_pollfd_array p).reactor.transports
      = (p.reactor.pollfd_array.zip p.reactor.transports).map
          (fun x => dispatch_transport x.1.revents x.2) ∧
    ((iterate_process_pollfd_array p).reactor.pollfd_stale = true
      ↔ (p.reactor.pollfd_stale = true ∨
          ∃ x ∈ p.reactor.pollfd_array.zip p.reactor.transports,
            other_bits x.1.revents ≠ 0)) ∧
    (∀ x ∈ p.reactor.pollfd_array.zip p.reactor.transports, x.1.revents = 0 →
      dispatch_calls x.1.revents x.2 = [] ∧ dispatch_transport x.1.revents x.2 = x.2 ∧
      other_bits x.1.revents = 0) := by
  obtain ⟨h1, h2, h3⟩ :=
    process_loop_spec p.reactor.transports p.reactor.pollfd_array p.reactor.pollfd_stale h
  refine ⟨?_, ?_, ?_, ?_⟩
  · simp [iterate_process_pollfd_array, h2]
  · simp [iterate_process_pollfd_array, h1]
  · simp only [iterate_process_pollfd_array, h3, Bool.or_eq_true, List.any_eq_true,
      decide_eq_true_eq]
  · intro x _ hx
    rw [hx]
    simp [dispatch_calls, dispatch_transport, dispatch_hooks, other_bits]

/-! ## The phases of a system event -/

theorem Proc.logged_nil (p : Proc) : p.logged [] = p := by
  simp [Proc.logged]

theorem Proc.deferring_nil (p : Proc) : p.deferring [] = p := by
  simp [Proc.deferring]

theorem trigger_pass (ms : List Method) (p : Proc) :
    cReactorUtil_ForEachMethod ms run_system_event_triggers p = p.logged (trigger_calls ms) := by
  induction ms generalizing p with
  | nil => simp [cReactorUtil_ForEachMethod, trigger_calls, Proc.logged]
  | cons m ms ih =>
    have h := ih (run_system_event_triggers m p)
    simp only [cReactorUtil_ForEachMethod, List.foldl_cons] at h ⊢
    rw [h]
    simp [run_system_event_triggers, Proc.logged, trigger_calls]

theorem before_pass (ms : List Method) (info : SysEventInfo) :
    cReactorUtil_ForEachMethod ms run_before_system_event_triggers info
      = { proc := (info.proc.logged (trigger_calls ms)).deferring (returned_handles ms)
          event := info.event
          got_defers := info.got_defers || decide (returned_handles ms ≠ []) } := by
  induction ms generalizing info with
  | nil =>
    simp [cReactorUtil_ForEachMethod, trigger_calls, returned_handles, Proc.logged,
      Proc.deferring]
  | cons m ms ih =>
    have h := ih (run_before_system_event_triggers m info)
    simp only [cReactorUtil_ForEachMethod, List.foldl_cons] at h ⊢
    rw [h]
    cases hm : m.result <;>
    simp [run_before_system_event_triggers, hm, Proc.logged, Proc.deferring, trigger_calls,
      returned_handles, PyResult.deferred_id]

theorem finish_system_event_eq (p : Proc) (e : cReactorEventType) :
    finish_system_event p e
      = { p with
          reactor := { p.reactor with
            state := if p.reactor.state = cReactorState.STOPPING then cReactorState.DONE
              else p.reactor.state }
          log := p.log ++ (trigger_calls (p.reactor.event_triggers e cReactorEventPhase.DURING)
            ++ trigger_calls (p.reactor.event_triggers e cReactorEventPhase.AFTER)) } := by
  simp only [finish_system_event, trigger_pass, Proc.logged]
  by_cases h : p.reactor.state = cReactorState.STOPPING <;> simp [h]

theorem fireSystemEvent_internal_eq (p : Proc) (e : cReactorEventType) :
    fireSystemEvent_internal p e
      = if returned_handles (p.reactor.event_triggers e cReactorEventPhase.BEFORE) = [] then
          finish_system_event
            (p.logged (trigger_calls (p.reactor.event_triggers e cReactorEventPhase.BEFORE))) e
        else
          (p.logged (trigger_calls (p.reactor.event_triggers e cReactorEventPhase.BEFORE))).deferring
            (returned_handles (p.reactor.event_triggers e cReactorEventPhase.BEFORE)) := by
  simp only [fireSystemEvent_internal, before_pass]
  by_cases h : returned_handles (p.reactor.event_triggers e cReactorEventPhase.BEFORE) = []
  · simp [h, Proc.deferring_nil]
  · simp [h]

/-- C3: when no BEFORE trigger of the event returns a completion handle,
`fireSystemEvent_internal` calls the BEFORE triggers of that event, then its DURING
triggers, then its AFTER triggers, each trigger once and each list in its order
(the order of registration), and calls nothing else. -/
theorem fire_without_handles (p : Proc) (e : cReactorEventType)
    (h : ∀ m ∈ p.reactor.event_triggers e cReactorEventPhase.BEFORE,
      m.result.deferred_id = none) :
    (fireSystemEvent_internal p e).log
      = p.log ++ (trigger_calls (p.reactor.event_triggers e cReactorEventPhase.BEFORE)
          ++ trigger_calls (p.reactor.event_triggers e cReactorEventPhase.DURING)
          ++ trigger_calls (p.reactor.event_triggers e cReactorEventPhase.AFTER)) := by
  have h0 : returned_handles (p.reactor.event_triggers e cReactorEventPhase.BEFORE) = [] := by
    unfold returned_handles
    rw [List.filterMap_eq_nil_iff]
    exact h
  rw [fireSystemEvent_internal_eq, if_pos h0, finish_system_event_eq]
  simp [Proc.logged, List.append_assoc]

/-! ## Completion handles -/

theorem cReactorEventType.ofInt_toInt (e : cReactorEventType) :
    cReactorEventType.ofInt e.toInt = some e := by
  cases e <;> rfl

theorem system_event_defer_callback_eq (p : Proc) (d : Nat) (e : cReactorEventType) :
    system_event_defer_callback p (PyArg.long d) e.toInt
      = some (if p.reactor.defer_list.erase d = [] then
          finish_system_event (p.with_defer_list (p.reactor.defer_list.erase d)) e
        else p.with_defer_list (p.reactor.defer_list.erase d)) := by
  simp only [system_event_defer_callback, cReactorEventType.ofInt_toInt, Proc.with_defer_list,
    List.length_eq_zero]
  split_ifs <;> rfl

theorem resolve_all_append (e : cReactorEventType) (a b : List Nat) (p : Proc) :
    resolve_all e p (a ++ b) = (resolve_all e p a).bind (fun q => resolve_all e q b) := by
  induction a generalizing p with
  | nil => simp [resolve_all]
  | cons d a ih =>
    simp only [List.cons_append, resolve_all]
    cases system_event_defer_callback p (PyArg.long d) e.toInt with
    | none => simp
    | some q => simpa using ih q

theorem resolve_all_pending (e : cReactorEventType) (rest : List Nat) (hrest : rest ≠ []) :
    ∀ (done : List Nat) (p : Proc), List.Perm p.reactor.defer_list (done ++ rest) →
      ∃ l, List.Perm l rest ∧ resolve_all e p done = some (p.with_defer_list l) := by
  intro done
  induction done with
  | nil =>
    intro p hp
    exact ⟨p.reactor.defer_list, by simpa using hp, by simp [resolve_all, Proc.with_defer_list]⟩
  | cons d done ih =>
    intro p hp
    have he : List.Perm (p.reactor.defer_list.erase d) (done ++ rest) := by
      have := hp.erase d
      simpa using this
    have hne : p.reactor.defer_list.erase d ≠ [] := by
      intro h0
      rw [h0] at he
      have hlen := he.length_eq
      simp only [List.length_nil, List.length_append] at hlen
      exact hrest (List.length_eq_zero.mp (by omega))
    obtain ⟨l, hl, hres⟩ := ih (p.with_defer_list (p.reactor.defer_list.erase d))
      (by simpa [Proc.with_defer_list] using he)
    refine ⟨l, hl, ?_⟩
    simp only [resolve_all, system_event_defer_callback_eq, if_neg hne, hres]
    simp [Proc.with_defer_list]

theorem resolve_all_last (e : cReactorEventType) (order : List Nat) (p : Proc)
    (hne : order ≠ []) (hp : List.Perm p.reactor.defer_list order) :
    resolve_all e p order = some (finish_system_event (p.with_defer_list []) e) := by
  obtain ⟨init, last, rfl⟩ : ∃ init last, order = init ++ [last] :=
    ⟨order.dropLast, order.getLast hne, (List.dropLast_append_getLast hne).symm⟩
  obtain ⟨l, hl, hres⟩ := resolve_all_pending e [last] (by simp) init p hp
  have hl1 : l = [last] := List.perm_singleton.mp hl
  subst hl1
  rw [resolve_all_append, hres]
  simp [resolve_all, system_event_defer_callback_eq, Proc.with_defer_list]

/-- The witness of C3: SHUTDOWN fired on the example reactor, whose BEFORE triggers
return no Deferred, calls the triggers 9, 10 (BEFORE), 11 (DURING), 12 (AFTER). -/
theorem fire_without_handles_witness :
    (∀ m ∈ example_proc.reactor.event_triggers cReactorEventType.SHUTDOWN
        cReactorEventPhase.BEFORE, m.result.deferred_id = none) ∧
    (fireSystemEvent_internal example_proc cReactorEventType.SHUTDOWN).log
      = [Call.trigger { id := 9, result := PyResult.raised },
         Call.trigger { id := 10, result := PyResult.value },
         Call.trigger { id := 11, result := PyResult.value },
         Call.trigger { id := 12, result := PyResult.raised }] :=
  ⟨by decide, fire_without_handles example_proc cReactorEventType.SHUTDOWN (by decide)⟩

/-- C2 as stated fails: with STARTUP and PERSIST both waiting for handles, all
handles of STARTUP resolve and then the one of PERSIST; `defer_list` is empty at the
end, the DURING and AFTER triggers of PERSIST (7 and 8) have run, and those of
STARTUP (4 and 5) have not run at all. -/
theorem during_never_runs_with_two_events :
    two_events_in_flight.map (fun q => (q.reactor.defer_list, q.log))
      = some ([],
          [Call.trigger { id := 1, result := PyResult.deferred 10 },
           Call.trigger { id := 2, result := PyResult.value },
           Call.trigger { id := 3, result := PyResult.deferred 11 },
           Call.trigger { id := 6, result := PyResult.deferred 20 },
           Call.trigger { id := 7, result := PyResult.value },
           Call.trigger { id := 8, result := PyResult.value }]) := by
  decide

/-- C2 as amended: for an event fired while `defer_list` is empty, and no other event
with completion handles fired before its handles have resolved, in whatever order
they resolve: as long as a handle is outstanding only the BEFORE triggers have run,
and when the last handle has resolved the DURING triggers and then the AFTER
triggers have run, each once, and `defer_list` is empty again. With no handle at
all this holds when the event has been fired. -/
theorem phases_follow_handles (p : Proc) (e : cReactorEventType) (order : List Nat)
    (h0 : p.reactor.defer_list = [])
    (hperm : List.Perm order
      (returned_handles (p.reactor.event_triggers e cReactorEventPhase.BEFORE))) :
    (∀ done : List Nat, done <+: order → done ≠ order →
      ∃ q, resolve_all e (fireSystemEvent_internal p e) done = some q ∧
        q.log = p.log ++ trigger_calls (p.reactor.event_triggers e cReactorEventPhase.BEFORE)) ∧
    (∃ q, resolve_all e (fireSystemEvent_internal p e) order = some q ∧
      q.log = p.log ++ (trigger_calls (p.reactor.event_triggers e cReactorEventPhase.BEFORE)
          ++ trigger_calls (p.reactor.event_triggers e cReactorEventPhase.DURING)
          ++ trigger_calls (p.reactor.event_triggers e cReactorEventPhase.AFTER)) ∧
      q.reactor.defer_list = []) := by
  by_cases hh : returned_handles (p.reactor.event_triggers e cReactorEventPhase.BEFORE) = []
  · have ho : order = [] := by
      rw [hh] at hperm
      exact List.Perm.eq_nil hperm
    subst ho
    refine ⟨?_, ?_⟩
    · intro done hd hne
      exact absurd (List.prefix_nil.mp hd) hne
    · refine ⟨fireSystemEvent_internal p e, rfl, ?_, ?_⟩
      · rw [fireSystemEvent_internal_eq, if_pos hh, finish_system_event_eq]
        simp [Proc.logged, List.append_assoc]
      · rw [fireSystemEvent_internal_eq, if_pos hh, finish_system_event_eq]
        simpa [Proc.logged] using h0
  · have hfire : fireSystemEvent_internal p e
        = (p.logged (trigger_calls (p.reactor.event_triggers e cReactorEventPhase.BEFORE))).deferring
            (returned_handles (p.reactor.event_triggers e cReactorEventPhase.BEFORE)) := by
      rw [fireSystemEvent_internal_eq, if_neg hh]
    have hlist : List.Perm (fireSystemEvent_internal p e).reactor.defer_list order := by
      rw [hfire]
      simpa [Proc.deferring, Proc.logged, h0] using hperm.symm
    have hone : order ≠ [] := by
      intro ho
      rw [ho] at hperm
      exact hh (List.Perm.eq_nil hperm.symm)
    refine ⟨?_, ?_⟩
    · intro done hd hne
      obtain ⟨rest, hrest⟩ := hd
      have hr : rest ≠ [] := by
        intro hr
        rw [hr, List.append_nil] at hrest
        exact hne hrest
      obtain ⟨l, _, hres⟩ := resolve_all_pending e rest hr done (fireSystemEvent_internal p e)
        (by rw [hrest]; exact hlist)
      refine ⟨_, hres, ?_⟩
      rw [hfire]
      simp [Proc.with_defer_list, Proc.deferring, Proc.logged]
    · refine ⟨_, resolve_all_last e order (fireSystemEvent_internal p e) hone hlist, ?_, ?_⟩
      · rw [finish_system_event_eq, hfire]
        simp [Proc.with_defer_list, Proc.deferring, Proc.logged, List.append_assoc]
      · rw [finish_system_event_eq]
        simp [Proc.with_defer_list]

/-- The witness of C2 as amended: STARTUP fired on the example reactor returns the
handles 10 and 11; they resolve in the order 11, 10. After 11 alone only the BEFORE
triggers 1, 2, 3 have run; after both, the triggers 4 (DURING) and 5 (AFTER) have
run as well. -/
theorem phases_follow_handles_witness :
    example_proc.reactor.defer_list = [] ∧
    List.Perm [11, 10] (returned_handles
      (example_proc.reactor.event_triggers cReactorEventType.STARTUP cReactorEventPhase.BEFORE)) ∧
    (∃ q, resolve_all cReactorEventType.STARTUP
        (fireSystemEvent_internal example_proc cReactorEventType.STARTUP) [11] = some q ∧
      q.log = example_proc.log ++ trigger_calls
        (example_proc.reactor.event_triggers cReactorEventType.STARTUP cReactorEventPhase.BEFORE)) ∧
    (∃ q, resolve_all cReactorEventType.STARTUP
        (fireSystemEvent_internal example_proc cReactorEventType.STARTUP) [11, 10] = some q ∧
      q.log = example_proc.log ++ (trigger_calls
            (example_proc.reactor.event_triggers cReactorEventType.STARTUP cReactorEventPhase.BEFORE)
          ++ trigger_calls
            (example_proc.reactor.event_triggers cReactorEventType.STARTUP cReactorEventPhase.DURING)
          ++ trigger_calls
            (example_proc.reactor.event_triggers cReactorEventType.STARTUP cReactorEventPhase.AFTER)) ∧
      q.reactor.defer_list = []) :=
  ⟨rfl, List.Perm.swap 10 11 [],
   (phases_follow_handles example_proc cReactorEventType.STARTUP [11, 10] rfl
      (List.Perm.swap 10 11 [])).1 [11] ⟨[10], rfl⟩ (by decide),
   (phases_follow_handles example_proc cReactorEventType.STARTUP [11, 10] rfl
      (List.Perm.swap 10 11 [])).2⟩

/-! ## The state of the reactor over a sequence of operations -/

/-- C1, the code at the failing input: `stop()` on a reactor that has reached DONE
sets the state back to STOPPING, and the state stays there while the Deferred of
the BEFORE trigger of SHUTDOWN is outstanding. -/
theorem stop_after_done_goes_back :
    states_with_stop_after_done
      = some [cReactorState.INIT, cReactorState.RUNNING, cReactorState.STOPPING,
          cReactorState.DONE, cReactorState.STOPPING] := by
  decide

/-! ## The stages of a step, and a closure found by the next step -/

theorem iterate_internal_proc_eq (p : Proc) (delay : Int) (env : StepEnv)
    (h : p.running_reactor = none) :
    (iterate_internal p delay env).proc
      = step_rest (step_poll (step_rebuild (step_startup p)) (step_timeout p delay env) env)
          env := by
  unfold iterate_internal step_rest
  simp only [h, Option.isSome_none, Bool.false_eq_true, if_false]
  cases env.poll <;> rfl

theorem iterate_internal_code_eq (p : Proc) (delay : Int) (env : StepEnv)
    (h : p.running_reactor = none) :
    (iterate_internal p delay env).code
      = match env.poll with
        | PollOutcome.failed _ => -1
        | _ => 0 := by
  unfold iterate_internal
  simp only [h, Option.isSome_none, Bool.false_eq_true, if_false]
  cases env.poll <;> rfl

theorem same_table_refl (p : Proc) : same_table p p :=
  ⟨rfl, rfl, rfl, rfl⟩

theorem same_table_trans {p q r : Proc} (h1 : same_table p q) (h2 : same_table q r) :
    same_table p r :=
  ⟨h2.1.trans h1.1, h2.2.1.trans h1.2.1, h2.2.2.1.trans h1.2.2.1, h2.2.2.2.trans h1.2.2.2⟩

theorem no_close_between_refl (p : Proc) : no_close_between p p :=
  ⟨[], by simp, by simp⟩

theorem no_close_between_trans {p q r : Proc} (h1 : no_close_between p q)
    (h2 : no_close_between q r) : no_close_between p r := by
  obtain ⟨l1, e1, n1⟩ := h1
  obtain ⟨l2, e2, n2⟩ := h2
  refine ⟨l1 ++ l2, by rw [e2, e1, List.append_assoc], ?_⟩
  intro c hc
  rcases List.mem_append.mp hc with h | h
  · exact n1 c h
  · exact n2 c h

theorem trigger_calls_no_close (ms : List Method) :
    ∀ c ∈ trigger_calls ms, c.is_close = false := by
  intro c hc
  simp only [trigger_calls, List.mem_map] at hc
  obtain ⟨m, _, rfl⟩ := hc
  rfl

theorem fire_same_table (p : Proc) (e : cReactorEventType) :
    same_table p (fireSystemEvent_internal p e) := by
  rw [fireSystemEvent_internal_eq]
  split_ifs
  · rw [finish_system_event_eq]
    exact ⟨rfl, rfl, rfl, rfl⟩
  · exact ⟨rfl, rfl, rfl, rfl⟩

theorem fire_no_close (p : Proc) (e : cReactorEventType) :
    no_close_between p (fireSystemEvent_internal p e) := by
  rw [fireSystemEvent_internal_eq]
  split_ifs
  · rw [finish_system_event_eq]
    refine ⟨trigger_calls (p.reactor.event_triggers e cReactorEventPhase.BEFORE)
      ++ (trigger_calls (p.reactor.event_triggers e cReactorEventPhase.DURING)
      ++ trigger_calls (p.reactor.event_triggers e cReactorEventPhase.AFTER)), ?_, ?_⟩
    · simp [Proc.logged, List.append_assoc]
    · intro c hc
      rcases List.mem_append.mp hc with h | h
      · exact trigger_calls_no_close _ c h
      · rcases List.mem_append.mp h with h | h
        · exact trigger_calls_no_close _ c h
        · exact trigger_calls_no_close _ c h
  · exact ⟨trigger_calls (p.reactor.event_triggers e cReactorEventPhase.BEFORE), rfl,
      trigger_calls_no_close _⟩

theorem step_startup_same_table (p : Proc) : same_table p (step_startup p) := by
  unfold step_startup
  by_cases h : p.reactor.state = cReactorState.INIT
  · simp only [h, if_true]
    have hf := fire_same_table { p with running_reactor := some ReactorRef.this }
      cReactorEventType.STARTUP
    exact ⟨hf.1, hf.2.1, hf.2.2.1, hf.2.2.2⟩
  · simp only [h, if_false]
    exact ⟨rfl, rfl, rfl, rfl⟩

theorem step_startup_no_close (p : Proc) : no_close_between p (step_startup p) := by
  unfold step_startup
  by_cases h : p.reactor.state = cReactorState.INIT
  · simp only [h, if_true]
    obtain ⟨l, hl, hn⟩ := fire_no_close { p with running_reactor := some ReactorRef.this }
      cReactorEventType.STARTUP
    refine ⟨l ++ [Call.install_handlers], ?_, ?_⟩
    · simp only [hl, List.append_assoc]
    · intro c hc
      rcases List.mem_append.mp hc with h1 | h1
      · exact hn c h1
      · rw [List.mem_singleton.mp h1]
        rfl
  · simp only [h, if_false]
    exact ⟨[], by simp, by simp⟩

theorem step_finish_same_table (p : Proc) (env : StepEnv) :
    same_table p (step_finish p env) := by
  unfold step_finish
  simp only
  split_ifs
  · have hf := fire_same_table
      { cReactorUtil_RunMethods p env.now with
        reactor := { (cReactorUtil_RunMethods p env.now).reactor with
          state := cReactorState.STOPPING } } cReactorEventType.SHUTDOWN
    exact ⟨hf.1, hf.2.1, hf.2.2.1, hf.2.2.2⟩
  · exact ⟨rfl, rfl, rfl, rfl⟩
  · exact ⟨rfl, rfl, rfl, rfl⟩

theorem step_finish_no_close (p : Proc) (env : StepEnv) :
    no_close_between p (step_finish p env) := by
  have hrun : no_close_between p (cReactorUtil_RunMethods p env.now) := by
    refine ⟨_, rfl, ?_⟩
    intro c hc
    simp only [List.mem_map] at hc
    obtain ⟨t, _, rfl⟩ := hc
    rfl
  unfold step_finish
  simp only
  split_ifs
  · have hf := fire_no_close
      { cReactorUtil_RunMethods p env.now with
        reactor := { (cReactorUtil_RunMethods p env.now).reactor with
          state := cReactorState.STOPPING } } cReactorEventType.SHUTDOWN
    obtain ⟨l1, e1, n1⟩ := hrun
    obtain ⟨l2, e2, n2⟩ := hf
    refine ⟨l1 ++ l2, ?_, ?_⟩
    · show (fireSystemEvent_internal _ _).log = _
      rw [e2]
      simp only [e1, List.append_assoc]
    · intro c hc
      rcases List.mem_append.mp hc with h | h
      · exact n1 c h
      · exact n2 c h
  · exact hrun
  · exact hrun

theorem cReactorTransport_Write_ident (t : cReactorTransport) :
    (cReactorTransport_Write t).ident = t.ident := by
  unfold cReactorTransport_Write
  split
  · split <;> rfl
  · rfl

theorem dispatch_transport_ident (revents : Nat) (t : cReactorTransport) :
    (dispatch_transport revents t).ident = t.ident := by
  unfold dispatch_transport dispatch_hooks
  split_ifs <;>
  simp [cReactorTransport_Write_ident, cReactorTransport_Read_ident]

theorem dispatch_transport_closed (revents : Nat) (t : cReactorTransport)
    (h : other_bits revents ≠ 0) :
    (dispatch_transport revents t).state = cReactorTransportState.CLOSED := by
  unfold dispatch_transport
  rw [if_pos h]

theorem dispatch_calls_no_close (revents : Nat) (t : cReactorTransport) :
    ∀ c ∈ dispatch_calls revents t, c.is_close = false := by
  intro c hc
  unfold dispatch_calls at hc
  rcases List.mem_append.mp hc with h | h
  · split_ifs at h
    · rw [List.mem_singleton.mp h]; rfl
    · simp at h
  · split_ifs at h
    · rw [List.mem_singleton.mp h]; rfl
    · simp at h

theorem process_loop_idents (ts : List cReactorTransport) :
    ∀ (pfds : List pollfd) (stale : Bool),
      (process_loop pfds ts stale).transports.map cReactorTransport.ident
        = ts.map cReactorTransport.ident := by
  induction ts with
  | nil => intro pfds stale; simp [process_loop]
  | cons t ts ih =>
    intro pfds stale
    simp only [process_loop, process_slot_spec, List.map_append, List.map_cons, List.map_nil,
      List.singleton_append, dispatch_transport_ident, ih]

theorem process_loop_no_close (ts : List cReactorTransport) :
    ∀ (pfds : List pollfd) (stale : Bool),
      ∀ c ∈ (process_loop pfds ts stale).calls, c.is_close = false := by
  induction ts with
  | nil => intro pfds stale c hc; simp [process_loop] at hc
  | cons t ts ih =>
    intro pfds stale c hc
    simp only [process_loop, process_slot_spec] at hc
    rcases List.mem_append.mp hc with h | h
    · exact dispatch_calls_no_close _ _ c h
    · exact ih _ _ c h

theorem process_loop_stale_mono (ts : List cReactorTransport) :
    ∀ (pfds : List pollfd), (process_loop pfds ts true).stale = true := by
  induction ts with
  | nil => intro pfds; simp [process_loop]
  | cons t ts ih =>
    intro pfds
    simp only [process_loop, process_slot_spec, Bool.true_or]
    exact ih _

theorem process_loop_index (ts : List cReactorTransport) :
    ∀ (pfds : List pollfd) (stale : Bool) (i : Nat) (t : cReactorTransport) (slot : pollfd),
      ts[i]? = some t → pfds[i]? = some slot →
      (process_loop pfds ts stale).transports[i]? = some (dispatch_transport slot.revents t) ∧
      (other_bits slot.revents ≠ 0 → (process_loop pfds ts stale).stale = true) := by
  induction ts with
  | nil => intro pfds stale i t slot ht; simp at ht
  | cons t0 ts ih =>
    intro pfds stale i t slot ht hs
    cases pfds with
    | nil => simp at hs
    | cons pfd pfds =>
      cases i with
      | zero =>
        simp only [List.getElem?_cons_zero, Option.some.injEq] at ht hs
        subst ht
        subst hs
        simp only [process_loop, process_slot_spec, slot_revents, List.tail_cons,
          List.singleton_append, List.getElem?_cons_zero, true_and]
        intro hx
        simp only [hx, ne_eq, not_false_eq_true, decide_True, Bool.or_true]
        exact process_loop_stale_mono ts pfds
      | succ j =>
        simp only [List.getElem?_cons_succ] at ht hs
        have := ih pfds (stale || decide (other_bits pfd.revents ≠ 0)) j t slot ht hs
        simpa only [process_loop, process_slot_spec, slot_revents, List.tail_cons,
          List.singleton_append, List.getElem?_cons_succ] using this

theorem poll_revents_index (pfds : List pollfd) :
    ∀ (revents : List Nat) (i : Nat),
      (poll_revents pfds revents)[i]?
        = pfds[i]?.map (fun pfd => { pfd with revents := revents.getD i 0 }) := by
  induction pfds with
  | nil => intro revents i; simp [poll_revents]
  | cons pfd pfds ih =>
    intro revents i
    cases revents with
    | nil =>
      cases i with
      | zero => simp [poll_revents]
      | succ j => simpa [poll_revents] using ih [] j
    | cons r rs =>
      cases i with
      | zero => simp [poll_revents]
      | succ j => simpa [poll_revents] using ih rs j

theorem live_closed_length (ts : List cReactorTransport) :
    (live_transports ts).length + (closed_transports ts).length = ts.length := by
  induction ts with
  | nil => rfl
  | cons t ts ih =>
    by_cases h : t.state = cReactorTransportState.CLOSED
    · simp [live_transports, closed_transports, h] at ih ⊢
      omega
    · simp [live_transports, closed_transports, h] at ih ⊢
      omega

theorem step_dispatch_frame (p : Proc) (revents : List Nat) :
    (step_dispatch p revents).reactor.transports.map cReactorTransport.ident
      = p.reactor.transports.map cReactorTransport.ident ∧
    (step_dispatch p revents).reactor.num_transports = p.reactor.num_transports ∧
    no_close_between p (step_dispatch p revents) := by
  refine ⟨?_, rfl, ?_⟩
  · simp [step_dispatch, iterate_process_pollfd_array, process_loop_idents]
  · exact ⟨_, rfl, process_loop_no_close _ _ _⟩

theorem step_rest_frame (p : Proc) (env : StepEnv) :
    (step_rest p env).reactor.transports.map cReactorTransport.ident
      = p.reactor.transports.map cReactorTransport.ident ∧
    (step_rest p env).reactor.num_transports = p.reactor.num_transports ∧
    no_close_between p (step_rest p env) := by
  unfold step_rest
  cases env.poll with
  | failed errno => exact ⟨rfl, rfl, no_close_between_refl p⟩
  | EINTR =>
    have h1 := step_finish_same_table p env
    exact ⟨by rw [h1.1], h1.2.2.2, step_finish_no_close p env⟩
  | ready revents =>
    have h1 := step_finish_same_table (step_dispatch p revents) env
    have h2 := step_dispatch_frame p revents
    exact ⟨by simp only [h1.1, h2.1], h1.2.2.2.trans h2.2.1,
      no_close_between_trans h2.2.2 (step_finish_no_close _ env)⟩

theorem step_poll_frame (p : Proc) (timeout : Int) (env : StepEnv) :
    (step_poll p timeout env).log = p.log ++ [Call.poll p.reactor.num_transports timeout] ∧
    same_table p (step_poll p timeout env) := by
  unfold step_poll
  simp only
  split_ifs
  · exact ⟨rfl, rfl, rfl, rfl, rfl⟩
  · exact ⟨rfl, rfl, rfl, rfl, rfl⟩

theorem step_rebuild_congr {p q : Proc} (h : same_table p q) :
    same_table (step_rebuild p) (step_rebuild q) := by
  obtain ⟨h1, h2, h3, h4⟩ := h
  unfold step_rebuild
  rw [h3]
  by_cases hs : p.reactor.pollfd_stale = true
  · simp only [hs, if_true]
    exact ⟨by simp [iterate_rebuild_pollfd_arrray, h1], by simp [iterate_rebuild_pollfd_arrray, h1],
      rfl, by simp [iterate_rebuild_pollfd_arrray, h1]⟩
  · simp only [hs, if_false]
    exact ⟨h1, h2, h3, h4⟩

theorem live_transports_sublist (ts : List cReactorTransport) :
    List.Sublist (live_transports ts) ts :=
  List.filter_sublist ts

theorem closed_transports_sublist (ts : List cReactorTransport) :
    List.Sublist (closed_transports ts) ts :=
  List.filter_sublist ts

theorem step_rebuild_nodup (p : Proc)
    (h : (p.reactor.transports.map cReactorTransport.ident).Nodup) :
    ((step_rebuild p).reactor.transports.map cReactorTransport.ident).Nodup := by
  unfold step_rebuild
  split_ifs
  · simp only [iterate_rebuild_pollfd_arrray]
    exact h.sublist ((rebuild_loop_idents _ _).trans ((live_transports_sublist _).map _))
  · exact h

theorem step_dispatch_index (p : Proc) (revents : List Nat) (i : Nat) (t : cReactorTransport)
    (ht : p.reactor.transports[i]? = some t) (hs : i < p.reactor.pollfd_array.length)
    (herr : other_bits (revents.getD i 0) ≠ 0) :
    (step_dispatch p revents).reactor.transports[i]?
      = some (dispatch_transport (revents.getD i 0) t) ∧
    (step_dispatch p revents).reactor.pollfd_stale = true := by
  have hslot : (poll_revents p.reactor.pollfd_array revents)[i]?
      = some { p.reactor.pollfd_array[i] with revents := revents.getD i 0 } := by
    rw [poll_revents_index, List.getElem?_eq_getElem hs]
    rfl
  have h := process_loop_index p.reactor.transports
    (poll_revents p.reactor.pollfd_array revents) p.reactor.pollfd_stale i t _ ht hslot
  exact ⟨h.1, h.2 herr⟩

theorem not_live_of_closed (ts : List cReactorTransport)
    (hnd : (ts.map cReactorTransport.ident).Nodup) (t1 : cReactorTransport)
    (hmem : t1 ∈ ts) (hc : t1.state = cReactorTransportState.CLOSED) :
    t1.ident ∉ (live_transports ts).map cReactorTransport.ident := by
  intro hin
  obtain ⟨t2, ht2, he⟩ := List.mem_map.mp hin
  have hmem2 : t2 ∈ ts := (live_transports_sublist ts).subset ht2
  have heq : t2 = t1 := List.inj_on_of_nodup_map hnd hmem2 hmem he
  subst heq
  simp [live_transports, hc] at ht2

theorem close_count_one (ts : List cReactorTransport)
    (hnd : (ts.map cReactorTransport.ident).Nodup) (t1 : cReactorTransport)
    (hmem : t1 ∈ ts) (hc : t1.state = cReactorTransportState.CLOSED) :
    ((closed_transports ts).map (fun c => Call.close c.ident)).count (Call.close t1.ident)
      = 1 := by
  have hsub : ((closed_transports ts).map cReactorTransport.ident).Nodup :=
    hnd.sublist ((closed_transports_sublist ts).map _)
  have hinj : Function.Injective Call.close := by
    intro a b hab
    injection hab
  have hnd2 : (((closed_transports ts).map cReactorTransport.ident).map Call.close).Nodup :=
    hsub.map hinj
  have hmem2 : Call.close t1.ident
      ∈ ((closed_transports ts).map cReactorTransport.ident).map Call.close := by
    refine List.mem_map.mpr ⟨t1.ident, List.mem_map.mpr ⟨t1, ?_, rfl⟩, rfl⟩
    simp [closed_transports, hmem, hc]
  have := List.count_eq_one_of_mem hnd2 hmem2
  simpa [List.map_map] using this

theorem step_finish_running (p : Proc) (env : StepEnv) :
    (step_finish p env).running_reactor = none := rfl

/-- What holds of the source for a closure by the dispatch: a transport that a step
marks CLOSED for an error or hangup bit in the returned events of the slot paired
with it leaves the stale flag set at the end of the step; the next step therefore
rebuilds the descriptor table before it polls, and by the end of that next step the
close hook of the transport has run exactly once (before the call of `poll`, and no
other close call is made than those of the rebuild), the transport is no longer in
the table, and the recorded count is the number of transports of the table less the
CLOSED ones. -/
theorem error_bit_closure_swept_next_step
    (p : Proc) (delay delay2 : Int) (env env2 : StepEnv) (revents : List Nat)
    (i : Nat) (t : cReactorTransport)
    (hrun : p.running_reactor = none)
    (hpoll : env.poll = PollOutcome.ready revents)
    (hnd : (p.reactor.transports.map cReactorTransport.ident).Nodup)
    (ht : (step_rebuild p).reactor.transports[i]? = some t)
    (hs : i < (step_rebuild p).reactor.pollfd_array.length)
    (herr : other_bits (revents.getD i 0) ≠ 0) :
    ∃ p1 p2 : Proc,
      iterate_internal p delay env = { proc := p1, code := 0 } ∧
      (iterate_internal p1 delay2 env2).proc = p2 ∧
      p1.reactor.pollfd_stale = true ∧
      (∃ t1, p1.reactor.transports[i]? = some t1 ∧ t1.ident = t.ident ∧
        t1.state = cReactorTransportState.CLOSED) ∧
      (∃ pre post timeout,
        p2.log = p1.log ++ pre
          ++ (closed_transports p1.reactor.transports).map (fun c => Call.close c.ident)
          ++ Call.poll p2.reactor.num_transports timeout :: post ∧
        (∀ c ∈ pre ++ post, c.is_close = false)) ∧
      ((closed_transports p1.reactor.transports).map (fun c => Call.close c.ident)).count
        (Call.close t.ident) = 1 ∧
      t.ident ∉ p2.reactor.transports.map cReactorTransport.ident ∧
      p2.reactor.num_transports + (closed_transports p1.reactor.transports).length
        = p1.reactor.transports.length := by
  -- the first step
  have hst := step_startup_same_table p
  have hrb := step_rebuild_congr hst
  have hpl := step_poll_frame (step_rebuild (step_startup p)) (step_timeout p delay env) env
  have htab : same_table (step_rebuild p)
      (step_poll (step_rebuild (step_startup p)) (step_timeout p delay env) env) :=
    same_table_trans hrb hpl.2
  have hp1 : (iterate_internal p delay env).proc
      = step_finish (step_dispatch
          (step_poll (step_rebuild (step_startup p)) (step_timeout p delay env) env) revents)
          env := by
    rw [iterate_internal_proc_eq p delay env hrun]
    unfold step_rest
    rw [hpoll]
  have hcode : (iterate_internal p delay env).code = 0 := by
    rw [iterate_internal_code_eq p delay env hrun, hpoll]
  have hdi := step_dispatch_index
    (step_poll (step_rebuild (step_startup p)) (step_timeout p delay env) env) revents i t
    (by rw [htab.1]; exact ht) (by rw [htab.2.1]; exact hs) herr
  have hfin := step_finish_same_table (step_dispatch
    (step_poll (step_rebuild (step_startup p)) (step_timeout p delay env) env) revents) env
  have hids := (step_dispatch_frame
    (step_poll (step_rebuild (step_startup p)) (step_timeout p delay env) env) revents).1
  refine ⟨(iterate_internal p delay env).proc,
    (iterate_internal (iterate_internal p delay env).proc delay2 env2).proc, ?_, rfl, ?_⟩
  · cases hr : iterate_internal p delay env with
    | mk pr c =>
      rw [hr] at hcode
      simp only at hcode
      rw [hcode]
  rw [hp1]
  generalize hP1 : step_finish (step_dispatch
    (step_poll (step_rebuild (step_startup p)) (step_timeout p delay env) env) revents) env
    = p1 at hfin ⊢
  have hstale : p1.reactor.pollfd_stale = true := by rw [hfin.2.2.1]; exact hdi.2
  have hti : p1.reactor.transports[i]? = some (dispatch_transport (revents.getD i 0) t) := by
    rw [hfin.1]; exact hdi.1
  have hnd1 : (p1.reactor.transports.map cReactorTransport.ident).Nodup := by
    rw [hfin.1, hids, htab.1]
    exact step_rebuild_nodup p hnd
  have hmem1 : dispatch_transport (revents.getD i 0) t ∈ p1.reactor.transports :=
    List.getElem?_mem hti
  have hcl1 := dispatch_transport_closed (revents.getD i 0) t herr
  have hid1 := dispatch_transport_ident (revents.getD i 0) t
  have hrun1 : p1.running_reactor = none := by rw [← hP1]; rfl
  -- the next step
  have hst2 := step_startup_same_table p1
  obtain ⟨pre, hpre, hpren⟩ := step_startup_no_close p1
  have hstale2 : (step_startup p1).reactor.pollfd_stale = true := by rw [hst2.2.2.1]; exact hstale
  have hR : step_rebuild (step_startup p1) = iterate_rebuild_pollfd_arrray (step_startup p1) := by
    unfold step_rebuild
    rw [if_pos hstale2]
  have hpl2 := step_poll_frame (step_rebuild (step_startup p1)) (step_timeout p1 delay2 env2) env2
  obtain ⟨hids2, hnum2, post, hpost, hpostn⟩ := step_rest_frame
    (step_poll (step_rebuild (step_startup p1)) (step_timeout p1 delay2 env2) env2) env2
  rw [iterate_internal_proc_eq p1 delay2 env2 hrun1]
  have hnumR : (step_rebuild (step_startup p1)).reactor.num_transports
      = (live_transports p1.reactor.transports).length := by
    rw [hR]
    simp [iterate_rebuild_pollfd_arrray, rebuild_loop_num, hst2.1]
  have hidsR : List.Sublist
      ((step_rebuild (step_startup p1)).reactor.transports.map cReactorTransport.ident)
      ((live_transports p1.reactor.transports).map cReactorTransport.ident) := by
    rw [hR, ← hst2.1]
    exact rebuild_loop_idents _ _
  have hlogR : (step_rebuild (step_startup p1)).log
      = p1.log ++ pre
        ++ (closed_transports p1.reactor.transports).map (fun c => Call.close c.ident) := by
    rw [hR]
    simp [iterate_rebuild_pollfd_arrray, rebuild_loop_closed, hst2.1, hpre]
  refine ⟨hstale, ⟨_, hti, hid1, hcl1⟩, ?_, ?_, ?_, ?_⟩
  · refine ⟨pre, post, step_timeout p1 delay2 env2, ?_, ?_⟩
    · rw [hpost, hpl2.1, hlogR, hnum2, hpl2.2.2.2.2]
      simp [List.append_assoc]
    · intro c hc
      rcases List.mem_append.mp hc with h | h
      · exact hpren c h
      · exact hpostn c h
  · rw [← hid1]
    exact close_count_one p1.reactor.transports hnd1 _ hmem1 hcl1
  · rw [hids2, hpl2.2.1, ← hid1]
    exact fun hin =>
      not_live_of_closed p1.reactor.transports hnd1 _ hmem1 hcl1 (hidsR.subset hin)
  · rw [hnum2, hpl2.2.2.2.2, hnumR]
    exact live_closed_length p1.reactor.transports

/-- C8 fails in the source, at `three_readers_steps`: the table is 1, 2, 3. The
first step marks transport 2 CLOSED for the error bit of the second slot. The next
step rebuilds: it closes transport 2, writes the slots of the fds 1 and 3 and counts
2, but leaves only transport 3 in the table; `poll` returns the error bit for the
first slot, and the dispatch, which pairs the first transport of the table with the
first slot, marks transport 3 CLOSED and sets the stale flag. The step after that
rebuilds, closes transport 3 once and leaves the table empty, and the count is 0:
one transport was marked CLOSED and the count went down by two, from 2 to 0. -/
theorem closure_lowers_count_by_two :
    three_readers_steps.1.reactor.transports.map (fun t => (t.ident, t.state))
      = [(1, cReactorTransportState.ACTIVE), (2, cReactorTransportState.CLOSED),
         (3, cReactorTransportState.ACTIVE)] ∧
    three_readers_steps.1.reactor.num_transports = 3 ∧
    three_readers_steps.2.1.reactor.transports.map (fun t => (t.ident, t.state))
      = [(3, cReactorTransportState.CLOSED)] ∧
    three_readers_steps.2.1.reactor.pollfd_array.map (fun slot => (slot.fd, slot.revents))
      = [(1, 8), (3, 0)] ∧
    three_readers_steps.2.1.reactor.num_transports = 2 ∧
    three_readers_steps.2.1.reactor.pollfd_stale = true ∧
    three_readers_steps.2.2.log
      = [Call.install_handlers, Call.poll 3 0, Call.close 2, Call.poll 2 0, Call.close 3,
         Call.poll 0 0] ∧
    three_readers_steps.2.2.reactor.transports = [] ∧
    three_readers_steps.2.2.reactor.num_transports = 0 := by
  decide

/-- An instance of the closure by the dispatch: on the reactor with the transports 2
and 1, a step in which `poll` returns the error bit 8 for the first slot (transport 2), then a
quiet step. -/
theorem error_bit_closure_swept_next_step_witness :
    two_readers_proc.running_reactor = none ∧
    (two_readers_proc.reactor.transports.map cReactorTransport.ident).Nodup ∧
    other_bits ([8].getD 0 0) ≠ 0 ∧
    ∃ p1 p2 : Proc,
      iterate_internal two_readers_proc 0 (ready_step 8) = { proc := p1, code := 0 } ∧
      (iterate_internal p1 0 quiet_step).proc = p2 ∧
      p1.reactor.pollfd_stale = true ∧
      (∃ t1, p1.reactor.transports[0]? = some t1 ∧ t1.ident = 2 ∧
        t1.state = cReactorTransportState.CLOSED) ∧
      (∃ pre post timeout,
        p2.log = p1.log ++ pre
          ++ (closed_transports p1.reactor.transports).map (fun c => Call.close c.ident)
          ++ Call.poll p2.reactor.num_transports timeout :: post ∧
        (∀ c ∈ pre ++ post, c.is_close = false)) ∧
      ((closed_transports p1.reactor.transports).map (fun c => Call.close c.ident)).count
        (Call.close 2) = 1 ∧
      2 ∉ p2.reactor.transports.map cReactorTransport.ident ∧
      p2.reactor.num_transports + (closed_transports p1.reactor.transports).length
        = p1.reactor.transports.length :=
  ⟨rfl, by decide, by decide,
   error_bit_closure_swept_next_step two_readers_proc 0 0 (ready_step 8) quiet_step [8] 0
     { example_transport 2 cReactorTransportState.ACTIVE (some { closes := false }) none with
       event_mask := some 0 }
     rfl rfl (by decide) (by decide) (by decide) (by decide)⟩

/-- The witness of C10: the dispatch on the reactor above calls the read hook and
then the write hook of transport 1, and nothing for transport 2. -/
theorem dispatch_by_returned_events_witness :
    dispatch_example_proc.reactor.transports.length
      ≤ dispatch_example_proc.reactor.pollfd_array.length ∧
    (iterate_process_pollfd_array dispatch_example_proc).log = [Call.read 1, Call.write 1] :=
  ⟨by decide, (dispatch_by_returned_events dispatch_example_proc (by decide)).1⟩

/-! ## Firing and stopping, field by field -/

theorem fireSystemEvent_internal_fields (p : Proc) (e : cReactorEventType) :
    fireSystemEvent_internal p e
      = { p with
          reactor := { p.reactor with
            state :=
              if returned_handles (p.reactor.event_triggers e cReactorEventPhase.BEFORE) = [] then
                (if p.reactor.state = cReactorState.STOPPING then cReactorState.DONE
                 else p.reactor.state)
              else p.reactor.state
            defer_list := p.reactor.defer_list
              ++ returned_handles (p.reactor.event_triggers e cReactorEventPhase.BEFORE) }
          log := p.log ++ fired_calls p.reactor.event_triggers e } := by
  rw [fireSystemEvent_internal_eq]
  by_cases h : returned_handles (p.reactor.event_triggers e cReactorEventPhase.BEFORE) = []
  · rw [if_pos h, finish_system_event_eq]
    simp [Proc.logged, fired_calls, h]
  · rw [if_neg h]
    simp [Proc.logged, Proc.deferring, fired_calls, h]

theorem stop_internal_fields (p : Proc) :
    stop_internal p
      = { p with
          reactor := { p.reactor with
            state :=
              if returned_handles
                (p.reactor.event_triggers cReactorEventType.SHUTDOWN cReactorEventPhase.BEFORE) = []
              then cReactorState.DONE else cReactorState.STOPPING
            defer_list := p.reactor.defer_list
              ++ returned_handles
                (p.reactor.event_triggers cReactorEventType.SHUTDOWN cReactorEventPhase.BEFORE) }
          log := p.log ++ fired_calls p.reactor.event_triggers cReactorEventType.SHUTDOWN } := by
  unfold stop_internal
  rw [fireSystemEvent_internal_fields]
  simp

/-! ## Re-entrant steps -/

/-- C12: a step entered while a reactor (this one or another) is recorded as running
returns the error code at once and leaves the whole process as it was: the state,
`defer_list`, the transports, the pollfd array, the stale flag and the timed methods
are unchanged, the call log is unchanged (no trigger, timed method or hook is
called, no event is fired), and the recorded running reactor is the same. -/
theorem reentrant_step_rejected (p : Proc) (delay : Int) (env : StepEnv)
    (h : p.running_reactor ≠ none) :
    iterate_internal p delay env = { proc := p, code := -1 } := by
  unfold iterate_internal
  cases hr : p.running_reactor with
  | none => exact absurd hr h
  | some r => simp

/-- The witness of C12: a step on a new reactor while another reactor is recorded as
running. -/
theorem reentrant_step_rejected_witness :
    other_running_proc.running_reactor ≠ none ∧
    iterate_internal other_running_proc 0 quiet_step
      = { proc := other_running_proc, code := -1 } :=
  ⟨by decide, reentrant_step_rejected other_running_proc 0 quiet_step (by decide)⟩

/-- C13, the code at the failing input: a step of a new reactor in which `poll` fails
with EBADF returns -1 and leaves the reactor recorded as running; the next step is
rejected with -1 and does nothing (its log is the log of the failed step, which
ends with the one call of `poll`). -/
theorem running_reactor_kept_after_failed_poll :
    steps_after_failed_poll.1.code = -1 ∧
    steps_after_failed_poll.1.proc.running_reactor = some ReactorRef.this ∧
    steps_after_failed_poll.2.code = -1 ∧
    steps_after_failed_poll.2.proc.log = [Call.install_handlers, Call.poll 0 0] ∧
    steps_after_failed_poll.1.proc.log = [Call.install_handlers, Call.poll 0 0] := by
  decide

/-! ## The end of an event and the state -/

/-- C16 as stated fails: with SHUTDOWN waiting for the Deferred 7 the state is
STOPPING; `fireSystemEvent("persist")` then completes the phases of PERSIST and
moves the state to DONE, while the DURING and AFTER triggers of SHUTDOWN (2 and 3)
have not run and the handle 7 is outstanding. -/
theorem persist_ends_stopping :
    persist_while_stopping.1.reactor.state = cReactorState.STOPPING ∧
    persist_while_stopping.2.map
        (fun q => (q.reactor.state, q.reactor.defer_list, q.log))
      = some (cReactorState.DONE, [7],
          [Call.install_handlers, Call.poll 0 0,
           Call.trigger { id := 1, result := PyResult.deferred 7 }]) := by
  decide

/-- C16 as amended: the transition from STOPPING to DONE happens when the AFTER phase
of any event completes, not of SHUTDOWN only. For every reactor in state STOPPING
and every event type: the event fired with no completion handle returned, or
finished by the resolution that empties `defer_list`, ends with the state DONE,
after the DURING and AFTER triggers of that event have run; while the phases of the
event are not complete the state stays STOPPING and no DURING or AFTER trigger
runs. -/
theorem any_event_end_moves_stopping_to_done (p : Proc) (e : cReactorEventType)
    (h : p.reactor.state = cReactorState.STOPPING) :
    (returned_handles (p.reactor.event_triggers e cReactorEventPhase.BEFORE) = [] →
      (fireSystemEvent_internal p e).reactor.state = cReactorState.DONE ∧
      (fireSystemEvent_internal p e).log
        = p.log ++ (trigger_calls (p.reactor.event_triggers e cReactorEventPhase.BEFORE)
            ++ trigger_calls (p.reactor.event_triggers e cReactorEventPhase.DURING)
            ++ trigger_calls (p.reactor.event_triggers e cReactorEventPhase.AFTER))) ∧
    (returned_handles (p.reactor.event_triggers e cReactorEventPhase.BEFORE) ≠ [] →
      (fireSystemEvent_internal p e).reactor.state = cReactorState.STOPPING ∧
      (fireSystemEvent_internal p e).log
        = p.log ++ trigger_calls (p.reactor.event_triggers e cReactorEventPhase.BEFORE)) ∧
    (∀ d : Nat, p.reactor.defer_list.erase d = [] →
      ∃ q, system_event_defer_callback p (PyArg.long d) e.toInt = some q ∧
        q.reactor.state = cReactorState.DONE ∧
        q.log = p.log ++ (trigger_calls (p.reactor.event_triggers e cReactorEventPhase.DURING)
            ++ trigger_calls (p.reactor.event_triggers e cReactorEventPhase.AFTER))) ∧
    (∀ d : Nat, p.reactor.defer_list.erase d ≠ [] →
      ∃ q, system_event_defer_callback p (PyArg.long d) e.toInt = some q ∧
        q.reactor.state = cReactorState.STOPPING ∧ q.log = p.log) := by
  refine ⟨fun h0 => ?_, fun h0 => ?_, fun d hd => ?_, fun d hd => ?_⟩
  · rw [fireSystemEvent_internal_fields]
    simp [h0, h, fired_calls, List.append_assoc]
  · rw [fireSystemEvent_internal_fields]
    simp [h0, h, fired_calls]
  · refine ⟨_, system_event_defer_callback_eq p d e, ?_, ?_⟩
    · rw [if_pos hd, finish_system_event_eq]
      simp [Proc.with_defer_list, h]
    · rw [if_pos hd, finish_system_event_eq]
      simp [Proc.with_defer_list]
  · refine ⟨_, system_event_defer_callback_eq p d e, ?_, ?_⟩
    · rw [if_neg hd]
      simpa [Proc.with_defer_list] using h
    · rw [if_neg hd]
      simp [Proc.with_defer_list]

/-- The witness of C16 as amended: on the reactor that is STOPPING while SHUTDOWN
waits for the Deferred 7, PERSIST (no BEFORE trigger, so no handle) fired ends in
the state DONE. -/
theorem any_event_end_moves_stopping_to_done_witness :
    persist_while_stopping.1.reactor.state = cReactorState.STOPPING ∧
    (fireSystemEvent_internal persist_while_stopping.1 cReactorEventType.PERSIST).reactor.state
      = cReactorState.DONE :=
  ⟨by decide,
   ((any_event_end_moves_stopping_to_done persist_while_stopping.1 cReactorEventType.PERSIST
      (by decide)).1 (by decide)).1⟩

/-! ## Stopping while an event is pending -/

/-- C19 as stated fails: after the first step of the example reactor the handles 10
and 11 of STARTUP are outstanding; `stop()` then calls the BEFORE triggers of
SHUTDOWN (9, 10) and, as they return no handle, its DURING and AFTER triggers (11,
12) at once, and the state is DONE, while the DURING and AFTER triggers of STARTUP
(4, 5) have not run. -/
theorem shutdown_runs_before_startup_ends :
    stop_while_starting.1.reactor.defer_list = [10, 11] ∧
    stop_while_starting.1.log
      = [Call.trigger { id := 1, result := PyResult.deferred 10 },
         Call.trigger { id := 2, result := PyResult.value },
         Call.trigger { id := 3, result := PyResult.deferred 11 },
         Call.install_handlers, Call.poll 0 0] ∧
    stop_while_starting.2.log
      = stop_while_starting.1.log ++
        [Call.trigger { id := 9, result := PyResult.raised },
         Call.trigger { id := 10, result := PyResult.value },
         Call.trigger { id := 11, result := PyResult.value },
         Call.trigger { id := 12, result := PyResult.raised }] ∧
    stop_while_starting.2.reactor.state = cReactorState.DONE ∧
    stop_while_starting.2.reactor.defer_list = [10, 11] := by
  decide

/-- C19 as amended: `stop()` does not wait for a pending event. On every reactor,
also one on which handles of STARTUP are outstanding, it calls the BEFORE triggers
of SHUTDOWN at once; when none of them returns a handle it calls the DURING and
AFTER triggers of SHUTDOWN at once as well and the state is DONE; otherwise the
state is STOPPING and the new handles join the outstanding ones in `defer_list`. -/
theorem stop_fires_shutdown_at_once (p : Proc) :
    (cReactor_stop p).log
      = p.log ++ fired_calls p.reactor.event_triggers cReactorEventType.SHUTDOWN ∧
    (cReactor_stop p).reactor.defer_list
      = p.reactor.defer_list ++ returned_handles
          (p.reactor.event_triggers cReactorEventType.SHUTDOWN cReactorEventPhase.BEFORE) ∧
    (cReactor_stop p).reactor.state
      = (if returned_handles
            (p.reactor.event_triggers cReactorEventType.SHUTDOWN cReactorEventPhase.BEFORE) = []
          then cReactorState.DONE else cReactorState.STOPPING) := by
  unfold cReactor_stop
  rw [stop_internal_fields]
  exact ⟨rfl, rfl, rfl⟩

/-! ## Registration and removal of triggers -/

/-- C20 as stated fails: the trigger registered with the id 1 is not removed by
`removeSystemEventTrigger(1)`, which returns NULL, and PERSIST fired afterwards
calls it. -/
theorem removed_trigger_still_fires :
    add_remove_fire.1.result.toOption = some 1 ∧
    add_remove_fire.2.1.result.toOption = none ∧
    add_remove_fire.2.2.map (fun q => q.log)
      = some [Call.trigger { id := 1, result := PyResult.value }] := by
  decide

/-- C20 as amended: `removeSystemEventTrigger` is not implemented: for every
argument it returns NULL with NotImplementedError set and leaves the process, and
with it every registered trigger, as it was. -/
theorem removeSystemEventTrigger_not_implemented (p : Proc) (args : List PyObject) :
    cReactor_removeSystemEventTrigger p args
      = { proc := p
          result := Except.error
            (PyErr.NotImplementedError "cReactor_removeSystemEventTrigger") } :=
  rfl

theorem cReactorUtil_GetEventPhase_none (s : String) :
    cReactorUtil_GetEventPhase s = none ↔ (s ≠ "before" ∧ s ≠ "during" ∧ s ≠ "after") := by
  unfold cReactorUtil_GetEventPhase
  split_ifs <;> simp_all

theorem cReactorUtil_GetEventPhase_some (s : String) (ph : cReactorEventPhase) :
    cReactorUtil_GetEventPhase s = some ph ↔ s = ph.name := by
  unfold cReactorUtil_GetEventPhase
  cases ph <;> split_ifs <;> simp_all [cReactorEventPhase.name]

theorem cReactorUtil_GetEventType_none (s : String) :
    cReactorUtil_GetEventType s = none ↔ (s ≠ "startup" ∧ s ≠ "shutdown" ∧ s ≠ "persist") := by
  unfold cReactorUtil_GetEventType
  split_ifs <;> simp_all

theorem cReactorUtil_GetEventType_some (s : String) (ty : cReactorEventType) :
    cReactorUtil_GetEventType s = some ty ↔ s = ty.name := by
  unfold cReactorUtil_GetEventType
  cases ty <;> split_ifs <;> simp_all [cReactorEventType.name]

theorem addSystemEventTrigger_bad_phase (p : Proc) (phase type callable : PyObject)
    (rest : List PyObject) (call_id : Nat)
    (h : phase ≠ PyObject.str "before" ∧ phase ≠ PyObject.str "during"
      ∧ phase ≠ PyObject.str "after") :
    (∃ err, (cReactor_addSystemEventTrigger p (phase :: type :: callable :: rest) call_id).result
      = Except.error err) ∧
    (cReactor_addSystemEventTrigger p (phase :: type :: callable :: rest) call_id).proc = p := by
  cases phase with
  | str s =>
    have hs : cReactorUtil_GetEventPhase s = none := by
      rw [cReactorUtil_GetEventPhase_none]
      exact ⟨fun e => h.1 (by rw [e]), fun e => h.2.1 (by rw [e]), fun e => h.2.2 (by rw [e])⟩
    cases type <;> simp [cReactor_addSystemEventTrigger, hs]
  | int n => cases type <;> simp [cReactor_addSystemEventTrigger]
  | callable c => cases type <;> simp [cReactor_addSystemEventTrigger]
  | other => cases type <;> simp [cReactor_addSystemEventTrigger]

theorem addSystemEventTrigger_bad_type (p : Proc) (phase type callable : PyObject)
    (rest : List PyObject) (call_id : Nat)
    (h : type ≠ PyObject.str "startup" ∧ type ≠ PyObject.str "shutdown"
      ∧ type ≠ PyObject.str "persist") :
    (∃ err, (cReactor_addSystemEventTrigger p (phase :: type :: callable :: rest) call_id).result
      = Except.error err) ∧
    (cReactor_addSystemEventTrigger p (phase :: type :: callable :: rest) call_id).proc = p := by
  cases type with
  | str s =>
    have hs : cReactorUtil_GetEventType s = none := by
      rw [cReactorUtil_GetEventType_none]
      exact ⟨fun e => h.1 (by rw [e]), fun e => h.2.1 (by rw [e]), fun e => h.2.2 (by rw [e])⟩
    cases phase with
    | str s2 =>
      cases hp : cReactorUtil_GetEventPhase s2 <;> simp [cReactor_addSystemEventTrigger, hs, hp]
    | int n => simp [cReactor_addSystemEventTrigger]
    | callable c => simp [cReactor_addSystemEventTrigger]
    | other => simp [cReactor_addSystemEventTrigger]
  | int n => cases phase <;> simp [cReactor_addSystemEventTrigger]
  | callable c => cases phase <;> simp [cReactor_addSystemEventTrigger]
  | other => cases phase <;> simp [cReactor_addSystemEventTrigger]

theorem addSystemEventTrigger_not_callable (p : Proc) (phase type callable : PyObject)
    (rest : List PyObject) (call_id : Nat)
    (h : ∀ result, callable ≠ PyObject.callable result) :
    (∃ err, (cReactor_addSystemEventTrigger p (phase :: type :: callable :: rest) call_id).result
      = Except.error err) ∧
    (cReactor_addSystemEventTrigger p (phase :: type :: callable :: rest) call_id).proc = p := by
  cases phase with
  | str s1 =>
    cases type with
    | str s2 =>
      cases hp : cReactorUtil_GetEventPhase s1 <;> cases ht : cReactorUtil_GetEventType s2 <;>
      cases callable <;> simp_all [cReactor_addSystemEventTrigger]
    | _ => simp [cReactor_addSystemEventTrigger]
  | _ => cases type <;> simp [cReactor_addSystemEventTrigger]

theorem addSystemEventTrigger_ok (p : Proc) (ph : cReactorEventPhase) (ty : cReactorEventType)
    (result : PyResult) (rest : List PyObject) (call_id : Nat) :
    cReactor_addSystemEventTrigger p
        (PyObject.str ph.name :: PyObject.str ty.name :: PyObject.callable result :: rest) call_id
      = { proc := { p with reactor := { p.reactor with
            event_triggers := fun t f =>
              if t = ty ∧ f = ph then
                p.reactor.event_triggers ty ph ++ [{ id := call_id, result := result }]
              else p.reactor.event_triggers t f } }
          result := Except.ok call_id } := by
  have hp : cReactorUtil_GetEventPhase ph.name = some ph :=
    (cReactorUtil_GetEventPhase_some _ _).mpr rfl
  have ht : cReactorUtil_GetEventType ty.name = some ty :=
    (cReactorUtil_GetEventType_some _ _).mpr rfl
  simp [cReactor_addSystemEventTrigger, hp, ht, cReactorUtil_AddMethod]

/-- C17: `addSystemEventTrigger(phase, type, callable, ...)` fails if and only if the
phase is not one of "before", "during", "after", or the type is not one of
"startup", "shutdown", "persist", or the third argument is not callable. When it
fails the process, and with it each of the nine trigger lists, is unchanged. When
it succeeds it returns the id of the new trigger, the new trigger is the last entry
of the list of the given type and phase, and the other eight lists are
unchanged. -/
theorem addSystemEventTrigger_spec (p : Proc) (phase type callable : PyObject)
    (rest : List PyObject) (call_id : Nat) :
    ((∃ err, (cReactor_addSystemEventTrigger p (phase :: type :: callable :: rest) call_id).result
        = Except.error err) ↔
      ((phase ≠ PyObject.str "before" ∧ phase ≠ PyObject.str "during"
          ∧ phase ≠ PyObject.str "after") ∨
       (type ≠ PyObject.str "startup" ∧ type ≠ PyObject.str "shutdown"
          ∧ type ≠ PyObject.str "persist") ∨
       (∀ result, callable ≠ PyObject.callable result))) ∧
    ((∃ err, (cReactor_addSystemEventTrigger p (phase :: type :: callable :: rest) call_id).result
        = Except.error err) →
      (cReactor_addSystemEventTrigger p (phase :: type :: callable :: rest) call_id).proc = p) ∧
    (∀ (ph : cReactorEventPhase) (ty : cReactorEventType) (result : PyResult),
      phase = PyObject.str ph.name → type = PyObject.str ty.name →
      callable = PyObject.callable result →
      (cReactor_addSystemEventTrigger p (phase :: type :: callable :: rest) call_id).result
        = Except.ok call_id ∧
      (cReactor_addSystemEventTrigger p (phase :: type :: callable :: rest)
          call_id).proc.reactor.event_triggers ty ph
        = p.reactor.event_triggers ty ph ++ [{ id := call_id, result := result }] ∧
      (∀ (ty2 : cReactorEventType) (ph2 : cReactorEventPhase), ¬ (ty2 = ty ∧ ph2 = ph) →
        (cReactor_addSystemEventTrigger p (phase :: type :: callable :: rest)
            call_id).proc.reactor.event_triggers ty2 ph2
          = p.reactor.event_triggers ty2 ph2)) := by
  have hok : ∀ (ph : cReactorEventPhase) (ty : cReactorEventType) (result : PyResult),
      phase = PyObject.str ph.name → type = PyObject.str ty.name →
      callable = PyObject.callable result →
      (cReactor_addSystemEventTrigger p (phase :: type :: callable :: rest) call_id).result
        = Except.ok call_id ∧
      (cReactor_addSystemEventTrigger p (phase :: type :: callable :: rest)
          call_id).proc.reactor.event_triggers ty ph
        = p.reactor.event_triggers ty ph ++ [{ id := call_id, result := result }] ∧
      (∀ (ty2 : cReactorEventType) (ph2 : cReactorEventPhase), ¬ (ty2 = ty ∧ ph2 = ph) →
        (cReactor_addSystemEventTrigger p (phase :: type :: callable :: rest)
            call_id).proc.reactor.event_triggers ty2 ph2
          = p.reactor.event_triggers ty2 ph2) := by
    intro ph ty result h1 h2 h3
    subst h1 h2 h3
    rw [addSystemEventTrigger_ok]
    refine ⟨rfl, by simp, ?_⟩
    intro ty2 ph2 hne
    simp [hne]
  have hfail : ((phase ≠ PyObject.str "before" ∧ phase ≠ PyObject.str "during"
          ∧ phase ≠ PyObject.str "after") ∨
       (type ≠ PyObject.str "startup" ∧ type ≠ PyObject.str "shutdown"
          ∧ type ≠ PyObject.str "persist") ∨
       (∀ result, callable ≠ PyObject.callable result)) →
      (∃ err, (cReactor_addSystemEventTrigger p (phase :: type :: callable :: rest)
          call_id).result = Except.error err) ∧
      (cReactor_addSystemEventTrigger p (phase :: type :: callable :: rest) call_id).proc = p := by
    rintro (h | h | h)
    · exact addSystemEventTrigger_bad_phase p phase type callable rest call_id h
    · exact addSystemEventTrigger_bad_type p phase type callable rest call_id h
    · exact addSystemEventTrigger_not_callable p phase type callable rest call_id h
  have hiff : (∃ err, (cReactor_addSystemEventTrigger p (phase :: type :: callable :: rest)
        call_id).result = Except.error err) →
      ((phase ≠ PyObject.str "before" ∧ phase ≠ PyObject.str "during"
          ∧ phase ≠ PyObject.str "after") ∨
       (type ≠ PyObject.str "startup" ∧ type ≠ PyObject.str "shutdown"
          ∧ type ≠ PyObject.str "persist") ∨
       (∀ result, callable ≠ PyObject.callable result)) := by
    intro herr
    by_contra hcon
    simp only [not_or, not_and_or, not_not, not_forall] at hcon
    obtain ⟨hph, hty, ⟨result, hc⟩⟩ := hcon
    have hph2 : ∃ ph : cReactorEventPhase, phase = PyObject.str ph.name := by
      rcases hph with h | h | h
      · exact ⟨cReactorEventPhase.BEFORE, h⟩
      · exact ⟨cReactorEventPhase.DURING, h⟩
      · exact ⟨cReactorEventPhase.AFTER, h⟩
    have hty2 : ∃ ty : cReactorEventType, type = PyObject.str ty.name := by
      rcases hty with h | h | h
      · exact ⟨cReactorEventType.STARTUP, h⟩
      · exact ⟨cReactorEventType.SHUTDOWN, h⟩
      · exact ⟨cReactorEventType.PERSIST, h⟩
    obtain ⟨ph, hph3⟩ := hph2
    obtain ⟨ty, hty3⟩ := hty2
    obtain ⟨err, herr2⟩ := herr
    rw [(hok ph ty result hph3 hty3 hc).1] at herr2
    cases herr2
  exact ⟨⟨hiff, fun h => (hfail h).1⟩, fun h => (hfail (hiff h)).2, hok⟩

/-! ## The loop of `run` -/

theorem cReactor_run_done (p : Proc) (envs : List StepEnv)
    (h : p.reactor.state = cReactorState.DONE) :
    cReactor_run p envs = some { proc := p, code := 0 } := by
  cases envs <;> simp [cReactor_run, h]

theorem cReactor_run_success (envs : List StepEnv) :
    ∀ (p : Proc) (r : Ret), cReactor_run p envs = some r → r.code = 0 →
      r.proc.reactor.state = cReactorState.DONE := by
  induction envs with
  | nil =>
    intro p r h hc
    by_cases hd : p.reactor.state = cReactorState.DONE
    · simp [cReactor_run, hd] at h
      rw [← h]
      exact hd
    · simp [cReactor_run, hd] at h
  | cons env envs ih =>
    intro p r h hc
    by_cases hd : p.reactor.state = cReactorState.DONE
    · simp [cReactor_run, hd] at h
      rw [← h]
      exact hd
    · by_cases hs : (iterate_internal p (-1) env).code < 0
      · simp [cReactor_run, hd, hs] at h
        rw [← h] at hc
        simp at hc
      · simp only [cReactor_run, hd, hs, if_false] at h
        exact ih _ r h hc

/-- C18: `run()` returns success at once, without a step, when the state is DONE on
entry; otherwise it performs a step with the delay -1, returns the error when that
step returns an error, without a further step, and else goes on in the same way
from the process the step left; whenever it returns success the state is DONE. -/
theorem run_loops_until_done (p : Proc) (envs : List StepEnv) :
    (p.reactor.state = cReactorState.DONE →
      cReactor_run p envs = some { proc := p, code := 0 }) ∧
    (∀ (env : StepEnv) (following : List StepEnv), p.reactor.state ≠ cReactorState.DONE →
      (iterate_internal p (-1) env).code < 0 →
      cReactor_run p (env :: following)
        = some { proc := (iterate_internal p (-1) env).proc, code := -1 }) ∧
    (∀ (env : StepEnv) (following : List StepEnv), p.reactor.state ≠ cReactorState.DONE →
      ¬ (iterate_internal p (-1) env).code < 0 →
      cReactor_run p (env :: following)
        = cReactor_run (iterate_internal p (-1) env).proc following) ∧
    (∀ r : Ret, cReactor_run p envs = some r → r.code = 0 →
      r.proc.reactor.state = cReactorState.DONE) := by
  refine ⟨cReactor_run_done p envs, ?_, ?_, cReactor_run_success envs p⟩
  · intro env following hd hs
    simp [cReactor_run, hd, hs]
  · intro env following hd hs
    simp [cReactor_run, hd, hs]

/-- An instance of C18: `run()` on a new reactor, with SIGINT arriving during the
first `poll`, returns success after that one step, in the state DONE; the step was
made with the delay -1 (the timeout of `poll` is -1000). -/
theorem run_loops_until_done_witness :
    (cReactor_run Proc.start [sigint_step]).map
        (fun r => (r.code, r.proc.reactor.state, r.proc.log))
      = some (0, cReactorState.DONE, [Call.install_handlers, Call.poll 0 (-1000)]) ∧
    cReactor_run (iterate_internal Proc.start (-1) sigint_step).proc []
      = some { proc := (iterate_internal Proc.start (-1) sigint_step).proc, code := 0 } :=
  ⟨by decide,
   (run_loops_until_done (iterate_internal Proc.start (-1) sigint_step).proc []).1 (by decide)⟩

/-! ## A step, stage by stage -/

theorem step_startup_fields (p : Proc) :
    step_startup p
      = if p.reactor.state = cReactorState.INIT then
          { p with
            reactor := { p.reactor with
              state := cReactorState.RUNNING
              defer_list := p.reactor.defer_list ++ returned_handles
                (p.reactor.event_triggers cReactorEventType.STARTUP cReactorEventPhase.BEFORE) }
            running_reactor := some ReactorRef.this
            received_signal := 0
            handlers_installed := true
            log := p.log ++ (fired_calls p.reactor.event_triggers cReactorEventType.STARTUP
              ++ [Call.install_handlers]) }
        else { p with running_reactor := some ReactorRef.this } := by
  unfold step_startup
  by_cases h : p.reactor.state = cReactorState.INIT
  · simp only [h, if_true]
    rw [fireSystemEvent_internal_fields]
    simp [h]
  · simp only [h, if_false]

theorem step_rebuild_log (p : Proc) :
    (step_rebuild p).log
      = p.log ++ (if p.reactor.pollfd_stale then
          (closed_transports p.reactor.transports).map (fun t => Call.close t.ident)
        else []) := by
  unfold step_rebuild
  by_cases h : p.reactor.pollfd_stale = true
  · simp [h, iterate_rebuild_pollfd_arrray, rebuild_loop_closed]
  · simp [h]

theorem step_at_poll_log (p : Proc) (delay : Int) (env : StepEnv) :
    (step_at_poll p delay env).log
      = p.log ++ calls_before_poll p
        ++ [Call.poll (step_at_poll p delay env).reactor.num_transports
              (step_timeout p delay env)] := by
  unfold step_at_poll
  have hp := step_poll_frame (step_rebuild (step_startup p)) (step_timeout p delay env) env
  have hs := step_startup_same_table p
  rw [hp.1, hp.2.2.2.2, step_rebuild_log, hs.2.2.1, hs.1]
  unfold calls_before_poll
  rw [step_startup_fields]
  by_cases h : p.reactor.state = cReactorState.INIT
  · simp [h, List.append_assoc]
  · simp [h]

theorem step_rebuild_keeps (p : Proc) :
    (step_rebuild p).reactor.state = p.reactor.state ∧
    (step_rebuild p).reactor.defer_list = p.reactor.defer_list ∧
    (step_rebuild p).reactor.event_triggers = p.reactor.event_triggers ∧
    (step_rebuild p).reactor.timed_methods = p.reactor.timed_methods ∧
    (step_rebuild p).received_signal = p.received_signal ∧
    (step_rebuild p).handlers_installed = p.handlers_installed := by
  unfold step_rebuild
  split_ifs <;> exact ⟨rfl, rfl, rfl, rfl, rfl, rfl⟩

theorem step_poll_keeps (p : Proc) (timeout : Int) (env : StepEnv) :
    (step_poll p timeout env).reactor = p.reactor ∧
    (step_poll p timeout env).received_signal
      = (if env.signal ≠ 0 ∧ p.handlers_installed = true then env.signal
         else p.received_signal) := by
  unfold step_poll
  simp only
  split_ifs <;> exact ⟨rfl, rfl⟩

theorem step_startup_keeps (p : Proc) :
    (step_startup p).reactor.event_triggers = p.reactor.event_triggers ∧
    (step_startup p).reactor.timed_methods = p.reactor.timed_methods := by
  rw [step_startup_fields]
  split_ifs <;> exact ⟨rfl, rfl⟩

theorem step_at_poll_keeps (p : Proc) (delay : Int) (env : StepEnv) :
    (step_at_poll p delay env).reactor.state = (step_startup p).reactor.state ∧
    (step_at_poll p delay env).reactor.defer_list = (step_startup p).reactor.defer_list ∧
    (step_at_poll p delay env).reactor.event_triggers = p.reactor.event_triggers ∧
    (step_at_poll p delay env).reactor.timed_methods = p.reactor.timed_methods ∧
    (step_at_poll p delay env).received_signal
      = (if env.signal ≠ 0 ∧ (step_startup p).handlers_installed = true then env.signal
         else (step_startup p).received_signal) := by
  unfold step_at_poll
  have h1 := step_poll_keeps (step_rebuild (step_startup p)) (step_timeout p delay env) env
  have h2 := step_rebuild_keeps (step_startup p)
  have h3 := step_startup_keeps p
  rw [h1.1, h1.2, h2.1, h2.2.1, h2.2.2.1, h2.2.2.2.1, h2.2.2.2.2.1, h2.2.2.2.2.2, h3.1, h3.2]
  exact ⟨rfl, rfl, rfl, rfl, rfl⟩

theorem step_dispatch_keeps (p : Proc) (revents : List Nat) :
    (step_dispatch p revents).reactor.state = p.reactor.state ∧
    (step_dispatch p revents).reactor.defer_list = p.reactor.defer_list ∧
    (step_dispatch p revents).reactor.event_triggers = p.reactor.event_triggers ∧
    (step_dispatch p revents).reactor.timed_methods = p.reactor.timed_methods ∧
    (step_dispatch p revents).received_signal = p.received_signal :=
  ⟨rfl, rfl, rfl, rfl, rfl⟩

theorem process_loop_only_hooks (ts : List cReactorTransport) :
    ∀ (pfds : List pollfd) (stale : Bool),
      ∀ c ∈ (process_loop pfds ts stale).calls, c.is_hook = true := by
  induction ts with
  | nil => intro pfds stale c hc; simp [process_loop] at hc
  | cons t ts ih =>
    intro pfds stale c hc
    simp only [process_loop, process_slot_spec] at hc
    rcases List.mem_append.mp hc with h | h
    · unfold dispatch_calls at h
      rcases List.mem_append.mp h with h1 | h1
      · split_ifs at h1
        · rw [List.mem_singleton.mp h1]; rfl
        · simp at h1
      · split_ifs at h1
        · rw [List.mem_singleton.mp h1]; rfl
        · simp at h1
    · exact ih _ _ c h

theorem step_after_dispatch_keeps (p : Proc) (delay : Int) (env : StepEnv) :
    (step_after_dispatch p delay env).reactor.state = (step_at_poll p delay env).reactor.state ∧
    (step_after_dispatch p delay env).reactor.defer_list
      = (step_at_poll p delay env).reactor.defer_list ∧
    (step_after_dispatch p delay env).reactor.event_triggers
      = (step_at_poll p delay env).reactor.event_triggers ∧
    (step_after_dispatch p delay env).reactor.timed_methods
      = (step_at_poll p delay env).reactor.timed_methods ∧
    (step_after_dispatch p delay env).received_signal
      = (step_at_poll p delay env).received_signal ∧
    ∃ hooks, (step_after_dispatch p delay env).log = (step_at_poll p delay env).log ++ hooks ∧
      ∀ c ∈ hooks, c.is_hook = true := by
  unfold step_after_dispatch
  cases env.poll with
  | ready revents =>
    exact ⟨rfl, rfl, rfl, rfl, rfl, _, rfl, process_loop_only_hooks _ _ _⟩
  | EINTR => exact ⟨rfl, rfl, rfl, rfl, rfl, [], by simp, by simp⟩
  | failed errno => exact ⟨rfl, rfl, rfl, rfl, rfl, [], by simp, by simp⟩

theorem step_finish_fields (p : Proc) (env : StepEnv) :
    (step_finish p env).log
      = p.log ++ due_calls p.reactor.timed_methods env.now
        ++ (if p.received_signal ≠ 0 ∧ p.reactor.state = cReactorState.RUNNING then fired_calls p.reactor.event_triggers cReactorEventType.SHUTDOWN
            else []) ∧
    (step_finish p env).reactor.state
      = (if p.received_signal ≠ 0 ∧ p.reactor.state = cReactorState.RUNNING then
          (if returned_handles
              (p.reactor.event_triggers cReactorEventType.SHUTDOWN cReactorEventPhase.BEFORE) = []
            then cReactorState.DONE else cReactorState.STOPPING)
         else p.reactor.state) ∧
    (step_finish p env).reactor.defer_list
      = (if p.received_signal ≠ 0 ∧ p.reactor.state = cReactorState.RUNNING then
          p.reactor.defer_list ++ returned_handles
            (p.reactor.event_triggers cReactorEventType.SHUTDOWN cReactorEventPhase.BEFORE)
         else p.reactor.defer_list) ∧
    (step_finish p env).reactor.timed_methods
      = p.reactor.timed_methods.filter (fun t => !decide (t.deadline ≤ env.now)) ∧
    (step_finish p env).running_reactor = none := by
  unfold step_finish
  simp only
  by_cases h1 : p.received_signal = 0
  · simp [cReactorUtil_RunMethods, h1, due_calls]
  · by_cases h2 : p.reactor.state = cReactorState.RUNNING
    · simp [cReactorUtil_RunMethods, h1, h2, due_calls, stop_internal_fields]
    · simp [cReactorUtil_RunMethods, h1, h2, due_calls]

theorem iterate_internal_not_failed (p : Proc) (delay : Int) (env : StepEnv)
    (hrun : p.running_reactor = none) (hpoll : ∀ errno, env.poll ≠ PollOutcome.failed errno) :
    (iterate_internal p delay env).proc = step_finish (step_after_dispatch p delay env) env ∧
    (iterate_internal p delay env).code = 0 := by
  rw [iterate_internal_proc_eq p delay env hrun, iterate_internal_code_eq p delay env hrun]
  unfold step_rest step_after_dispatch step_at_poll
  cases h : env.poll with
  | failed errno => exact absurd h (hpoll errno)
  | ready revents => exact ⟨rfl, rfl⟩
  | EINTR => exact ⟨rfl, rfl⟩

theorem iterate_internal_failed (p : Proc) (delay : Int) (env : StepEnv) (errno : Nat)
    (hrun : p.running_reactor = none) (hpoll : env.poll = PollOutcome.failed errno) :
    iterate_internal p delay env = { proc := step_at_poll p delay env, code := -1 } := by
  have h1 := iterate_internal_proc_eq p delay env hrun
  have h2 := iterate_internal_code_eq p delay env hrun
  rw [hpoll] at h2
  unfold step_rest at h1
  rw [hpoll] at h1
  cases hr : iterate_internal p delay env with
  | mk pr c =>
    rw [hr] at h1 h2
    simp only at h1 h2
    rw [h1, h2]
    rfl

theorem step_at_poll_table (p : Proc) (delay : Int) (env : StepEnv) :
    same_table (step_rebuild p) (step_at_poll p delay env) :=
  same_table_trans (step_rebuild_congr (step_startup_same_table p))
    (step_poll_frame (step_rebuild (step_startup p)) (step_timeout p delay env) env).2

theorem fired_calls_only_triggers
    (triggers : cReactorEventType → cReactorEventPhase → List Method) (e : cReactorEventType) :
    ∀ c ∈ fired_calls triggers e, c.is_trigger = true := by
  intro c hc
  have hall : ∀ ms : List Method, ∀ c ∈ trigger_calls ms, c.is_trigger = true := by
    intro ms c hc
    simp only [trigger_calls, List.mem_map] at hc
    obtain ⟨m, _, rfl⟩ := hc
    rfl
  unfold fired_calls at hc
  rcases List.mem_append.mp hc with h | h
  · exact hall _ c h
  · split_ifs at h
    · rcases List.mem_append.mp h with h1 | h1
      · exact hall _ c h1
      · exact hall _ c h1
    · simp at h

theorem due_calls_only_timed (timed : List TimedMethod) (now : Int) :
    ∀ c ∈ due_calls timed now, c.is_timed = true := by
  intro c hc
  simp only [due_calls, List.mem_map] at hc
  obtain ⟨t, _, rfl⟩ := hc
  rfl

theorem calls_before_poll_kinds (p : Proc) :
    ∀ c ∈ calls_before_poll p, c.is_hook = false ∧ c.is_timed = false := by
  intro c hc
  unfold calls_before_poll at hc
  rcases List.mem_append.mp hc with h | h
  · split_ifs at h
    · rcases List.mem_append.mp h with h1 | h1
      · have := fired_calls_only_triggers _ _ c h1
        cases c <;> simp_all [Call.is_trigger, Call.is_hook, Call.is_timed]
      · rw [List.mem_singleton.mp h1]
        exact ⟨rfl, rfl⟩
    · simp at h
  · split_ifs at h
    · simp only [List.mem_map] at h
      obtain ⟨t, _, rfl⟩ := h
      exact ⟨rfl, rfl⟩
    · simp at h

/-! ## A step whose `poll` fails -/

/-- C11: in a step whose `poll` is interrupted by a signal no read or write hook is
invoked and the transports are left as `poll` saw them (none is marked CLOSED), yet
the timed methods that are due run, the signal latch is looked at (a non-zero latch
in the state RUNNING starts the shutdown) and the step returns 0. In a step whose
`poll` fails with another error the step returns -1 right after the call of `poll`:
no timed method runs and the latch is not looked at (the state stays as it was
after the init handling, whatever the latch). -/
theorem failed_poll_step (p : Proc) (delay : Int) (env : StepEnv)
    (hrun : p.running_reactor = none) :
    (env.poll = PollOutcome.EINTR →
      (iterate_internal p delay env).code = 0 ∧
      (iterate_internal p delay env).proc.log
        = p.log ++ calls_before_poll p
          ++ [Call.poll (step_rebuild p).reactor.num_transports (step_timeout p delay env)]
          ++ due_calls p.reactor.timed_methods env.now
          ++ (if (step_at_poll p delay env).received_signal ≠ 0
                ∧ (step_at_poll p delay env).reactor.state = cReactorState.RUNNING
              then fired_calls p.reactor.event_triggers cReactorEventType.SHUTDOWN else []) ∧
      (∃ l, (iterate_internal p delay env).proc.log = p.log ++ l ∧ ∀ c ∈ l, c.is_hook = false) ∧
      (iterate_internal p delay env).proc.reactor.transports
        = (step_rebuild p).reactor.transports ∧
      (iterate_internal p delay env).proc.reactor.timed_methods
        = p.reactor.timed_methods.filter (fun t => !decide (t.deadline ≤ env.now)) ∧
      ((step_at_poll p delay env).received_signal ≠ 0 →
        (step_at_poll p delay env).reactor.state = cReactorState.RUNNING →
        (iterate_internal p delay env).proc.reactor.state ≠ cReactorState.RUNNING)) ∧
    (∀ errno : Nat, env.poll = PollOutcome.failed errno →
      (iterate_internal p delay env).code = -1 ∧
      (iterate_internal p delay env).proc.log
        = p.log ++ calls_before_poll p
          ++ [Call.poll (step_rebuild p).reactor.num_transports (step_timeout p delay env)] ∧
      (∀ c ∈ calls_before_poll p, c.is_timed = false) ∧
      (iterate_internal p delay env).proc.reactor.timed_methods = p.reactor.timed_methods ∧
      (iterate_internal p delay env).proc.reactor.state = (step_startup p).reactor.state) := by
  have hlog := step_at_poll_log p delay env
  have hkeep := step_at_poll_keeps p delay env
  have htab := step_at_poll_table p delay env
  rw [htab.2.2.2] at hlog
  refine ⟨fun hpoll => ?_, fun errno hpoll => ?_⟩
  · have hnf : ∀ errno, env.poll ≠ PollOutcome.failed errno := by
      intro errno h
      rw [hpoll] at h
      cases h
    obtain ⟨hproc, hcode⟩ := iterate_internal_not_failed p delay env hrun hnf
    have hx : step_after_dispatch p delay env = step_at_poll p delay env := by
      unfold step_after_dispatch
      rw [hpoll]
    rw [hx] at hproc
    have hfin := step_finish_fields (step_at_poll p delay env) env
    have hft := step_finish_same_table (step_at_poll p delay env) env
    rw [hkeep.2.2.1, hkeep.2.2.2.1, hlog] at hfin
    have hlogfin : (iterate_internal p delay env).proc.log
        = p.log ++ calls_before_poll p
          ++ [Call.poll (step_rebuild p).reactor.num_transports (step_timeout p delay env)]
          ++ due_calls p.reactor.timed_methods env.now
          ++ (if (step_at_poll p delay env).received_signal ≠ 0
                ∧ (step_at_poll p delay env).reactor.state = cReactorState.RUNNING
              then fired_calls p.reactor.event_triggers cReactorEventType.SHUTDOWN else []) := by
      rw [hproc, hfin.1]
    refine ⟨hcode, hlogfin, ?_, ?_, ?_, ?_⟩
    · refine ⟨calls_before_poll p
          ++ ([Call.poll (step_rebuild p).reactor.num_transports (step_timeout p delay env)]
          ++ (due_calls p.reactor.timed_methods env.now
          ++ (if (step_at_poll p delay env).received_signal ≠ 0
                ∧ (step_at_poll p delay env).reactor.state = cReactorState.RUNNING
              then fired_calls p.reactor.event_triggers cReactorEventType.SHUTDOWN else []))),
        by rw [hlogfin]; simp only [List.append_assoc], ?_⟩
      intro c hc
      rcases List.mem_append.mp hc with h | h
      · exact (calls_before_poll_kinds p c h).1
      · rcases List.mem_append.mp h with h | h
        · rw [List.mem_singleton.mp h]; rfl
        · rcases List.mem_append.mp h with h | h
          · have := due_calls_only_timed _ _ c h
            cases c <;> simp_all [Call.is_timed, Call.is_hook]
          · split_ifs at h
            · have := fired_calls_only_triggers _ _ c h
              cases c <;> simp_all [Call.is_trigger, Call.is_hook]
            · simp at h
    · rw [hproc, hft.1, htab.1]
    · rw [hproc, hfin.2.2.2.1]
    · intro h1 h2
      rw [hproc, hfin.2.1, if_pos ⟨h1, h2⟩]
      split_ifs <;> decide
  · have h := iterate_internal_failed p delay env errno hrun hpoll
    rw [h]
    refine ⟨rfl, hlog, fun c hc => (calls_before_poll_kinds p c hc).2, hkeep.2.2.2.1, hkeep.1⟩

/-- The witness of C11: on a new reactor, a step whose `poll` is interrupted returns
0, and a step whose `poll` fails with EBADF returns -1. -/
theorem failed_poll_step_witness :
    Proc.start.running_reactor = none ∧
    (iterate_internal Proc.start 0 sigint_step).code = 0 ∧
    (iterate_internal Proc.start 0 failing_step).code = -1 :=
  ⟨rfl, ((failed_poll_step Proc.start 0 sigint_step rfl).1 rfl).1,
   ((failed_poll_step Proc.start 0 failing_step rfl).2 9 rfl).1⟩

/-! ## The first step -/

/-- C14 as stated fails: the reactor is in the state INIT with the handle 20 of
PERSIST outstanding; its first step, with no STARTUP handle, a successful `poll`
and no signal, runs the STARTUP triggers 1, 2, 3 in order and ends in the state
RUNNING, but `defer_list` is not empty. -/
theorem first_step_keeps_defer_list :
    first_step_after_persist.1.reactor.state = cReactorState.INIT ∧
    first_step_after_persist.1.running_reactor = none ∧
    first_step_after_persist.2.log
      = [Call.trigger { id := 4, result := PyResult.deferred 20 },
         Call.trigger { id := 1, result := PyResult.value },
         Call.trigger { id := 2, result := PyResult.value },
         Call.trigger { id := 3, result := PyResult.value },
         Call.install_handlers, Call.poll 0 0] ∧
    first_step_after_persist.2.reactor.state = cReactorState.RUNNING ∧
    first_step_after_persist.2.reactor.defer_list = [20] := by
  decide

/-- C14 as amended: a step that is not rejected as re-entrant, on a reactor in the
state INIT, fires STARTUP once, before the rebuild and the call of `poll` (with the
timeout computed after it), then clears the signal latch and sets the state to
RUNNING. When no BEFORE trigger of STARTUP returns a completion handle, `poll` does
not fail with an error and no signal arrives, the step ends with the BEFORE, DURING
and AFTER triggers of STARTUP having run in that order, once, with no other trigger
called, in the state RUNNING and with `defer_list` as it was on entry (empty when
it was empty). A step on a reactor whose state is not INIT calls no trigger before
`poll` and leaves the state and `defer_list` as they are up to there. -/
theorem first_step_fires_startup (p : Proc) (delay : Int) (env : StepEnv)
    (hrun : p.running_reactor = none) :
    (p.reactor.state = cReactorState.INIT →
      (step_at_poll p delay env).log
        = p.log ++ (fired_calls p.reactor.event_triggers cReactorEventType.STARTUP
            ++ [Call.install_handlers]
            ++ (if p.reactor.pollfd_stale then
                  (closed_transports p.reactor.transports).map (fun t => Call.close t.ident)
                else []))
          ++ [Call.poll (step_rebuild p).reactor.num_transports (step_timeout p delay env)] ∧
      (step_startup p).received_signal = 0 ∧
      (step_startup p).reactor.state = cReactorState.RUNNING) ∧
    (p.reactor.state = cReactorState.INIT →
      returned_handles
        (p.reactor.event_triggers cReactorEventType.STARTUP cReactorEventPhase.BEFORE) = [] →
      (∀ errno, env.poll ≠ PollOutcome.failed errno) → env.signal = 0 →
      (iterate_internal p delay env).code = 0 ∧
      (∃ l, (iterate_internal p delay env).proc.log
          = p.log ++ (trigger_calls
                (p.reactor.event_triggers cReactorEventType.STARTUP cReactorEventPhase.BEFORE)
              ++ trigger_calls
                (p.reactor.event_triggers cReactorEventType.STARTUP cReactorEventPhase.DURING)
              ++ trigger_calls
                (p.reactor.event_triggers cReactorEventType.STARTUP cReactorEventPhase.AFTER))
            ++ l ∧
        ∀ c ∈ l, c.is_trigger = false) ∧
      (iterate_internal p delay env).proc.reactor.state = cReactorState.RUNNING ∧
      (iterate_internal p delay env).proc.reactor.defer_list = p.reactor.defer_list) ∧
    (p.reactor.state ≠ cReactorState.INIT →
      (step_at_poll p delay env).log
        = p.log ++ (if p.reactor.pollfd_stale then
              (closed_transports p.reactor.transports).map (fun t => Call.close t.ident)
            else [])
          ++ [Call.poll (step_rebuild p).reactor.num_transports (step_timeout p delay env)] ∧
      (step_at_poll p delay env).reactor.state = p.reactor.state ∧
      (step_at_poll p delay env).reactor.defer_list = p.reactor.defer_list) := by
  have hlog := step_at_poll_log p delay env
  have hkeep := step_at_poll_keeps p delay env
  have htab := step_at_poll_table p delay env
  rw [htab.2.2.2] at hlog
  have hsf := step_startup_fields p
  refine ⟨fun hi => ?_, fun hi hh hnf hsig => ?_, fun hi => ?_⟩
  · rw [if_pos hi] at hsf
    refine ⟨?_, by rw [hsf], by rw [hsf]⟩
    rw [hlog]
    simp [calls_before_poll, hi]
  · rw [if_pos hi] at hsf
    obtain ⟨hproc, hcode⟩ := iterate_internal_not_failed p delay env hrun hnf
    obtain ⟨hd1, hd2, hd3, hd4, hd5, hooks, hd6, hd7⟩ := step_after_dispatch_keeps p delay env
    have hfin := step_finish_fields (step_after_dispatch p delay env) env
    have hsig0 : (step_after_dispatch p delay env).received_signal = 0 := by
      rw [hd5, hkeep.2.2.2.2, hsf]
      simp [hsig]
    have hcond : ¬ ((step_after_dispatch p delay env).received_signal ≠ 0
        ∧ (step_after_dispatch p delay env).reactor.state = cReactorState.RUNNING) := by
      intro h
      exact h.1 hsig0
    rw [if_neg hcond, if_neg hcond, if_neg hcond] at hfin
    refine ⟨hcode, ?_, ?_, ?_⟩
    · refine ⟨[Call.install_handlers]
          ++ ((if p.reactor.pollfd_stale then
                (closed_transports p.reactor.transports).map (fun t => Call.close t.ident)
              else [])
          ++ ([Call.poll (step_rebuild p).reactor.num_transports (step_timeout p delay env)]
          ++ (hooks ++ due_calls (step_after_dispatch p delay env).reactor.timed_methods
                env.now))), ?_, ?_⟩
      · rw [hproc, hfin.1, hd6, hlog]
        simp [calls_before_poll, hi, fired_calls, hh, List.append_assoc]
      · intro c hc
        rcases List.mem_append.mp hc with h | h
        · rw [List.mem_singleton.mp h]; rfl
        · rcases List.mem_append.mp h with h | h
          · split_ifs at h
            · simp only [List.mem_map] at h
              obtain ⟨t, _, rfl⟩ := h
              rfl
            · simp at h
          · rcases List.mem_append.mp h with h | h
            · rw [List.mem_singleton.mp h]; rfl
            · rcases List.mem_append.mp h with h | h
              · have := hd7 c h
                cases c <;> simp_all [Call.is_trigger, Call.is_hook]
              · have := due_calls_only_timed _ _ c h
                cases c <;> simp_all [Call.is_trigger, Call.is_timed]
    · rw [hproc, hfin.2.1, hd1, hkeep.1, hsf]
    · rw [hproc, hfin.2.2.1, hd2, hkeep.2.1, hsf]
      simp [hh]
  · rw [if_neg hi] at hsf
    refine ⟨?_, by rw [hkeep.1, hsf], by rw [hkeep.2.1, hsf]⟩
    rw [hlog]
    simp [calls_before_poll, hi]

/-- The witness of C14 as amended: the first step, a quiet one, of the new reactor
whose STARTUP triggers 1, 2, 3 return plain values. -/
theorem first_step_fires_startup_witness :
    plain_startup_proc.running_reactor = none ∧
    plain_startup_proc.reactor.state = cReactorState.INIT ∧
    (step_at_poll plain_startup_proc 0 quiet_step).log
      = [Call.trigger { id := 1, result := PyResult.value },
         Call.trigger { id := 2, result := PyResult.value },
         Call.trigger { id := 3, result := PyResult.value },
         Call.install_handlers, Call.poll 0 0] ∧
    (step_startup plain_startup_proc).received_signal = 0 ∧
    (step_startup plain_startup_proc).reactor.state = cReactorState.RUNNING :=
  ⟨rfl, rfl, (first_step_fires_startup plain_startup_proc 0 quiet_step rfl).1 rfl⟩

/-! ## The signal check of a step -/

/-- C15: in a step whose `poll` succeeds or is interrupted, the signal latch is
looked at after the readiness dispatch and after the timed methods. When the latch
is then non-zero and the state RUNNING, the step fires SHUTDOWN once (its BEFORE
triggers and, when none of them returns a completion handle, its DURING and AFTER
triggers) and ends in the state DONE when no handle was returned, in the state
STOPPING otherwise. When the latch is zero or the state is not RUNNING, the step
calls nothing more and leaves the state as it is. -/
theorem signal_check_after_dispatch (p : Proc) (delay : Int) (env : StepEnv)
    (hrun : p.running_reactor = none)
    (hpoll : ∀ errno, env.poll ≠ PollOutcome.failed errno) :
    (∃ hooks, (step_at_signal_check p delay env).log
        = (step_at_poll p delay env).log ++ hooks
          ++ due_calls p.reactor.timed_methods env.now ∧
      ∀ c ∈ hooks, c.is_hook = true) ∧
    ((step_at_signal_check p delay env).received_signal ≠ 0 →
      (step_at_signal_check p delay env).reactor.state = cReactorState.RUNNING →
      (iterate_internal p delay env).proc.log
        = (step_at_signal_check p delay env).log
          ++ fired_calls p.reactor.event_triggers cReactorEventType.SHUTDOWN ∧
      (returned_handles
          (p.reactor.event_triggers cReactorEventType.SHUTDOWN cReactorEventPhase.BEFORE) = [] →
        (iterate_internal p delay env).proc.reactor.state = cReactorState.DONE) ∧
      (returned_handles
          (p.reactor.event_triggers cReactorEventType.SHUTDOWN cReactorEventPhase.BEFORE) ≠ [] →
        (iterate_internal p delay env).proc.reactor.state = cReactorState.STOPPING)) ∧
    ((step_at_signal_check p delay env).received_signal = 0
        ∨ (step_at_signal_check p delay env).reactor.state ≠ cReactorState.RUNNING →
      (iterate_internal p delay env).proc.log = (step_at_signal_check p delay env).log ∧
      (iterate_internal p delay env).proc.reactor.state
        = (step_at_signal_check p delay env).reactor.state) := by
  obtain ⟨hproc, _⟩ := iterate_internal_not_failed p delay env hrun hpoll
  obtain ⟨hd1, hd2, hd3, hd4, hd5, hooks, hd6, hd7⟩ := step_after_dispatch_keeps p delay env
  have hkeep := step_at_poll_keeps p delay env
  have hfin := step_finish_fields (step_after_dispatch p delay env) env
  have hq1 : (step_at_signal_check p delay env).log
      = (step_after_dispatch p delay env).log
        ++ due_calls (step_after_dispatch p delay env).reactor.timed_methods env.now := rfl
  have hq2 : (step_at_signal_check p delay env).received_signal
      = (step_after_dispatch p delay env).received_signal := rfl
  have hq3 : (step_at_signal_check p delay env).reactor.state
      = (step_after_dispatch p delay env).reactor.state := rfl
  have htm : (step_after_dispatch p delay env).reactor.timed_methods = p.reactor.timed_methods :=
    hd4.trans hkeep.2.2.2.1
  have htr : (step_after_dispatch p delay env).reactor.event_triggers
      = p.reactor.event_triggers := hd3.trans hkeep.2.2.1
  rw [htm, htr] at hfin
  rw [htm] at hq1
  refine ⟨⟨hooks, by rw [hq1, hd6], hd7⟩, fun h1 h2 => ?_, fun h => ?_⟩
  · rw [hq2] at h1
    rw [hq3] at h2
    rw [if_pos ⟨h1, h2⟩, if_pos ⟨h1, h2⟩] at hfin
    refine ⟨by rw [hproc, hfin.1, hq1], fun hh => ?_, fun hh => ?_⟩
    · rw [hproc, hfin.2.1, if_pos hh]
    · rw [hproc, hfin.2.1, if_neg hh]
  · have hcond : ¬ ((step_after_dispatch p delay env).received_signal ≠ 0
        ∧ (step_after_dispatch p delay env).reactor.state = cReactorState.RUNNING) := by
      rintro ⟨c1, c2⟩
      rcases h with h | h
      · exact c1 (hq2 ▸ h)
      · exact h (hq3 ▸ c2)
    rw [if_neg hcond, if_neg hcond] at hfin
    refine ⟨by rw [hproc, hfin.1, hq1, List.append_nil], by rw [hproc, hfin.2.1, hq3]⟩

/-- The witness of C15: the first step of the example reactor, with SIGINT arriving
during `poll`: the latch is 2 and the state RUNNING at the signal check, and the
step calls the SHUTDOWN triggers 9, 10 (BEFORE), 11 (DURING), 12 (AFTER) after the
call of `poll` and ends in the state DONE. -/
theorem signal_check_after_dispatch_witness :
    example_proc.running_reactor = none ∧
    (∀ errno, sigint_step.poll ≠ PollOutcome.failed errno) ∧
    (step_at_signal_check example_proc 0 sigint_step).received_signal ≠ 0 ∧
    (step_at_signal_check example_proc 0 sigint_step).reactor.state = cReactorState.RUNNING ∧
    (iterate_internal example_proc 0 sigint_step).proc.log
      = [Call.trigger { id := 1, result := PyResult.deferred 10 },
         Call.trigger { id := 2, result := PyResult.value },
         Call.trigger { id := 3, result := PyResult.deferred 11 },
         Call.install_handlers, Call.poll 0 0,
         Call.trigger { id := 9, result := PyResult.raised },
         Call.trigger { id := 10, result := PyResult.value },
         Call.trigger { id := 11, result := PyResult.value },
         Call.trigger { id := 12, result := PyResult.raised }] ∧
    (iterate_internal example_proc 0 sigint_step).proc.reactor.state = cReactorState.DONE :=
  ⟨rfl, (fun errno h => by cases h), by decide, by decide,
   ((signal_check_after_dispatch example_proc 0 sigint_step rfl
      (fun errno h => by cases h)).2.1 (by decide) (by decide)).1,
   ((signal_check_after_dispatch example_proc 0 sigint_step rfl
      (fun errno h => by cases h)).2.1 (by decide) (by decide)).2.1 (by decide)⟩

/-! ## The resolution callback -/

/-- C22 as stated fails: on a reactor whose `defer_list` is empty the callback called
with the id 5, which is absent, leaves the list empty and runs the DURING and AFTER
triggers of the tagged event PERSIST (7 and 8). -/
theorem absent_handle_finishes_event :
    example_proc.reactor.defer_list = [] ∧
    empty_defer_list_call.map (fun q => (q.reactor.defer_list, q.log))
      = some ([], [Call.trigger { id := 7, result := PyResult.value },
                   Call.trigger { id := 8, result := PyResult.value }]) := by
  decide

/-- C22 as amended: for every `defer_list` and every id `d`, the callback called with
`d` and a valid event tag removes the first occurrence of `d` from the list and
keeps all other entries in their order, leaves the list unchanged when `d` is
absent, and runs the DURING and then the AFTER triggers of the tagged event if and
only if the list is empty after that: when `d` was present and its removal emptied
the list, and also when `d` was absent and the list was empty already. -/
theorem callback_finishes_when_list_empty (p : Proc) (d : Nat) (e : cReactorEventType) :
    ∃ q, system_event_defer_callback p (PyArg.long d) e.toInt = some q ∧
      q.reactor.defer_list = p.reactor.defer_list.erase d ∧
      (d ∈ p.reactor.defer_list →
        ∃ l1 l2, d ∉ l1 ∧ p.reactor.defer_list = l1 ++ d :: l2 ∧
          q.reactor.defer_list = l1 ++ l2) ∧
      (d ∉ p.reactor.defer_list → q.reactor.defer_list = p.reactor.defer_list) ∧
      (q.reactor.defer_list = [] →
        q.log = p.log ++ (trigger_calls (p.reactor.event_triggers e cReactorEventPhase.DURING)
            ++ trigger_calls (p.reactor.event_triggers e cReactorEventPhase.AFTER))) ∧
      (q.reactor.defer_list ≠ [] → q.log = p.log) := by
  refine ⟨_, system_event_defer_callback_eq p d e, ?_⟩
  have hlist : (if p.reactor.defer_list.erase d = [] then
        finish_system_event (p.with_defer_list (p.reactor.defer_list.erase d)) e
      else p.with_defer_list (p.reactor.defer_list.erase d)).reactor.defer_list
      = p.reactor.defer_list.erase d := by
    split_ifs
    · rw [finish_system_event_eq]
      rfl
    · rfl
  refine ⟨hlist, fun hmem => ?_, fun hmem => ?_, fun hnil => ?_, fun hne => ?_⟩
  · obtain ⟨l1, l2, h1, h2, h3⟩ := List.exists_erase_eq hmem
    exact ⟨l1, l2, h1, h2, by rw [hlist, h3]⟩
  · rw [hlist]
    exact List.erase_of_not_mem hmem
  · rw [hlist] at hnil
    rw [if_pos hnil, finish_system_event_eq]
    simp [Proc.with_defer_list]
  · rw [hlist] at hne
    rw [if_neg hne]
    rfl

/-! ## Triggers that raise -/

theorem returned_handles_no_raise (ms : List Method) :
    returned_handles (ms.map Method.no_raise) = returned_handles ms := by
  induction ms with
  | nil => rfl
  | cons m ms ih =>
    unfold returned_handles at ih ⊢
    rw [List.map_cons, List.filterMap_cons, List.filterMap_cons, ih]
    cases hm : m.result <;> simp [Method.no_raise, PyResult.no_raise, PyResult.deferred_id, hm]

theorem trigger_calls_no_raise (ms : List Method) :
    trigger_calls (ms.map Method.no_raise) = (trigger_calls ms).map Call.no_raise := by
  simp [trigger_calls, List.map_map, Function.comp_def, Call.no_raise]

theorem fired_calls_no_raise
    (triggers : cReactorEventType → cReactorEventPhase → List Method) (e : cReactorEventType) :
    fired_calls (no_raise_triggers triggers) e = (fired_calls triggers e).map Call.no_raise := by
  unfold fired_calls no_raise_triggers
  simp only [returned_handles_no_raise, trigger_calls_no_raise]
  split_ifs <;> simp

theorem cReactor_fireSystemEvent_name (p : Proc) (e : cReactorEventType) :
    cReactor_fireSystemEvent p e.name = some (fireSystemEvent_internal p e) := by
  have h : cReactorUtil_GetEventType e.name = some e :=
    (cReactorUtil_GetEventType_some _ _).mpr rfl
  simp [cReactor_fireSystemEvent, h]

/-- C21: whichever triggers raise, a firing calls the same triggers, each once and in
the same order, as the firing in which they return plain values instead: the BEFORE
triggers, and when none of them returns a completion handle (a BEFORE trigger that
raises returns none) the DURING and the AFTER triggers; `fireSystemEvent` returns
success; the state and `defer_list` are the same as without the exceptions; and the
end of the event, DURING then AFTER, runs all triggers and moves STOPPING to DONE. -/
theorem raising_triggers_do_not_abort (p : Proc) (e : cReactorEventType) :
    (fireSystemEvent_internal p e).log = p.log ++ fired_calls p.reactor.event_triggers e ∧
    (fireSystemEvent_internal (p.with_triggers (no_raise_triggers p.reactor.event_triggers))
        e).log
      = p.log ++ (fired_calls p.reactor.event_triggers e).map Call.no_raise ∧
    returned_handles
        ((p.reactor.event_triggers e cReactorEventPhase.BEFORE).map Method.no_raise)
      = returned_handles (p.reactor.event_triggers e cReactorEventPhase.BEFORE) ∧
    (fireSystemEvent_internal p e).reactor.state
      = (fireSystemEvent_internal (p.with_triggers (no_raise_triggers p.reactor.event_triggers))
          e).reactor.state ∧
    (fireSystemEvent_internal p e).reactor.defer_list
      = (fireSystemEvent_internal (p.with_triggers (no_raise_triggers p.reactor.event_triggers))
          e).reactor.defer_list ∧
    cReactor_fireSystemEvent p e.name = some (fireSystemEvent_internal p e) ∧
    (finish_system_event p e).log
      = p.log ++ (trigger_calls (p.reactor.event_triggers e cReactorEventPhase.DURING)
          ++ trigger_calls (p.reactor.event_triggers e cReactorEventPhase.AFTER)) ∧
    (p.reactor.state = cReactorState.STOPPING →
      (finish_system_event p e).reactor.state = cReactorState.DONE) := by
  have hh := returned_handles_no_raise (p.reactor.event_triggers e cReactorEventPhase.BEFORE)
  refine ⟨?_, ?_, hh, ?_, ?_, cReactor_fireSystemEvent_name p e, ?_, ?_⟩
  · rw [fireSystemEvent_internal_fields]
  · rw [fireSystemEvent_internal_fields]
    simp only [Proc.with_triggers]
    rw [fired_calls_no_raise]
  · rw [fireSystemEvent_internal_fields, fireSystemEvent_internal_fields]
    simp only [Proc.with_triggers, no_raise_triggers, hh]
  · rw [fireSystemEvent_internal_fields, fireSystemEvent_internal_fields]
    simp only [Proc.with_triggers, no_raise_triggers, hh]
  · rw [finish_system_event_eq]
  · intro h
    rw [finish_system_event_eq]
    simp [h]

/-- An instance of C21: SHUTDOWN fired on the example reactor, whose triggers 9
(BEFORE) and 12 (AFTER) raise, calls 9, 10, 11, 12 in order. -/
theorem raising_triggers_do_not_abort_witness :
    (fireSystemEvent_internal example_proc cReactorEventType.SHUTDOWN).log
      = [Call.trigger { id := 9, result := PyResult.raised },
         Call.trigger { id := 10, result := PyResult.value },
         Call.trigger { id := 11, result := PyResult.value },
         Call.trigger { id := 12, result := PyResult.raised }] :=
  (raising_triggers_do_not_abort example_proc cReactorEventType.SHUTDOWN).1

/-! ## The transport count and the size of the pollfd array -/

theorem apply_table_op_count_le (p : Proc) (op : TableOp)
    (h : p.reactor.transports.length ≤ p.reactor.num_transports) :
    (apply_table_op p op).reactor.transports.length
      ≤ (apply_table_op p op).reactor.num_transports := by
  cases op with
  | add transport =>
    simp only [apply_table_op, cReactor_AddTransport, List.length_cons]
    omega
  | mark_closed index sets_stale => simpa [apply_table_op] using h
  | rebuild =>
    simp only [apply_table_op, iterate_rebuild_pollfd_arrray, rebuild_loop_num, Nat.zero_add]
    exact rebuild_loop_length_le _ _

theorem apply_table_op_size (p : Proc) (op : TableOp) :
    p.reactor.pollfd_size ≤ (apply_table_op p op).reactor.pollfd_size := by
  cases op with
  | add transport => exact le_refl _
  | mark_closed index sets_stale => exact le_refl _
  | rebuild =>
    simp only [apply_table_op, iterate_rebuild_pollfd_arrray]
    split_ifs <;> omega

theorem apply_table_ops_count_le (ops : List TableOp) :
    ∀ p : Proc, p.reactor.transports.length ≤ p.reactor.num_transports →
      (apply_table_ops p ops).reactor.transports.length
        ≤ (apply_table_ops p ops).reactor.num_transports := by
  induction ops with
  | nil => intro p h; exact h
  | cons op ops ih =>
    intro p h
    exact ih (apply_table_op p op) (apply_table_op_count_le p op h)

theorem apply_table_ops_size (ops : List TableOp) :
    ∀ p : Proc, p.reactor.pollfd_size ≤ (apply_table_ops p ops).reactor.pollfd_size := by
  induction ops with
  | nil => intro p; exact le_refl _
  | cons op ops ih =>
    intro p
    exact le_trans (apply_table_op_size p op) (ih (apply_table_op p op))

theorem rebuild_within_pollfd_size (p : Proc)
    (h : p.reactor.transports.length ≤ p.reactor.num_transports) :
    (iterate_rebuild_pollfd_arrray p).reactor.pollfd_array.length
      ≤ (iterate_rebuild_pollfd_arrray p).reactor.pollfd_size := by
  have hlive : (live_transports p.reactor.transports).length ≤ p.reactor.transports.length :=
    (live_transports_sublist p.reactor.transports).length_le
  simp only [iterate_rebuild_pollfd_arrray, rebuild_loop_slots, List.length_map]
  split_ifs <;> omega

/-- C23 fails in the source, at `dropping_table_ops` on a new reactor: transport 2
is registered, then transport 1, transport 2 is marked CLOSED and the table is
rebuilt. Before the rebuild the count and the length of the list are both 2; after
it the recorded count is 1 and the list is empty. -/
theorem count_differs_from_list_length :
    (apply_table_ops Proc.start dropping_table_ops.dropLast).reactor.transports.map
        (fun t => (t.ident, t.state))
      = [(1, cReactorTransportState.ACTIVE), (2, cReactorTransportState.CLOSED)] ∧
    (apply_table_ops Proc.start dropping_table_ops.dropLast).reactor.num_transports = 2 ∧
    (apply_table_ops Proc.start dropping_table_ops).reactor.num_transports = 1 ∧
    (apply_table_ops Proc.start dropping_table_ops).reactor.transports.length = 0 := by
  decide

/-- What holds of every state reached from a new reactor by `cReactor_AddTransport`,
transports being marked CLOSED and rebuilds, in any order: the transport list is no
longer than the recorded count; a rebuild in such a state writes no more slots than
`pollfd_size` is after the rebuild has made sure of it; `pollfd_size` is 8 at the
start and no operation makes it smaller. -/
theorem count_bounds_list_length (ops : List TableOp) :
    (apply_table_ops Proc.start ops).reactor.transports.length
      ≤ (apply_table_ops Proc.start ops).reactor.num_transports ∧
    (iterate_rebuild_pollfd_arrray (apply_table_ops Proc.start ops)).reactor.pollfd_array.length
      ≤ (iterate_rebuild_pollfd_arrray (apply_table_ops Proc.start ops)).reactor.pollfd_size ∧
    Proc.start.reactor.pollfd_size = 8 ∧
    8 ≤ (apply_table_ops Proc.start ops).reactor.pollfd_size ∧
    (∀ (p : Proc) (op : TableOp),
      p.reactor.pollfd_size ≤ (apply_table_op p op).reactor.pollfd_size) ∧
    (∀ following : List TableOp,
      (apply_table_ops Proc.start ops).reactor.pollfd_size
        ≤ (apply_table_ops (apply_table_ops Proc.start ops) following).reactor.pollfd_size) := by
  have hc := apply_table_ops_count_le ops Proc.start (le_refl _)
  exact ⟨hc, rebuild_within_pollfd_size _ hc, rfl, apply_table_ops_size ops Proc.start,
    apply_table_op_size, fun following => apply_table_ops_size following _⟩

/-- The pollfd array in bytes: five transports registered on a new reactor and a
rebuild. `pollfd_size` stays 8 and five slots of 8 bytes are written, 40 bytes; the
block allocated has 32 bytes where a pointer has 4 bytes, and 64 bytes where it has
8 bytes. -/
theorem five_slots_in_bytes :
    (iterate_rebuild_pollfd_arrray (apply_table_ops Proc.start five_adds)).reactor.pollfd_size
      = 8 ∧
    sizeof_struct_pollfd *
      (iterate_rebuild_pollfd_arrray
        (apply_table_ops Proc.start five_adds)).reactor.pollfd_array.length = 40 ∧
    pollfd_array_bytes 4
      (iterate_rebuild_pollfd_arrray (apply_table_ops Proc.start five_adds)).reactor = 32 ∧
    pollfd_array_bytes 8
      (iterate_rebuild_pollfd_arrray (apply_table_ops Proc.start five_adds)).reactor = 64 := by
  decide

/-! ## Shutdown fired by the signal check, over a sequence of operations -/

theorem iterate_internal_rejected (p : Proc) (delay : Int) (env : StepEnv)
    (h : p.running_reactor ≠ none) :
    (iterate_internal p delay env).proc = p := by
  unfold iterate_internal
  cases hr : p.running_reactor with
  | none => exact absurd hr h
  | some r => simp

theorem step_finish_eq_stop (p : Proc) (env : StepEnv) :
    step_finish p env
      = if (cReactorUtil_RunMethods p env.now).received_signal ≠ 0
            ∧ (cReactorUtil_RunMethods p env.now).reactor.state = cReactorState.RUNNING then
          { stop_internal (cReactorUtil_RunMethods p env.now) with running_reactor := none }
        else { cReactorUtil_RunMethods p env.now with running_reactor := none } := by
  unfold step_finish
  simp only
  by_cases h1 : (cReactorUtil_RunMethods p env.now).received_signal = 0
  · simp [h1]
  · by_cases h2 : (cReactorUtil_RunMethods p env.now).reactor.state = cReactorState.RUNNING
    · simp [h1, h2]
    · simp [h1, h2]

theorem step_finish_signal (p : Proc) (env : StepEnv) :
    (step_finish p env).received_signal = p.received_signal := by
  rw [step_finish_eq_stop]
  split_ifs
  · rw [stop_internal_fields]
    rfl
  · rfl

theorem step_at_signal_check_state (p : Proc) (delay : Int) (env : StepEnv) :
    (step_at_signal_check p delay env).reactor.state = (step_startup p).reactor.state := by
  have h1 := step_after_dispatch_keeps p delay env
  have h2 := step_at_poll_keeps p delay env
  show (step_after_dispatch p delay env).reactor.state = _
  rw [h1.1, h2.1]

theorem step_startup_state_of_not_init (p : Proc)
    (h : p.reactor.state ≠ cReactorState.INIT) :
    (step_startup p).reactor.state = p.reactor.state := by
  rw [step_startup_fields, if_neg h]

theorem step_keeps_state (p : Proc) (delay : Int) (env : StepEnv)
    (h1 : p.reactor.state ≠ cReactorState.INIT) (h2 : p.reactor.state ≠ cReactorState.RUNNING) :
    (iterate_internal p delay env).proc.reactor.state = p.reactor.state := by
  by_cases hrun : p.running_reactor = none
  · have hst := step_startup_state_of_not_init p h1
    cases hp : env.poll with
    | failed errno =>
      rw [iterate_internal_failed p delay env errno hrun hp]
      show (step_at_poll p delay env).reactor.state = _
      rw [(step_at_poll_keeps p delay env).1, hst]
    | ready revents =>
      have hnf : ∀ errno, env.poll ≠ PollOutcome.failed errno := by
        intro errno h; rw [hp] at h; cases h
      rw [(iterate_internal_not_failed p delay env hrun hnf).1]
      have hx : (step_after_dispatch p delay env).reactor.state = p.reactor.state := by
        rw [(step_after_dispatch_keeps p delay env).1, (step_at_poll_keeps p delay env).1, hst]
      rw [(step_finish_fields _ env).2.1, if_neg (by rintro ⟨_, c⟩; exact h2 (hx ▸ c)), hx]
    | EINTR =>
      have hnf : ∀ errno, env.poll ≠ PollOutcome.failed errno := by
        intro errno h; rw [hp] at h; cases h
      rw [(iterate_internal_not_failed p delay env hrun hnf).1]
      have hx : (step_after_dispatch p delay env).reactor.state = p.reactor.state := by
        rw [(step_after_dispatch_keeps p delay env).1, (step_at_poll_keeps p delay env).1, hst]
      rw [(step_finish_fields _ env).2.1, if_neg (by rintro ⟨_, c⟩; exact h2 (hx ▸ c)), hx]
  · rw [iterate_internal_rejected p delay env hrun]

theorem callback_state (p q : Proc) (defer_id : PyArg) (event_type : Int)
    (h : system_event_defer_callback p defer_id event_type = some q) :
    q.reactor.state = p.reactor.state ∨
    (p.reactor.state = cReactorState.STOPPING ∧ q.reactor.state = cReactorState.DONE) := by
  unfold system_event_defer_callback at h
  cases defer_id with
  | other => simp at h
  | long d =>
    cases he : cReactorEventType.ofInt event_type with
    | none => simp [he] at h
    | some e =>
      simp only [he] at h
      split_ifs at h
      · rw [finish_system_event_eq] at h
        simp only [Option.some.injEq] at h
        rw [← h]
        by_cases hs : p.reactor.state = cReactorState.STOPPING
        · right
          exact ⟨hs, by simp [hs]⟩
        · left
          simp [hs]
      · simp only [Option.some.injEq] at h
        rw [← h]
        left
        rfl

theorem apply_loop_op_stopped (p : Proc) (op : LoopOp)
    (h : p.reactor.state = cReactorState.STOPPING ∨ p.reactor.state = cReactorState.DONE) :
    (apply_loop_op p op).reactor.state = cReactorState.STOPPING
      ∨ (apply_loop_op p op).reactor.state = cReactorState.DONE := by
  have h1 : p.reactor.state ≠ cReactorState.INIT := by
    rcases h with h | h <;> rw [h] <;> decide
  have h2 : p.reactor.state ≠ cReactorState.RUNNING := by
    rcases h with h | h <;> rw [h] <;> decide
  cases op with
  | step delay env =>
    have e : apply_loop_op p (LoopOp.step delay env) = (iterate_internal p delay env).proc := rfl
    rw [e, step_keeps_state p delay env h1 h2]
    exact h
  | resolve defer_id event_type =>
    cases hc : system_event_defer_callback p defer_id event_type with
    | none =>
      have e : apply_loop_op p (LoopOp.resolve defer_id event_type) = p := by
        simp only [apply_loop_op, hc]
      rw [e]
      exact h
    | some q =>
      have e : apply_loop_op p (LoopOp.resolve defer_id event_type) = q := by
        simp only [apply_loop_op, hc]
      rw [e]
      rcases callback_state p q defer_id event_type hc with hq | hq
      · rw [hq]
        exact h
      · right
        exact hq.2

theorem step_stops_of_stopped (p : Proc) (delay : Int) (env : StepEnv)
    (h : p.reactor.state = cReactorState.STOPPING ∨ p.reactor.state = cReactorState.DONE) :
    step_stops p delay env = false := by
  have h1 : p.reactor.state ≠ cReactorState.INIT := by
    rcases h with h | h <;> rw [h] <;> decide
  have h2 : p.reactor.state ≠ cReactorState.RUNNING := by
    rcases h with h | h <;> rw [h] <;> decide
  have hq : (step_at_signal_check p delay env).reactor.state ≠ cReactorState.RUNNING := by
    rw [step_at_signal_check_state, step_startup_state_of_not_init p h1]
    exact h2
  unfold step_stops
  simp [hq]

theorem step_stops_spec (p : Proc) (delay : Int) (env : StepEnv)
    (h : step_stops p delay env = true) :
    (iterate_internal p delay env).proc
      = { stop_internal (step_at_signal_check p delay env) with running_reactor := none } ∧
    ((iterate_internal p delay env).proc.reactor.state = cReactorState.STOPPING
      ∨ (iterate_internal p delay env).proc.reactor.state = cReactorState.DONE) ∧
    (iterate_internal p delay env).proc.received_signal ≠ 0 := by
  unfold step_stops at h
  simp only [Bool.and_eq_true, decide_eq_true_eq, Bool.not_eq_true'] at h
  obtain ⟨⟨⟨hrun, hnf⟩, hsig⟩, hst⟩ := h
  have hnf2 : ∀ errno, env.poll ≠ PollOutcome.failed errno := by
    intro errno he
    rw [he] at hnf
    simp [PollOutcome.is_failed] at hnf
  have hproc := (iterate_internal_not_failed p delay env hrun hnf2).1
  have hcond : (cReactorUtil_RunMethods (step_after_dispatch p delay env) env.now).received_signal
        ≠ 0
      ∧ (cReactorUtil_RunMethods (step_after_dispatch p delay env) env.now).reactor.state
        = cReactorState.RUNNING := ⟨hsig, hst⟩
  have heq : (iterate_internal p delay env).proc
      = { stop_internal (step_at_signal_check p delay env) with running_reactor := none } := by
    rw [hproc, step_finish_eq_stop, if_pos hcond]
    rfl
  refine ⟨heq, ?_, ?_⟩
  · rw [heq, stop_internal_fields]
    simp only
    split_ifs
    · right; rfl
    · left; rfl
  · rw [heq, stop_internal_fields]
    exact hsig

theorem step_not_stops_spec (p : Proc) (delay : Int) (env : StepEnv)
    (hrun : p.running_reactor = none) (hnf : ∀ errno, env.poll ≠ PollOutcome.failed errno)
    (h : step_stops p delay env = false) :
    (iterate_internal p delay env).proc
      = { step_at_signal_check p delay env with running_reactor := none } := by
  have hproc := (iterate_internal_not_failed p delay env hrun hnf).1
  have hf : env.poll.is_failed = false := by
    cases hp : env.poll with
    | failed errno => exact absurd hp (hnf errno)
    | ready revents => rfl
    | EINTR => rfl
  have hcond : ¬ ((cReactorUtil_RunMethods (step_after_dispatch p delay env)
        env.now).received_signal ≠ 0
      ∧ (cReactorUtil_RunMethods (step_after_dispatch p delay env) env.now).reactor.state
        = cReactorState.RUNNING) := by
    rintro ⟨c1, c2⟩
    have c1b : (step_at_signal_check p delay env).received_signal ≠ 0 := c1
    have c2b : (step_at_signal_check p delay env).reactor.state = cReactorState.RUNNING := c2
    unfold step_stops at h
    simp [hrun, hf, c1b, c2b] at h
  rw [hproc, step_finish_eq_stop, if_neg hcond]
  rfl

theorem shutdowns_fired_stopped (ops : List LoopOp) :
    ∀ p : Proc,
      (p.reactor.state = cReactorState.STOPPING ∨ p.reactor.state = cReactorState.DONE) →
      shutdowns_fired p ops = 0 ∧
      ((apply_loop_ops p ops).reactor.state = cReactorState.STOPPING
        ∨ (apply_loop_ops p ops).reactor.state = cReactorState.DONE) := by
  induction ops with
  | nil => intro p h; exact ⟨rfl, h⟩
  | cons op ops ih =>
    intro p h
    have hnext := ih (apply_loop_op p op) (apply_loop_op_stopped p op h)
    cases op with
    | step delay env =>
      refine ⟨?_, hnext.2⟩
      simp only [shutdowns_fired, step_stops_of_stopped p delay env h]
      simpa using hnext.1
    | resolve defer_id event_type =>
      exact ⟨by simpa only [shutdowns_fired] using hnext.1, hnext.2⟩

theorem shutdowns_fired_le_one (ops : List LoopOp) :
    ∀ p : Proc, shutdowns_fired p ops ≤ 1 := by
  induction ops with
  | nil => intro p; simp [shutdowns_fired]
  | cons op ops ih =>
    intro p
    cases op with
    | step delay env =>
      by_cases hs : step_stops p delay env = true
      · have hst := (step_stops_spec p delay env hs).2.1
        have h0 := (shutdowns_fired_stopped ops
          (apply_loop_op p (LoopOp.step delay env)) hst).1
        simp only [shutdowns_fired, hs, if_true, h0]
        omega
      · have := ih (apply_loop_op p (LoopOp.step delay env))
        simp only [shutdowns_fired, hs]
        simpa using this
    | resolve defer_id event_type =>
      simpa only [shutdowns_fired] using ih (apply_loop_op p (LoopOp.resolve defer_id event_type))

/-- C24: over any sequence of steps and completion-handle resolutions on a reactor,
from any state, at most one step fires SHUTDOWN through the signal check. A step
that does so calls `stop_internal` at its signal check and ends in the state
STOPPING or DONE with the latch still non-zero; from there on, whatever steps and
resolutions follow, the state is never RUNNING and no step fires SHUTDOWN again. A
step that is not rejected, whose `poll` does not fail with an error and which does
not fire SHUTDOWN ends as it was at the signal check. -/
theorem shutdown_fired_at_most_once (p : Proc) (ops : List LoopOp) :
    shutdowns_fired p ops ≤ 1 ∧
    (∀ (delay : Int) (env : StepEnv), step_stops p delay env = true →
      (iterate_internal p delay env).proc
        = { stop_internal (step_at_signal_check p delay env) with running_reactor := none } ∧
      ((iterate_internal p delay env).proc.reactor.state = cReactorState.STOPPING
        ∨ (iterate_internal p delay env).proc.reactor.state = cReactorState.DONE) ∧
      (iterate_internal p delay env).proc.received_signal ≠ 0 ∧
      ∀ following : List LoopOp,
        (apply_loop_ops (iterate_internal p delay env).proc following).reactor.state
          ≠ cReactorState.RUNNING ∧
        shutdowns_fired (iterate_internal p delay env).proc following = 0) ∧
    (∀ (delay : Int) (env : StepEnv), p.running_reactor = none →
      (∀ errno, env.poll ≠ PollOutcome.failed errno) → step_stops p delay env = false →
      (iterate_internal p delay env).proc
        = { step_at_signal_check p delay env with running_reactor := none }) := by
  refine ⟨shutdowns_fired_le_one ops p, fun delay env hs => ?_,
    fun delay env hrun hnf hs => step_not_stops_spec p delay env hrun hnf hs⟩
  obtain ⟨h1, h2, h3⟩ := step_stops_spec p delay env hs
  refine ⟨h1, h2, h3, fun following => ?_⟩
  obtain ⟨h4, h5⟩ := shutdowns_fired_stopped following (iterate_internal p delay env).proc h2
  refine ⟨?_, h4⟩
  rcases h5 with h5 | h5 <;> rw [h5] <;> decide

/-- An instance of C24: on a new reactor, a step during which SIGINT arrives, the
same once more, and a third step with SIGINT: SHUTDOWN is fired once, by the first
step; the latch is 2 at the end. -/
theorem shutdown_fired_at_most_once_witness :
    shutdowns_fired Proc.start
        [LoopOp.step 0 sigint_ready_step, LoopOp.step 0 sigint_ready_step,
         LoopOp.step (-1) sigint_step] = 1 ∧
    step_stops Proc.start 0 sigint_ready_step = true ∧
    (apply_loop_ops Proc.start
        [LoopOp.step 0 sigint_ready_step, LoopOp.step 0 sigint_ready_step,
         LoopOp.step (-1) sigint_step]).received_signal = 2 ∧
    shutdowns_fired Proc.start
        [LoopOp.step 0 sigint_ready_step, LoopOp.step 0 sigint_ready_step] ≤ 1 :=
  ⟨by decide, by decide, by decide,
   (shutdown_fired_at_most_once Proc.start
      [LoopOp.step 0 sigint_ready_step, LoopOp.step 0 sigint_ready_step]).1⟩

end CReactor
